import Mathlib

/-!
PrjFSKext: registry, outstanding-message list and vnode interceptor.

A shallow embedding of `ActiveProviders.cpp` and `KauthHandler.cpp`.

* Pointers are natural numbers, `0` being `nullptr` / `NULLVP`.
* A pointer into `s_activeProviders` is the index of the slot.
* A C string is the list of its characters before the terminating NUL; a
  `char` buffer is the list of all its cells.
* The file system and the process table are read through an `Env`, the
  results of allocations are arguments; use-counts of vnodes and the calls
  that leave the kext are recorded in the state (`iocount`, `trace`).
* An `assert` of the source that does not hold ends the call (`assertFailed`).
* A blocked interceptor thread is woken by responses that other threads
  deliver; they are given as a schedule of batches, one batch per wait.
* Interceptor threads that overlap are followed statement by statement in a
  `Machine`: any thread, or the response handler, can make the next move.
-/

namespace PrjFS

/-! ## Constants of the kernel headers -/

/-- NULLVP of sys/vnode.h. -/
def NULLVP : Nat := 0

/-- KAUTH_RESULT_ALLOW of sys/kauth.h. -/
def KAUTH_RESULT_ALLOW : Nat := 1
/-- KAUTH_RESULT_DENY of sys/kauth.h. -/
def KAUTH_RESULT_DENY : Nat := 2
/-- KAUTH_RESULT_DEFER of sys/kauth.h. -/
def KAUTH_RESULT_DEFER : Nat := 3

/-- Vnode action bits of sys/kauth.h: READ_DATA is bit 1 and is shared with
LIST_DIRECTORY, EXECUTE is bit 3 and is shared with SEARCH. -/
def KAUTH_VNODE_READ_DATA : Nat := 2
def KAUTH_VNODE_LIST_DIRECTORY : Nat := KAUTH_VNODE_READ_DATA
def KAUTH_VNODE_WRITE_DATA : Nat := 4
def KAUTH_VNODE_EXECUTE : Nat := 8
def KAUTH_VNODE_SEARCH : Nat := KAUTH_VNODE_EXECUTE
def KAUTH_VNODE_READ_ATTRIBUTES : Nat := 128
def KAUTH_VNODE_WRITE_ATTRIBUTES : Nat := 256
def KAUTH_VNODE_READ_EXTATTRIBUTES : Nat := 512
def KAUTH_VNODE_WRITE_EXTATTRIBUTES : Nat := 1024
def KAUTH_VNODE_READ_SECURITY : Nat := 2048

/-- Error numbers of sys/errno.h (Darwin). -/
def EIO : Nat := 5
def EBUSY : Nat := 16
def ENOTDIR : Nat := 20
def EAGAIN : Int := 35

/-- Return codes of mach/kern_return.h. -/
def KERN_SUCCESS : Nat := 0
def KERN_FAILURE : Nat := 5

/-- MAXCOMLEN of sys/param.h. -/
def MAXCOMLEN : Nat := 16

/-- The capacity of the registry (ActiveProviders.cpp, line 16). -/
def MaxActiveProviders : Nat := 32

/-- Modelled from the spec: the message kinds of Message.h, which is not among
the sources; the spec gives enumerate-directory = 1, hydrate-file = 2,
response-success = 3, response-failure = 4. -/
def MessageType_KtoU_EnumerateDirectory : Nat := 1
def MessageType_KtoU_HydrateFile : Nat := 2
def MessageType_Response_Success : Nat := 3
def MessageType_Response_Fail : Nat := 4

/-- The NUL character that ends a C string. -/
def NUL : Char := Char.ofNat 0

/-! ## Data model -/

/-- Modelled from the spec: the request header of Message.h (request id of 64
bits, kind, originator pid, originator process name, path byte count). -/
structure MessageHeader where
  messageId : Nat
  messageType : Nat
  pid : Int
  procname : List Char
  pathSizeBytes : Nat
  deriving DecidableEq, Repr

/-- Modelled from the spec: the pair of Message.h that ActiveProvider_SendMessage
reads, a header and the path that follows it on the wire. -/
structure Message where
  messageHeader : MessageHeader
  path : List Char
  deriving DecidableEq, Repr

/-- The constants and layout facts that come from headers outside the sources:
PrjFSMaxPath and the two FileFlags bits of PrjFSCommon.h, and the memory image
of a MessageHeader (sizeofHeader bytes) that memcpy reads. -/
structure Config where
  PrjFSMaxPath : Nat
  FileFlags_IsInVirtualizationRoot : Nat
  FileFlags_IsEmpty : Nat
  sizeofHeader : Nat
  headerBytes : MessageHeader → List Nat

/-- The struct ActiveProvider of ActiveProviders.hpp. -/
structure ActiveProvider where
  userClient : Nat
  virtualizationRootVNode : Nat
  virtualizationRoot : List Char
  pid : Int
  deriving DecidableEq, Repr

instance : Inhabited ActiveProvider := ⟨⟨0, 0, [], 0⟩⟩

/-- The struct OutstandingMessage of KauthHandler.cpp; addr is the address of
the record, which is what the list links and what a sleeper waits on. -/
structure OutstandingMessage where
  addr : Nat
  request : MessageHeader
  response : Nat
  receivedResponse : Bool
  deriving DecidableEq, Repr

/-- Calls that leave the kext or change a reference count, in the order made. -/
inductive Event where
  | find (vnode : Nat)
  | vnodeGet (vnode : Nat)
  | vnodeGetParent (vnode : Nat) (parent : Nat)
  | vnodePut (vnode : Nat)
  | retain (userClient : Nat)
  | sendMessage (userClient : Nat) (bytes : List Nat)
  | release (userClient : Nat)
  | sleep (channel : Nat)
  | wakeup (channel : Nat)
  deriving DecidableEq, Repr

/-- What the kext reads from the rest of the kernel. -/
structure Env where
  /-- The va_flags of a vnode; none when vnode_getattr fails or va_flags is
  not supported. -/
  va_flags : Nat → Option Nat
  /-- The p_comm of a process. -/
  p_comm : Int → List Char
  vnode_isdir : Nat → Bool
  vnode_isvroot : Nat → Bool
  /-- The parent of a vnode, NULLVP when it has none. -/
  parent : Nat → Nat
  /-- The absolute path of a vnode; none when it cannot be built. -/
  path : Nat → Option (List Char)
  /-- The result of vnode_lookup: an errno and, when it is 0, the vnode. -/
  lookup : List Char → Nat × Nat

/-- The static state of the three translation units. -/
structure KextState where
  s_activeProviders : List ActiveProvider
  s_mutex : Nat
  s_outstandingMessages : List OutstandingMessage
  s_outstandingMessagesMutex : Nat
  s_nextMessageId : Int
  s_vnodeListener : Nat
  s_lockGroup : Nat
  /-- The use-count of every vnode. -/
  iocount : Nat → Int
  trace : List Event

/-- How a call ends: it returns, or the thread is still asleep when the
schedule of responses is used up, or an assert of the source fails, or the
ancestor walk was given too few steps. -/
inductive Outcome (α : Type) where
  | done (a : α)
  | blocked (st : KextState)
  | assertFailed
  | outOfFuel

/-- The state in which a call ends, when there is one. -/
def Outcome.finalState {α : Type} (f : α → KextState) : Outcome α → Option KextState
  | .done a => some (f a)
  | .blocked st => some st
  | .assertFailed => none
  | .outOfFuel => none

/-- Record a call in the trace. -/
def KextState.emit (st : KextState) (e : Event) : KextState :=
  { st with trace := st.trace ++ [e] }

/-- The function vnode_get: one more use-count on the vnode. -/
def vnode_get (st : KextState) (vnode : Nat) : KextState :=
  { st with
    iocount := fun v => if v = vnode then st.iocount v + 1 else st.iocount v
    trace := st.trace ++ [Event.vnodeGet vnode] }

/-- The function vnode_put: one use-count less on the vnode. -/
def vnode_put (st : KextState) (vnode : Nat) : KextState :=
  { st with
    iocount := fun v => if v = vnode then st.iocount v - 1 else st.iocount v
    trace := st.trace ++ [Event.vnodePut vnode] }

/-- The function vnode_getparent: the parent, with a use-count when it is not
NULLVP. -/
def vnode_getparent (env : Env) (st : KextState) (vnode : Nat) : Nat × KextState :=
  let parent := env.parent vnode
  (parent,
   { st with
     iocount := fun v => if v = parent ∧ parent ≠ NULLVP then st.iocount v + 1 else st.iocount v
     trace := st.trace ++ [Event.vnodeGetParent vnode parent] })

/-! ## C strings -/

/-- The C string held in a buffer: the cells before the first NUL. -/
def cstr (buf : List Char) : List Char :=
  buf.takeWhile (fun c => c != NUL)

/-- The function strlcpy(dst, src, size): at most size - 1 characters of src,
then a NUL; the cells after it keep their content. -/
def strlcpy (dst src : List Char) (size : Nat) : List Char :=
  if size = 0 then dst
  else
    let n := min src.length (size - 1)
    src.take n ++ NUL :: dst.drop (n + 1)

/-! ## ActiveProviders.cpp -/

/-- The zero-initialised slot of the static array. -/
def emptyProvider (cfg : Config) : ActiveProvider :=
  { userClient := 0
    virtualizationRootVNode := NULLVP
    virtualizationRoot := List.replicate cfg.PrjFSMaxPath NUL
    pid := 0 }

/-- Mutex_IsValid of Locks.cpp. -/
def Mutex_IsValid (p : Nat) : Bool := p != 0

/-- ActiveProviders_Init; mutexAlloc is what Mutex_Alloc returns. -/
def ActiveProviders_Init (mutexAlloc : Nat) (st : KextState) : Nat × KextState :=
  if Mutex_IsValid st.s_mutex then (KERN_FAILURE, st)
  else
    let st := { st with s_mutex := mutexAlloc }
    if !Mutex_IsValid st.s_mutex then (KERN_FAILURE, st)
    else (KERN_SUCCESS, st)

/-- ActiveProviders_Cleanup. -/
def ActiveProviders_Cleanup (st : KextState) : Nat × KextState :=
  if Mutex_IsValid st.s_mutex then (KERN_SUCCESS, { st with s_mutex := 0 })
  else (KERN_FAILURE, st)

/-- The for loop of ActiveProviders_Find: the first index below
MaxActiveProviders whose slot has this root vnode. -/
def scanForRoot (providers : List ActiveProvider) (vnode : Nat) : Option Nat :=
  (List.range MaxActiveProviders).find?
    (fun i => vnode == (providers.getD i default).virtualizationRootVNode)

/-- The while loop of ActiveProviders_Find, run for at most fuel iterations.
The result is the provider, the vnode on which the loop stopped and the
state; none when the loop would go on after fuel iterations. -/
def findLoop (env : Env) : Nat → Option Nat → Nat → KextState → Option (Option Nat × Nat × KextState)
  | 0, provider, vnode, st =>
    if provider.isNone && vnode != NULLVP && !env.vnode_isvroot vnode then none
    else some (provider, vnode, st)
  | fuel + 1, provider, vnode, st =>
    if provider.isNone && vnode != NULLVP && !env.vnode_isvroot vnode then
      let provider := scanForRoot st.s_activeProviders vnode
      let (parent, st) := vnode_getparent env st vnode
      let st := vnode_put st vnode
      findLoop env fuel provider parent st
    else some (provider, vnode, st)

/-- ActiveProviders_Find: the slot found (none for nullptr) and the state. -/
def ActiveProviders_Find (env : Env) (fuel : Nat) (st : KextState) (vnode : Nat) :
    Option (Option Nat × KextState) :=
  let st := st.emit (Event.find vnode)
  let st := vnode_get st vnode
  match findLoop env fuel none vnode st with
  | none => none
  | some (provider, vnode, st) =>
    let st := if vnode != NULLVP then vnode_put st vnode else st
    some (provider, st)

/-- FindUnusedIndex_Locked: the first slot with a null client, none for -1. -/
def FindUnusedIndex_Locked (providers : List ActiveProvider) : Option Nat :=
  (List.range MaxActiveProviders).find?
    (fun i => (providers.getD i default).userClient == 0)

/-- ActiveProvider_RegisterUserClient: the slot (none for nullptr) and the
state. -/
def ActiveProvider_RegisterUserClient (st : KextState) (userClient : Nat) (clientPID : Int) :
    Outcome (Option Nat × KextState) :=
  match FindUnusedIndex_Locked st.s_activeProviders with
  | none => .done (none, st)
  | some providerIndex =>
    if providerIndex < MaxActiveProviders then
      let slot := st.s_activeProviders.getD providerIndex default
      let slot := { slot with userClient := userClient, pid := clientPID }
      let st := { st with s_activeProviders := st.s_activeProviders.set providerIndex slot }
      if slot.virtualizationRootVNode = NULLVP then .done (some providerIndex, st)
      else .assertFailed
    else .assertFailed

/-- ActiveProvider_RegisterRoot: the errno and the state. -/
def ActiveProvider_RegisterRoot (cfg : Config) (env : Env) (st : KextState) (provider : Nat)
    (virtualizationRootPath : List Char) : Outcome (Nat × KextState) :=
  if provider < MaxActiveProviders then
    let (err, found) := env.lookup virtualizationRootPath
    let virtualizationRootVNode := if err = 0 then found else NULLVP
    let st := if err = 0 then vnode_get st found else st
    let slot := st.s_activeProviders.getD provider default
    let (err, virtualizationRootVNode, st) :=
      if err = 0 ∧ env.vnode_isdir virtualizationRootVNode = true then
        if slot.virtualizationRootVNode = NULLVP then
          let slot := { slot with
            virtualizationRootVNode := virtualizationRootVNode
            virtualizationRoot :=
              strlcpy slot.virtualizationRoot virtualizationRootPath cfg.PrjFSMaxPath }
          (err, NULLVP, { st with s_activeProviders := st.s_activeProviders.set provider slot })
        else (EBUSY, virtualizationRootVNode, st)
      else if err = 0 then (ENOTDIR, virtualizationRootVNode, st)
      else (err, virtualizationRootVNode, st)
    let st := if virtualizationRootVNode ≠ NULLVP then vnode_put st virtualizationRootVNode else st
    .done (err, st)
  else .assertFailed

/-- ActiveProvider_Disconnect. -/
def ActiveProvider_Disconnect (cfg : Config) (st : KextState) (provider : Nat) : Outcome KextState :=
  if provider < MaxActiveProviders then
    let slot := st.s_activeProviders.getD provider default
    if slot.userClient ≠ 0 then
      let (slot, st) :=
        if slot.virtualizationRootVNode ≠ NULLVP then
          ({ slot with virtualizationRootVNode := NULLVP }, vnode_put st slot.virtualizationRootVNode)
        else (slot, st)
      let slot := { slot with
        userClient := 0
        virtualizationRoot := List.replicate cfg.PrjFSMaxPath NUL }
      .done { st with s_activeProviders := st.s_activeProviders.set provider slot }
    else .assertFailed
  else .assertFailed

/-- The bytes that memcpy reads at a C string: its characters, the NUL, and
zeros standing for what lies behind it. -/
def bytesAt (s : List Char) (n : Nat) : List Nat :=
  (s.map Char.toNat ++ List.replicate (n - s.length) 0).take n

/-- The buffer messageMemory of ActiveProvider_SendMessage: messageSize bytes,
the image of the header, then pathSizeBytes bytes read at the path. -/
def messageMemory (cfg : Config) (message : Message) : List Nat :=
  let messageSize := (cfg.sizeofHeader + message.messageHeader.pathSizeBytes) % 2 ^ 32
  let header := (cfg.headerBytes message.messageHeader).take cfg.sizeofHeader
  let memory :=
    if message.messageHeader.pathSizeBytes > 0 then
      header ++ bytesAt message.path message.messageHeader.pathSizeBytes
    else header
  memory.take messageSize

/-- ActiveProvider_SendMessage: the errno and the state. The local userClient
is tested twice in the source, under the mutex for the retain and after it
for the send; the two tests read the same local and are one here. -/
def ActiveProvider_SendMessage (cfg : Config) (st : KextState) (provider : Nat) (message : Message) :
    Outcome (Nat × KextState) :=
  if provider < MaxActiveProviders then
    let userClient := (st.s_activeProviders.getD provider default).userClient
    if userClient ≠ 0 then
      let st := st.emit (Event.retain userClient)
      let st := st.emit (Event.sendMessage userClient (messageMemory cfg message))
      let st := st.emit (Event.release userClient)
      .done (0, st)
    else .done ( EIO, st)
  else .assertFailed

/-! ## KauthHandler.cpp -/

/-- The value and the out-error with which the interceptor returns. -/
structure HandlerResult where
  kauthResult : Nat
  kauthError : Int
  state : KextState

/-- A response that the provider sends back: request id and kind. -/
structure Response where
  messageId : Nat
  responseType : Nat
  deriving DecidableEq, Repr

/-- FileFlagsBitIsSet. -/
def FileFlagsBitIsSet (fileFlags bit : Nat) : Bool :=
  0 != (fileFlags &&& bit)

/-- ActionBitIsSet: the conversion of action & mask to bool. -/
def ActionBitIsSet (action mask : Nat) : Bool :=
  (action &&& mask) != 0

/-- IsFileSystemCrawler: strcmp against the five names. -/
def IsFileSystemCrawler (procname : List Char) : Bool :=
  if procname == "mds".toList ||
     procname == "mdworker".toList ||
     procname == "mds_stores".toList ||
     procname == "fseventsd".toList ||
     procname == "Spotlight".toList then true
  else false

/-- GetRelativePath; none when the assert on the two lengths fails. -/
def GetRelativePath (path root : List Char) : Option (List Char) :=
  if path.length ≥ root.length then
    let relativePath := path.drop root.length
    if relativePath.head? = some '/' then some (relativePath.drop 1)
    else some relativePath
  else none

/-- ReadVNodeFileFlags; none when one of its two asserts fails. -/
def ReadVNodeFileFlags (env : Env) (vn : Nat) : Option Nat :=
  env.va_flags vn

/-- The function proc_name(pid, buf, size): p_comm cut to size - 1 characters. -/
def proc_name (env : Env) (pid : Int) (size : Nat) : List Char :=
  (env.p_comm pid).take (size - 1)

/-- The function vn_getpath with a buffer of PrjFSMaxPath bytes: the path when
it is known and fits with its NUL, none for a non-zero return. -/
def vn_getpath (cfg : Config) (env : Env) (vnode : Nat) : Option (List Char) :=
  match env.path vnode with
  | none => none
  | some p => if p.length + 1 ≤ cfg.PrjFSMaxPath then some p else none

/-- The value an int holds after arithmetic on 32 bits. -/
def wrapInt32 (x : Int) : Int :=
  (x + 2 ^ 31) % 2 ^ 32 - 2 ^ 31

/-- The conversion of an int to uint64_t. -/
def toUInt64 (x : Int) : Nat :=
  (x % 2 ^ 64).toNat

/-- OSIncrementAtomic(&s_nextMessageId): the old value; the counter is a
volatile int. -/
def OSIncrementAtomic (st : KextState) : Int × KextState :=
  (st.s_nextMessageId, { st with s_nextMessageId := wrapInt32 (st.s_nextMessageId + 1) })

/-- Modelled from the spec: Message_Init of Message.h, which is not among the
sources; it fills the header with the request id (64 bits), the kind, the
originator pid, the originator process name (fixed size, NUL-terminated) and
the byte count of the path (32 bits), and pairs the header with the path. -/
def Message_Init (messageId : Nat) (messageType : Nat) (pid : Int) (procname path : List Char) :
    Message :=
  { messageHeader :=
      { messageId := messageId % 2 ^ 64
        messageType := messageType
        pid := pid
        procname := procname.take MAXCOMLEN
        pathSizeBytes := path.length % 2 ^ 32 }
    path := path }

/-- The LIST_FOREACH of KauthHandler_HandleKernelMessageResponse: the first
record with this request id takes the response; the result is the list and
the address that is woken, if any. -/
def respondFirst (messageId responseType : Nat) :
    List OutstandingMessage → List OutstandingMessage × Option Nat
  | [] => ([], none)
  | m :: rest =>
    if m.request.messageId = messageId then
      ({ m with response := responseType, receivedResponse := true } :: rest, some m.addr)
    else
      ((m :: (respondFirst messageId responseType rest).1),
       (respondFirst messageId responseType rest).2)

/-- KauthHandler_HandleKernelMessageResponse. -/
def KauthHandler_HandleKernelMessageResponse (st : KextState) (messageId responseType : Nat) :
    KextState :=
  if responseType = MessageType_Response_Success ∨ responseType = MessageType_Response_Fail then
    match respondFirst messageId responseType st.s_outstandingMessages with
    | (l, some channel) => { st with s_outstandingMessages := l }.emit (Event.wakeup channel)
    | (_, none) => st
  else st

/-- The responses that arrive during one wait, handled in order. -/
def deliver (st : KextState) (batch : List Response) : KextState :=
  batch.foldl (fun s r => KauthHandler_HandleKernelMessageResponse s r.messageId r.responseType) st

/-- The record at an address, as linked in the list. -/
def recordAt (st : KextState) (addr : Nat) : Option OutstandingMessage :=
  st.s_outstandingMessages.find? (fun m => m.addr == addr)

/-- The field message.receivedResponse of the record at an address. -/
def receivedAt (st : KextState) (addr : Nat) : Bool :=
  match recordAt st addr with
  | some m => m.receivedResponse
  | none => false

/-- The loop while (!message.receivedResponse) Sleep(5, &message): each Sleep
lasts for one batch of the schedule; the thread is still blocked when the
schedule ends with the flag false. -/
def waitForResponse (addr : Nat) : List (List Response) → KextState → Outcome KextState
  | [], st => if receivedAt st addr then .done st else .blocked st
  | batch :: rest, st =>
    if receivedAt st addr then .done st
    else waitForResponse addr rest (deliver (st.emit (Event.sleep addr)) batch)

/-- LIST_INSERT_HEAD. -/
def LIST_INSERT_HEAD (st : KextState) (m : OutstandingMessage) : KextState :=
  { st with s_outstandingMessages := m :: st.s_outstandingMessages }

/-- LIST_REMOVE of the record at an address. -/
def LIST_REMOVE (st : KextState) (addr : Nat) : KextState :=
  { st with s_outstandingMessages := st.s_outstandingMessages.eraseP (fun m => m.addr == addr) }

/-- TrySendRequestAndWaitForResponse. The argument message is the record of
the caller's frame as it is at entry; the head of the schedule arrives while
the transport call is in progress, every later batch during one Sleep. The
result is the return value, *kauthResult, *kauthError and the state; every
return path writes *kauthResult, so its value at entry is not an argument. -/
def TrySendRequestAndWaitForResponse (cfg : Config) (env : Env) (st : KextState)
    (provider : Nat) (messageType : Nat) (vnode : Nat) (pid : Int) (procname : List Char)
    (kauthError : Int)
    (message : OutstandingMessage) (schedule : List (List Response)) :
    Outcome (Bool × Nat × Int × KextState) :=
  let message := { message with receivedResponse := false }
  match vn_getpath cfg env vnode with
  | none => .done (false, KAUTH_RESULT_DENY, kauthError, st)
  | some vnodePath =>
    match GetRelativePath vnodePath
        (cstr (st.s_activeProviders.getD provider default).virtualizationRoot) with
    | none => .assertFailed
    | some relativePath =>
      let (nextMessageId, st) := OSIncrementAtomic st
      let messageSpec := Message_Init (toUInt64 nextMessageId) messageType pid procname relativePath
      let message := { message with request := messageSpec.messageHeader }
      let st := LIST_INSERT_HEAD st message
      match ActiveProvider_SendMessage cfg st provider messageSpec with
      | .assertFailed => .assertFailed
      | .outOfFuel => .outOfFuel
      | .blocked s => .blocked s
      | .done (err, st) =>
        if err ≠ 0 then
          .done (false, KAUTH_RESULT_DEFER, kauthError, LIST_REMOVE st message.addr)
        else
          match waitForResponse message.addr schedule.tail (deliver st schedule.headI) with
          | .assertFailed => .assertFailed
          | .outOfFuel => .outOfFuel
          | .blocked s => .blocked s
          | .done st =>
            let response :=
              match recordAt st message.addr with
              | some m => m.response
              | none => message.response
            if MessageType_Response_Success = response then
              .done (true, KAUTH_RESULT_DEFER, kauthError, LIST_REMOVE st message.addr)
            else
              .done (false, KAUTH_RESULT_DENY, EAGAIN, LIST_REMOVE st message.addr)

/-- What HandleVnodeOperation does with the result of
TrySendRequestAndWaitForResponse: whether it returned true or false, the
handler returns the kauthResult that the call left. -/
def asHandlerResult : Outcome (Bool × Nat × Int × KextState) → Outcome HandlerResult
  | .assertFailed => .assertFailed
  | .outOfFuel => .outOfFuel
  | .blocked s => .blocked s
  | .done (_, kauthResult, kauthError, st) => .done ⟨kauthResult, kauthError, st⟩

/-- The two identical inner blocks of HandleVnodeOperation (lines 205 to 218
and 233 to 246): when the placeholder bit is set the request is made, and
kauthResult and *kauthError are what the call leaves in them. -/
def requestIfEmpty (cfg : Config) (env : Env) (st : KextState) (provider : Nat)
    (messageType : Nat) (pid : Int) (procname : List Char) (currentVnode : Nat)
    (currentVnodeFileFlags : Nat) (kauthResult : Nat) (kauthError : Int)
    (message : OutstandingMessage) (schedule : List (List Response)) : Outcome HandlerResult :=
  if FileFlagsBitIsSet currentVnodeFileFlags cfg.FileFlags_IsEmpty then
    asHandlerResult (TrySendRequestAndWaitForResponse cfg env st provider messageType
      currentVnode pid procname kauthError message schedule)
  else .done ⟨kauthResult, kauthError, st⟩

/-- The part of HandleVnodeOperation after the provider's pid was compared:
lines 195 to 251. -/
def dispatch (cfg : Config) (env : Env) (st : KextState) (provider : Nat) (action : Nat)
    (pid : Int) (procname : List Char) (currentVnode : Nat) (currentVnodeFileFlags : Nat)
    (kauthResult : Nat) (kauthError : Int)
    (message : OutstandingMessage) (schedule : List (List Response)) : Outcome HandlerResult :=
  if env.vnode_isdir currentVnode then
    if ActionBitIsSet action
        (KAUTH_VNODE_LIST_DIRECTORY |||
         KAUTH_VNODE_SEARCH |||
         KAUTH_VNODE_READ_SECURITY |||
         KAUTH_VNODE_READ_ATTRIBUTES |||
         KAUTH_VNODE_READ_EXTATTRIBUTES) then
      requestIfEmpty cfg env st provider MessageType_KtoU_EnumerateDirectory pid procname
        currentVnode currentVnodeFileFlags kauthResult kauthError message schedule
    else .done ⟨kauthResult, kauthError, st⟩
  else
    if ActionBitIsSet action
        (KAUTH_VNODE_READ_ATTRIBUTES |||
         KAUTH_VNODE_WRITE_ATTRIBUTES |||
         KAUTH_VNODE_READ_EXTATTRIBUTES |||
         KAUTH_VNODE_WRITE_EXTATTRIBUTES |||
         KAUTH_VNODE_READ_DATA |||
         KAUTH_VNODE_WRITE_DATA |||
         KAUTH_VNODE_EXECUTE) then
      requestIfEmpty cfg env st provider MessageType_KtoU_HydrateFile pid procname
        currentVnode currentVnodeFileFlags kauthResult kauthError message schedule
    else .done ⟨kauthResult, kauthError, st⟩

/-- HandleVnodeOperation. The context is given by the pid of the calling
process, arg3 by the value of *kauthError at entry; message is the record of
the frame of TrySendRequestAndWaitForResponse. -/
def HandleVnodeOperation (cfg : Config) (env : Env) (fuel : Nat) (st : KextState)
    (action : Nat) (pid : Int) (currentVnode : Nat) (kauthError : Int)
    (message : OutstandingMessage) (schedule : List (List Response)) : Outcome HandlerResult :=
  let kauthResult := KAUTH_RESULT_DEFER
  match ReadVNodeFileFlags env currentVnode with
  | none => .assertFailed
  | some currentVnodeFileFlags =>
    if !FileFlagsBitIsSet currentVnodeFileFlags cfg.FileFlags_IsInVirtualizationRoot then
      .done ⟨KAUTH_RESULT_DEFER, kauthError, st⟩
    else
      let procname := proc_name env pid (MAXCOMLEN + 1)
      if FileFlagsBitIsSet currentVnodeFileFlags cfg.FileFlags_IsEmpty &&
          IsFileSystemCrawler procname then
        .done ⟨KAUTH_RESULT_DENY, kauthError, st⟩
      else
        match ActiveProviders_Find env fuel st currentVnode with
        | none => .outOfFuel
        | some (none, st) => .done ⟨KAUTH_RESULT_DEFER, kauthError, st⟩
        | some (some provider, st) =>
          if pid = (st.s_activeProviders.getD provider default).pid then
            .done ⟨KAUTH_RESULT_DEFER, kauthError, st⟩
          else
            dispatch cfg env st provider action pid procname currentVnode currentVnodeFileFlags
              kauthResult kauthError message schedule

/-- KauthHandler_Cleanup. -/
def KauthHandler_Cleanup (st : KextState) : Nat × KextState :=
  let result := KERN_SUCCESS
  let (result, st) :=
    if st.s_vnodeListener ≠ 0 then (result, { st with s_vnodeListener := 0 })
    else (KERN_FAILURE, st)
  let (r, st) := ActiveProviders_Cleanup st
  let result := if r ≠ 0 then KERN_FAILURE else result
  let (result, st) :=
    if Mutex_IsValid st.s_outstandingMessagesMutex then
      (result, { st with s_outstandingMessagesMutex := 0 })
    else (KERN_FAILURE, st)
  (result, st)

/-- What the allocating calls of KauthHandler_Init return: the two Mutex_Alloc
and kauth_listen_scope (0 when they fail). -/
structure InitAllocs where
  outstandingMessagesMutex : Nat
  registryMutex : Nat
  vnodeListener : Nat

/-- KauthHandler_Init. -/
def KauthHandler_Init (a : InitAllocs) (st : KextState) : Nat × KextState :=
  if st.s_vnodeListener ≠ 0 then (KERN_FAILURE, (KauthHandler_Cleanup st).2)
  else
    let st := { st with s_outstandingMessages := [], s_nextMessageId := 1 }
    let st := { st with s_outstandingMessagesMutex := a.outstandingMessagesMutex }
    if !Mutex_IsValid st.s_outstandingMessagesMutex then (KERN_FAILURE, (KauthHandler_Cleanup st).2)
    else
      let (r, st) := ActiveProviders_Init a.registryMutex st
      if r ≠ 0 then (KERN_FAILURE, (KauthHandler_Cleanup st).2)
      else
        let st := { st with s_vnodeListener := a.vnodeListener }
        if st.s_vnodeListener = 0 then (KERN_FAILURE, (KauthHandler_Cleanup st).2)
        else (KERN_SUCCESS, st)

/-- The state of the kext when it is loaded: zeroed statics. -/
def loadedState (cfg : Config) (iocount : Nat → Int) : KextState :=
  { s_activeProviders := List.replicate MaxActiveProviders (emptyProvider cfg)
    s_mutex := 0
    s_outstandingMessages := []
    s_outstandingMessagesMutex := 0
    s_nextMessageId := 0
    s_vnodeListener := 0
    s_lockGroup := 0
    iocount := iocount
    trace := [] }

/-! ## A concrete scenario -/

/-- The bytes of a number, least significant first, on k bytes. -/
def leBytes : Nat → Nat → List Nat
  | 0, _ => []
  | k + 1, n => n % 256 :: leBytes k (n / 256)

/-- A layout of the header: id on 8 bytes, kind on 4, pid on 4, name on
MAXCOMLEN + 1, path byte count on 4. -/
def sampleHeaderBytes (h : MessageHeader) : List Nat :=
  leBytes 8 h.messageId ++ leBytes 4 h.messageType ++ leBytes 4 (h.pid % 2 ^ 32).toNat ++
    bytesAt h.procname (MAXCOMLEN + 1) ++ leBytes 4 h.pathSizeBytes

/-- A configuration: paths of 1024 bytes, the two flag bits 8 and 16. -/
def sampleConfig : Config :=
  { PrjFSMaxPath := 1024
    FileFlags_IsInVirtualizationRoot := 8
    FileFlags_IsEmpty := 16
    sizeofHeader := 37
    headerBytes := sampleHeaderBytes }

/-- A file system: 1 is the root directory, 2 is /R, 3 is /R/a.txt, 4 is
/R/sub, 5 is /elsewhere, 6 is /elsewhere/f, 7 is a file below /R whose path
cannot be built, 8 is /R/b.txt; 3, 4 and 7 are placeholders, 8 is hydrated.
Process 77 is the provider, 200 is mds, any other process is cat. -/
def sampleEnv : Env :=
  { va_flags := fun v =>
      if v = 2 then some 8
      else if v = 3 ∨ v = 4 ∨ v = 7 then some 24
      else if v = 8 then some 8
      else if v = 1 ∨ v = 5 ∨ v = 6 then some 0
      else none
    p_comm := fun p =>
      if p = 77 then "GVFS.Mount".toList
      else if p = 200 then "mds".toList
      else "cat".toList
    vnode_isdir := fun v => v = 1 ∨ v = 2 ∨ v = 4 ∨ v = 5
    vnode_isvroot := fun v => v = 1
    parent := fun v =>
      if v = 2 ∨ v = 5 then 1
      else if v = 3 ∨ v = 4 ∨ v = 7 ∨ v = 8 then 2
      else if v = 6 then 5
      else 0
    path := fun v =>
      if v = 1 then some "/".toList
      else if v = 2 then some "/R".toList
      else if v = 3 then some "/R/a.txt".toList
      else if v = 4 then some "/R/sub".toList
      else if v = 5 then some "/elsewhere".toList
      else if v = 6 then some "/elsewhere/f".toList
      else if v = 8 then some "/R/b.txt".toList
      else none
    lookup := fun p =>
      if p = "/R".toList then (0, 2)
      else if p = "/R/a.txt".toList then (0, 3)
      else (2, 0) }

/-- The slot of the provider 77 with client 1001 and root /R. -/
def sampleProvider : ActiveProvider :=
  { userClient := 1001
    virtualizationRootVNode := 2
    virtualizationRoot := strlcpy (List.replicate 1024 NUL) "/R".toList 1024
    pid := 77 }

/-- The state after start, one client registration and one root
registration. -/
def sampleState : KextState :=
  { s_activeProviders := sampleProvider :: List.replicate 31 (emptyProvider sampleConfig)
    s_mutex := 501
    s_outstandingMessages := []
    s_outstandingMessagesMutex := 500
    s_nextMessageId := 1
    s_vnodeListener := 502
    s_lockGroup := 499
    iocount := fun v => if v = 2 then 1 else 0
    trace := [] }

/-- The record of a caller's frame before it is written. -/
def sampleFrame : OutstandingMessage :=
  { addr := 9000
    request := ⟨0, 0, 0, [], 0⟩
    response := 0
    receivedResponse := true }

/-- What a call returned: its verdict and out-error. -/
def verdict : Outcome HandlerResult → Option (Nat × Int)
  | .done r => some (r.kauthResult, r.kauthError)
  | _ => none

/-- The buffers handed to the transport, in order. -/
def sentBuffers : List Event → List (Nat × List Nat)
  | [] => []
  | Event.sendMessage c b :: rest => (c, b) :: sentBuffers rest
  | _ :: rest => sentBuffers rest

/-- The five process names of IsFileSystemCrawler. -/
def crawlerNames : List (List Char) :=
  ["mds".toList, "mdworker".toList, "mds_stores".toList, "fseventsd".toList, "Spotlight".toList]

/-- The calls of the ancestor walk. -/
def Event.isVnodeOp : Event → Bool
  | .find _ => true
  | .vnodeGet _ => true
  | .vnodeGetParent _ _ => true
  | .vnodePut _ => true
  | _ => false

/-- The statics of the kext agree in the two states, and the trace of the
second is the trace of the first followed by calls of the ancestor walk only;
the use-counts may differ. -/
structure WalkFrame (st st' : KextState) : Prop where
  providers : st'.s_activeProviders = st.s_activeProviders
  mutex : st'.s_mutex = st.s_mutex
  outstanding : st'.s_outstandingMessages = st.s_outstandingMessages
  outstandingMutex : st'.s_outstandingMessagesMutex = st.s_outstandingMessagesMutex
  nextMessageId : st'.s_nextMessageId = st.s_nextMessageId
  vnodeListener : st'.s_vnodeListener = st.s_vnodeListener
  lockGroup : st'.s_lockGroup = st.s_lockGroup
  trace : ∃ rest, st'.trace = st.trace ++ rest ∧ ∀ e ∈ rest, Event.isVnodeOp e = true

/-- The record that TrySendRequestAndWaitForResponse links: the record of the
frame with the flag cleared and the header that Message_Init fills for the
next id of the state. -/
def requestRecord (st : KextState) (messageType : Nat) (pid : Int) (procname : List Char)
    (relativePath : List Char) (message : OutstandingMessage) : OutstandingMessage :=
  { addr := message.addr
    request := (Message_Init (toUInt64 st.s_nextMessageId) messageType pid procname
      relativePath).messageHeader
    response := message.response
    receivedResponse := false }

/-- The state right after LIST_INSERT_HEAD in TrySendRequestAndWaitForResponse:
the counter is incremented and the record is the head of the list. -/
def enqueuedState (st : KextState) (messageType : Nat) (pid : Int) (procname : List Char)
    (relativePath : List Char) (message : OutstandingMessage) : KextState :=
  { st with
    s_nextMessageId := wrapInt32 (st.s_nextMessageId + 1)
    s_outstandingMessages :=
      requestRecord st messageType pid procname relativePath message :: st.s_outstandingMessages }

/-- A response kind that KauthHandler_HandleKernelMessageResponse accepts. -/
def isResponseKind (responseType : Nat) : Prop :=
  responseType = MessageType_Response_Success ∨ responseType = MessageType_Response_Fail

instance (responseType : Nat) : Decidable (isResponseKind responseType) := by
  unfold isResponseKind
  infer_instance

/-- Two requests in flight: ids 5 and 6, the later one at the head. -/
def sampleOutstanding : KextState :=
  { sampleState with
    s_nextMessageId := 7
    s_outstandingMessages :=
      [⟨9100, ⟨6, 2, 101, "cat".toList, 5⟩, 0, false⟩,
       ⟨9000, ⟨5, 2, 100, "cat".toList, 5⟩, 0, false⟩] }

/-- A run of ActiveProvider_RegisterUserClient calls, one per pair of client
handle and pid, with no other call between them: the slots returned, in
order, and the last state. -/
def registerClients (st : KextState) : List (Nat × Int) → Outcome (List (Option Nat) × KextState)
  | [] => .done ([], st)
  | (userClient, clientPID) :: rest =>
    match ActiveProvider_RegisterUserClient st userClient clientPID with
    | .done (slot, st1) =>
      match registerClients st1 rest with
      | .done (slots, st2) => .done (slot :: slots, st2)
      | .blocked s => .blocked s
      | .assertFailed => .assertFailed
      | .outOfFuel => .outOfFuel
    | .blocked s => .blocked s
    | .assertFailed => .assertFailed
    | .outOfFuel => .outOfFuel

/-- The slot that a registration of this client and pid leaves. -/
def registeredProvider (cfg : Config) (c : Nat × Int) : ActiveProvider :=
  { emptyProvider cfg with userClient := c.1, pid := c.2 }

/-- Thirty-two clients, handles 1001 to 1032 with pids 1 to 32. -/
def sampleClients : List (Nat × Int) :=
  (List.range 32).map (fun k => (1001 + k, (k : Int) + 1))

/-- The registry in which the first slots hold the given clients, in order,
and every other slot is zeroed. -/
def registryAfter (cfg : Config) (clients : List (Nat × Int)) : List ActiveProvider :=
  clients.map (registeredProvider cfg) ++
    List.replicate (MaxActiveProviders - clients.length) (emptyProvider cfg)

/-- The request ids of n allocations in a row, as line 311 allocates them and
line 314 stores them in the 64-bit field of the header, and the state after
the last one. -/
def issueIds : Nat → KextState → List Nat × KextState
  | 0, st => ([], st)
  | n + 1, st =>
    let (nextMessageId, st1) := OSIncrementAtomic st
    let (ids, st2) := issueIds n st1
    (toUInt64 nextMessageId :: ids, st2)

/-- Allocations that all succeed. -/
def sampleAllocs : InitAllocs :=
  { outstandingMessagesMutex := 500
    registryMutex := 501
    vnodeListener := 502 }

/-- The handler right after a first successful KauthHandler_Init. -/
def sampleInitialised : KextState :=
  (KauthHandler_Init sampleAllocs (loadedState sampleConfig (fun _ => 0))).2

/-- The handler after one request id was issued, KauthHandler_Cleanup was run
and KauthHandler_Init was run again. -/
def sampleReinitialised : KextState :=
  (KauthHandler_Init sampleAllocs (KauthHandler_Cleanup (issueIds 1 sampleInitialised).2).2).2

/-- The actions that trigger the enumeration of a directory, as the spec lists
them. -/
def directoryTriggerBits : List Nat :=
  [KAUTH_VNODE_LIST_DIRECTORY, KAUTH_VNODE_SEARCH, KAUTH_VNODE_READ_SECURITY,
   KAUTH_VNODE_READ_ATTRIBUTES, KAUTH_VNODE_READ_EXTATTRIBUTES]

/-- The actions that trigger the hydration of a file, as the spec lists
them. -/
def fileTriggerBits : List Nat :=
  [KAUTH_VNODE_READ_DATA, KAUTH_VNODE_WRITE_DATA, KAUTH_VNODE_EXECUTE,
   KAUTH_VNODE_READ_ATTRIBUTES, KAUTH_VNODE_WRITE_ATTRIBUTES,
   KAUTH_VNODE_READ_EXTATTRIBUTES, KAUTH_VNODE_WRITE_EXTATTRIBUTES]

/-- The action bitmask intersects the trigger set of the target. -/
def Triggers (env : Env) (action vnode : Nat) : Prop :=
  if env.vnode_isdir vnode then ∃ bit ∈ directoryTriggerBits, action &&& bit ≠ 0
  else ∃ bit ∈ fileTriggerBits, action &&& bit ≠ 0

instance (env : Env) (action vnode : Nat) : Decidable (Triggers env action vnode) := by
  unfold Triggers
  infer_instance

/-- The request kind of the target, as the spec lists it. -/
def requestKind (env : Env) (vnode : Nat) : Nat :=
  if env.vnode_isdir vnode then MessageType_KtoU_EnumerateDirectory
  else MessageType_KtoU_HydrateFile

/-- The access passes the fast-path checks of HandleVnodeOperation: the flag
word is read and has the in-root bit, the crawler rule does not deny,
ActiveProviders_Find returns the slot provider, and the pid of the caller is
not the pid of that slot. -/
structure PassesFastPath (cfg : Config) (env : Env) (fuel : Nat) (st : KextState) (pid : Int)
    (currentVnode flags provider : Nat) : Prop where
  flags_read : ReadVNodeFileFlags env currentVnode = some flags
  in_root : flags &&& cfg.FileFlags_IsInVirtualizationRoot ≠ 0
  not_denied : ¬ (flags &&& cfg.FileFlags_IsEmpty ≠ 0 ∧ env.p_comm pid ∈ crawlerNames)
  found : (ActiveProviders_Find env fuel st currentVnode).map Prod.fst = some (some provider)
  other_pid : pid ≠ (st.s_activeProviders.getD provider default).pid

/-- What one response does to a linked record. -/
def answerRecord (m : OutstandingMessage) (r : Response) : OutstandingMessage :=
  if isResponseKind r.responseType ∧ m.request.messageId = r.messageId then
    { m with response := r.responseType, receivedResponse := true }
  else m

/-- The schedule answers the request id with the kind: a batch holds a
response with the id and this kind, which is an accepted one; no earlier
batch holds an accepted response to the id, and in the batch itself no
accepted response to the id comes later. -/
def AnsweredWith (schedule : List (List Response)) (messageId kind : Nat) : Prop :=
  isResponseKind kind ∧
  ∃ pre before after post,
    schedule = pre ++ (before ++ ⟨messageId, kind⟩ :: after) :: post ∧
    (∀ b ∈ pre, ∀ r ∈ b, r.messageId = messageId → ¬ isResponseKind r.responseType) ∧
    (∀ r ∈ after, r.messageId = messageId → ¬ isResponseKind r.responseType)

/-- The three calls that ActiveProvider_SendMessage makes on a client for the
request that TrySendRequestAndWaitForResponse builds in a state. -/
def sendCalls (cfg : Config) (st : KextState) (provider messageType : Nat) (pid : Int)
    (procname relativePath : List Char) : List Event :=
  [Event.retain (st.s_activeProviders.getD provider default).userClient,
   Event.sendMessage (st.s_activeProviders.getD provider default).userClient
     (messageMemory cfg
       (Message_Init (toUInt64 st.s_nextMessageId) messageType pid procname relativePath)),
   Event.release (st.s_activeProviders.getD provider default).userClient]

/-- The state right after a successful ActiveProvider_SendMessage in
TrySendRequestAndWaitForResponse. -/
def sentState (cfg : Config) (st : KextState) (provider messageType : Nat) (pid : Int)
    (procname relativePath : List Char) (message : OutstandingMessage) : KextState :=
  { enqueuedState st messageType pid procname relativePath message with
    trace := st.trace ++ sendCalls cfg st provider messageType pid procname relativePath }

/-- The calls of the wait for a response: Sleep and wakeup. -/
def Event.isWaitOp : Event → Bool
  | .sleep _ => true
  | .wakeup _ => true
  | _ => false

/-- The trace of the second state is the trace of the first followed by Sleep
and wakeup calls only. -/
def WaitTrace (st st' : KextState) : Prop :=
  ∃ rest, st'.trace = st.trace ++ rest ∧ ∀ e ∈ rest, Event.isWaitOp e = true

/-- The sample state with the client handle of slot 0 cleared and its root
still set, as a root registration on a disconnected slot leaves it. -/
def sampleStateNoClient : KextState :=
  { sampleState with
    s_activeProviders :=
      { sampleProvider with userClient := 0 } ::
        List.replicate 31 (emptyProvider sampleConfig) }

/-! ## Locks.cpp and PrjFSKext.cpp -/

/-- Locks_Init; lockGroupAlloc is what lck_grp_alloc_init returns. -/
def Locks_Init (lockGroupAlloc : Nat) (st : KextState) : Nat × KextState :=
  if st.s_lockGroup ≠ 0 then (KERN_FAILURE, st)
  else
    let st := { st with s_lockGroup := lockGroupAlloc }
    if st.s_lockGroup = 0 then (KERN_FAILURE, st)
    else (KERN_SUCCESS, st)

/-- Locks_Cleanup. -/
def Locks_Cleanup (st : KextState) : Nat × KextState :=
  if st.s_lockGroup ≠ 0 then (KERN_SUCCESS, { st with s_lockGroup := 0 })
  else (KERN_FAILURE, st)

/-- What the calls of PrjFSKext_Start return that are not decided by the
state: the return codes of Memory_Init and Memory_Cleanup (Memory.hpp is not
among the sources; the two calls touch none of the statics modelled here),
the lock group that lck_grp_alloc_init returns, and the allocations of
KauthHandler_Init. -/
structure StartAllocs where
  memoryInit : Nat
  memoryCleanup : Nat
  lockGroup : Nat
  handler : InitAllocs

/-- PrjFSKext_Stop: every tier is called, the result is KERN_FAILURE when one
of them failed. -/
def PrjFSKext_Stop (memoryCleanup : Nat) (st : KextState) : Nat × KextState :=
  let result := KERN_SUCCESS
  let (r, st) := KauthHandler_Cleanup st
  let result := if r ≠ 0 then KERN_FAILURE else result
  let (r, st) := Locks_Cleanup st
  let result := if r ≠ 0 then KERN_FAILURE else result
  let result := if memoryCleanup ≠ 0 then KERN_FAILURE else result
  (result, st)

/-- PrjFSKext_Start. -/
def PrjFSKext_Start (a : StartAllocs) (st : KextState) : Nat × KextState :=
  if a.memoryInit ≠ 0 then (KERN_FAILURE, (PrjFSKext_Stop a.memoryCleanup st).2)
  else
    let (r, st) := Locks_Init a.lockGroup st
    if r ≠ 0 then (KERN_FAILURE, (PrjFSKext_Stop a.memoryCleanup st).2)
    else
      let (r, st) := KauthHandler_Init a.handler st
      if r ≠ 0 then (KERN_FAILURE, (PrjFSKext_Stop a.memoryCleanup st).2)
      else (KERN_SUCCESS, st)

/-- Allocations of a module start that all succeed. -/
def sampleStartAllocs : StartAllocs :=
  { memoryInit := 0
    memoryCleanup := 0
    lockGroup := 499
    handler := sampleAllocs }

/-- The loaded kext after the handler was initialised and the provider 77
registered its client 1001: slot 0 is occupied and has no root yet. -/
def sampleRegistered : KextState :=
  { sampleInitialised with s_activeProviders := registryAfter sampleConfig [(1001, 77)] }

/-- The references that the calls of a trace hold on a client: one more for
each retain, one less for each release. -/
def referencesHeld (userClient : Nat) : List Event → Int
  | [] => 0
  | Event.retain c :: rest =>
    (if c = userClient then 1 else 0) + referencesHeld userClient rest
  | Event.release c :: rest =>
    (if c = userClient then -1 else 0) + referencesHeld userClient rest
  | _ :: rest => referencesHeld userClient rest

/-- A request for the file a.txt as TrySendRequestAndWaitForResponse builds
it. -/
def sampleMessage : Message :=
  Message_Init 1 MessageType_KtoU_HydrateFile 100 "cat".toList "a.txt".toList

/-- The vnode reached from a vnode by k calls of vnode_getparent. -/
def ancestor (env : Env) : Nat → Nat → Nat
  | 0, vnode => vnode
  | k + 1, vnode => ancestor env k (env.parent vnode)

/-- The vnodes on which the ancestor walk ends without a match: the null vnode
and the root of a file system. -/
def endsWalk (env : Env) (vnode : Nat) : Bool :=
  vnode == NULLVP || env.vnode_isvroot vnode

/-- The depth of a vnode: the number of parent steps to the first vnode that is
null or the root of a file system. -/
def HasDepth (env : Env) (vnode d : Nat) : Prop :=
  endsWalk env (ancestor env d vnode) = true ∧
    ∀ k, k < d → endsWalk env (ancestor env k vnode) = false

instance (env : Env) (vnode d : Nat) : Decidable (HasDepth env vnode d) := by
  unfold HasDepth
  infer_instance

/-- The calls of n iterations of the loop of ActiveProviders_Find that start at
a vnode: the parent is fetched, then the vnode is put. -/
def walkEvents (env : Env) : Nat → Nat → List Event
  | 0, _ => []
  | n + 1, vnode =>
    Event.vnodeGetParent vnode (env.parent vnode) :: Event.vnodePut vnode ::
      walkEvents env n (env.parent vnode)

/-- The number of iterations of the loop of ActiveProviders_Find in a trace:
each iteration calls vnode_getparent once, and nothing else does. -/
def loopIterations : List Event → Nat
  | [] => 0
  | Event.vnodeGetParent _ _ :: rest => loopIterations rest + 1
  | _ :: rest => loopIterations rest

/-- The use-counts on a vnode that the calls of a trace took and did not give
back: vnode_get and a vnode_getparent with a non-null result take one,
vnode_put gives one back. -/
def heldBy (u : Nat) : List Event → Int
  | [] => 0
  | Event.vnodeGet v :: rest => (if u = v then 1 else 0) + heldBy u rest
  | Event.vnodeGetParent _ p :: rest => (if u = p ∧ p ≠ NULLVP then 1 else 0) + heldBy u rest
  | Event.vnodePut v :: rest => (if u = v then -1 else 0) + heldBy u rest
  | _ :: rest => heldBy u rest

/-- The slot is the lowest-indexed one whose root vnode is this vnode. -/
def IsFirstSlot (providers : List ActiveProvider) (vnode i : Nat) : Prop :=
  i < MaxActiveProviders ∧ (providers.getD i default).virtualizationRootVNode = vnode ∧
    ∀ j, j < i → (providers.getD j default).virtualizationRootVNode ≠ vnode

/-- The file system of sampleEnv in which the path / resolves as well, to the
root directory 1, the root of the file system. -/
def volumeEnv : Env :=
  { sampleEnv with
    lookup := fun p => if p = "/".toList then (0, 1) else sampleEnv.lookup p }

/-- A call of the interface of the registry. -/
inductive RegistryCall where
  | registerUserClient (userClient : Nat) (clientPID : Int)
  | registerRoot (provider : Nat) (virtualizationRootPath : List Char)
  | disconnect (provider : Nat)

/-- The state in which one call of the registry leaves the kext. -/
def applyCall (cfg : Config) (env : Env) (st : KextState) : RegistryCall → Outcome KextState
  | .registerUserClient userClient clientPID =>
    match ActiveProvider_RegisterUserClient st userClient clientPID with
    | .done (_, st) => .done st
    | .blocked s => .blocked s
    | .assertFailed => .assertFailed
    | .outOfFuel => .outOfFuel
  | .registerRoot provider virtualizationRootPath =>
    match ActiveProvider_RegisterRoot cfg env st provider virtualizationRootPath with
    | .done (_, st) => .done st
    | .blocked s => .blocked s
    | .assertFailed => .assertFailed
    | .outOfFuel => .outOfFuel
  | .disconnect provider => ActiveProvider_Disconnect cfg st provider

/-- A sequence of calls of the registry, one after the other; it ends at the
first call that does not return. -/
def runCalls (cfg : Config) (env : Env) : KextState → List RegistryCall → Outcome KextState
  | st, [] => .done st
  | st, call :: rest =>
    match applyCall cfg env st call with
    | .done st => runCalls cfg env st rest
    | .blocked s => .blocked s
    | .assertFailed => .assertFailed
    | .outOfFuel => .outOfFuel

/-- No two slots hold the same non-null root vnode. -/
def DistinctRoots (providers : List ActiveProvider) : Prop :=
  ∀ i j, i < MaxActiveProviders → j < MaxActiveProviders → i ≠ j →
    (providers.getD i default).virtualizationRootVNode ≠ NULLVP →
    (providers.getD i default).virtualizationRootVNode ≠
      (providers.getD j default).virtualizationRootVNode

/-- No slot other than the given one holds the vnode as its root. -/
def rootIsFree (providers : List ActiveProvider) (provider vnode : Nat) : Bool :=
  (List.range MaxActiveProviders).all
    (fun j => j == provider || (providers.getD j default).virtualizationRootVNode != vnode)

/-- A call that is not a root registration, or one whose path does not
resolve, or resolves to a vnode that no other slot holds as its root. -/
def callIsFresh (env : Env) (st : KextState) : RegistryCall → Bool
  | .registerRoot provider virtualizationRootPath =>
    (env.lookup virtualizationRootPath).1 != 0 ||
      rootIsFree st.s_activeProviders provider (env.lookup virtualizationRootPath).2
  | _ => true

/-- Every call of the sequence is fresh in the state in which it is made. -/
def callsAreFresh (cfg : Config) (env : Env) : KextState → List RegistryCall → Bool
  | _, [] => true
  | st, call :: rest =>
    callIsFresh env st call &&
      match applyCall cfg env st call with
      | .done st => callsAreFresh cfg env st rest
      | _ => true

/-- What identifies the records linked in the outstanding-message list, in
order: the address of each record and the request it holds. -/
def recordKeys (l : List OutstandingMessage) : List (Nat × MessageHeader) :=
  l.map (fun m => (m.addr, m.request))

/-- The list of the state is the given list with one record linked at its
head, at the given address and with the given request id. -/
def HeadLinked (old : List OutstandingMessage) (addr messageId : Nat) (s : KextState) : Prop :=
  ∃ m, s.s_outstandingMessages = m :: old ∧ m.addr = addr ∧ m.request.messageId = messageId

/-- Every response of the schedule is for the given request id or for an id
that no record of the list has. -/
def AnswersOnly (schedule : List (List Response)) (messageId : Nat)
    (old : List OutstandingMessage) : Prop :=
  ∀ b ∈ schedule, ∀ r ∈ b,
    r.messageId = messageId ∨ ∀ m ∈ old, m.request.messageId ≠ r.messageId

/-- A call that is a client registration, or a root registration or a
disconnect on a slot of the array whose client handle is not null. -/
def callOnOccupied (st : KextState) : RegistryCall → Bool
  | .registerUserClient _ _ => true
  | .registerRoot provider _ =>
    decide (provider < MaxActiveProviders) &&
      (st.s_activeProviders.getD provider default).userClient != 0
  | .disconnect provider =>
    decide (provider < MaxActiveProviders) &&
      (st.s_activeProviders.getD provider default).userClient != 0

/-- Every call of the sequence is on an occupied slot in the state in which it
is made. -/
def callsOnOccupied (cfg : Config) (env : Env) : KextState → List RegistryCall → Bool
  | _, [] => true
  | st, call :: rest =>
    callOnOccupied st call &&
      match applyCall cfg env st call with
      | .done st => callsOnOccupied cfg env st rest
      | _ => true

/-- Every slot with a null client handle has a null root vnode: what the
assert of ActiveProvider_RegisterUserClient relies on. -/
def FreeSlotsRootless (providers : List ActiveProvider) : Prop :=
  ∀ i, i < MaxActiveProviders → (providers.getD i default).userClient = 0 →
    (providers.getD i default).virtualizationRootVNode = NULLVP

/-! ## Interceptors that overlap

HandleVnodeOperation runs on the thread of the process that makes the access,
and several threads can be inside it at once. The outstanding-message list is
read and written under s_outstandingMessagesMutex only, by LIST_INSERT_HEAD
and LIST_REMOVE in TrySendRequestAndWaitForResponse and by
KauthHandler_HandleKernelMessageResponse; the mutex is not held between these.
A thread is followed statement by statement, and any thread or the response
handler can come next. -/

/-- What HandleVnodeOperation has decided when it either returns without a
request or calls TrySendRequestAndWaitForResponse. -/
inductive Interception where
  | returns (kauthResult : Nat) (st : KextState)
  | requests (provider messageType : Nat) (procname : List Char) (st : KextState)

/-- HandleVnodeOperation up to its return or its call of
TrySendRequestAndWaitForResponse (lines 129 to 251 without the call). -/
def HandleVnodeOperation_untilRequest (cfg : Config) (env : Env) (fuel : Nat) (st : KextState)
    (action : Nat) (pid : Int) (currentVnode : Nat) : Outcome Interception :=
  match ReadVNodeFileFlags env currentVnode with
  | none => .assertFailed
  | some currentVnodeFileFlags =>
    if !FileFlagsBitIsSet currentVnodeFileFlags cfg.FileFlags_IsInVirtualizationRoot then
      .done (.returns KAUTH_RESULT_DEFER st)
    else
      let procname := proc_name env pid (MAXCOMLEN + 1)
      if FileFlagsBitIsSet currentVnodeFileFlags cfg.FileFlags_IsEmpty &&
          IsFileSystemCrawler procname then
        .done (.returns KAUTH_RESULT_DENY st)
      else
        match ActiveProviders_Find env fuel st currentVnode with
        | none => .outOfFuel
        | some (none, st) => .done (.returns KAUTH_RESULT_DEFER st)
        | some (some provider, st) =>
          if pid = (st.s_activeProviders.getD provider default).pid then
            .done (.returns KAUTH_RESULT_DEFER st)
          else if env.vnode_isdir currentVnode then
            if ActionBitIsSet action
                (KAUTH_VNODE_LIST_DIRECTORY |||
                 KAUTH_VNODE_SEARCH |||
                 KAUTH_VNODE_READ_SECURITY |||
                 KAUTH_VNODE_READ_ATTRIBUTES |||
                 KAUTH_VNODE_READ_EXTATTRIBUTES) then
              if FileFlagsBitIsSet currentVnodeFileFlags cfg.FileFlags_IsEmpty then
                .done (.requests provider MessageType_KtoU_EnumerateDirectory procname st)
              else .done (.returns KAUTH_RESULT_DEFER st)
            else .done (.returns KAUTH_RESULT_DEFER st)
          else
            if ActionBitIsSet action
                (KAUTH_VNODE_READ_ATTRIBUTES |||
                 KAUTH_VNODE_WRITE_ATTRIBUTES |||
                 KAUTH_VNODE_READ_EXTATTRIBUTES |||
                 KAUTH_VNODE_WRITE_EXTATTRIBUTES |||
                 KAUTH_VNODE_READ_DATA |||
                 KAUTH_VNODE_WRITE_DATA |||
                 KAUTH_VNODE_EXECUTE) then
              if FileFlagsBitIsSet currentVnodeFileFlags cfg.FileFlags_IsEmpty then
                .done (.requests provider MessageType_KtoU_HydrateFile procname st)
              else .done (.returns KAUTH_RESULT_DEFER st)
            else .done (.returns KAUTH_RESULT_DEFER st)

/-- Where a thread stands. From entered to returned it is inside
TrySendRequestAndWaitForResponse: entered at its first statement, resolved
after vn_getpath and GetRelativePath, issued after OSIncrementAtomic and
Message_Init, linked after LIST_INSERT_HEAD, waiting in the while loop, woken
when the loop has seen the flag, leaving at CleanupAndReturn, returned after
LIST_REMOVE. A thread that failed an assert stops for good, with its record
linked or not. -/
inductive Stage where
  | idle
  | intercepted (action : Nat)
  | entered
  | resolved (relativePath : List Char)
  | issued (messageSpec : Message)
  | linked (messageSpec : Message)
  | waiting
  | woken
  | leaving (result : Bool) (kauthResult : Nat) (kauthError : Int)
  | returned (result : Bool) (kauthResult : Nat) (kauthError : Int)
  | finished (kauthResult : Nat) (kauthError : Int)
  | failed (recordLinked : Bool)

/-- A thread that runs HandleVnodeOperation: the arguments of the access it is
in, what it passes to TrySendRequestAndWaitForResponse, the record of the
frame of that function on its stack, and where it stands. -/
structure Interceptor where
  pid : Int
  vnode : Nat
  kauthError : Int
  provider : Nat
  messageType : Nat
  procname : List Char
  message : OutstandingMessage
  stage : Stage

/-- The record of the thread is linked in the list: after LIST_INSERT_HEAD and
before LIST_REMOVE. -/
def holdsRecord : Stage → Bool
  | .linked _ => true
  | .waiting => true
  | .woken => true
  | .leaving _ _ _ => true
  | .failed recordLinked => recordLinked
  | _ => false

/-- The next statement of a thread: the state of the kext and the thread after
it. An idle, finished or failed thread does nothing. -/
def stepInterceptor (cfg : Config) (env : Env) (fuel : Nat) (st : KextState) (t : Interceptor) :
    KextState × Interceptor :=
  match t.stage with
  | .idle => (st, t)
  | .intercepted action =>
    match HandleVnodeOperation_untilRequest cfg env fuel st action t.pid t.vnode with
    | .done (.returns kauthResult st) => (st, { t with stage := .finished kauthResult t.kauthError })
    | .done (.requests provider messageType procname st) =>
      (st, { t with
        provider := provider, messageType := messageType, procname := procname
        stage := .entered })
    | _ => (st, { t with stage := .failed false })
  | .entered =>
    let t := { t with message := { t.message with receivedResponse := false } }
    match vn_getpath cfg env t.vnode with
    | none => (st, { t with stage := .returned false KAUTH_RESULT_DENY t.kauthError })
    | some vnodePath =>
      match GetRelativePath vnodePath
          (cstr (st.s_activeProviders.getD t.provider default).virtualizationRoot) with
      | none => (st, { t with stage := .failed false })
      | some relativePath => (st, { t with stage := .resolved relativePath })
  | .resolved relativePath =>
    let (nextMessageId, st) := OSIncrementAtomic st
    let messageSpec :=
      Message_Init (toUInt64 nextMessageId) t.messageType t.pid t.procname relativePath
    (st, { t with
      message := { t.message with request := messageSpec.messageHeader }
      stage := .issued messageSpec })
  | .issued messageSpec => (LIST_INSERT_HEAD st t.message, { t with stage := .linked messageSpec })
  | .linked messageSpec =>
    match ActiveProvider_SendMessage cfg st t.provider messageSpec with
    | .done (err, st) =>
      if err ≠ 0 then (st, { t with stage := .leaving false KAUTH_RESULT_DEFER t.kauthError })
      else (st, { t with stage := .waiting })
    | _ => (st, { t with stage := .failed true })
  | .waiting =>
    if receivedAt st t.message.addr then (st, { t with stage := .woken })
    else (st.emit (Event.sleep t.message.addr), t)
  | .woken =>
    let response :=
      match recordAt st t.message.addr with
      | some m => m.response
      | none => t.message.response
    if MessageType_Response_Success = response then
      (st, { t with stage := .leaving true KAUTH_RESULT_DEFER t.kauthError })
    else (st, { t with stage := .leaving false KAUTH_RESULT_DENY EAGAIN })
  | .leaving result kauthResult kauthError =>
    (LIST_REMOVE st t.message.addr, { t with stage := .returned result kauthResult kauthError })
  | .returned _ kauthResult kauthError => (st, { t with stage := .finished kauthResult kauthError })
  | .finished _ _ => (st, t)
  | .failed _ => (st, t)

/-- The kext and the threads that intercept accesses. -/
structure Machine where
  kext : KextState
  threads : List Interceptor

/-- What happens next: a process makes an access on a thread that is not
inside the handler, a thread executes its next statement, or the provider
answers a request id. -/
inductive Move where
  | call (thread : Nat) (action : Nat) (pid : Int) (vnode : Nat) (kauthError : Int)
  | step (thread : Nat)
  | respond (messageId responseType : Nat)

/-- A thread can take a new access: it is not inside HandleVnodeOperation. -/
def Stage.isOutside : Stage → Bool
  | .idle => true
  | .finished _ _ => true
  | _ => false

/-- One move of the machine. -/
def Machine.move (cfg : Config) (env : Env) (fuel : Nat) (m : Machine) : Move → Machine
  | .call i action pid vnode kauthError =>
    match m.threads[i]? with
    | none => m
    | some t =>
      if t.stage.isOutside then
        { m with
          threads := m.threads.set i
            ({ t with
              pid := pid, vnode := vnode, kauthError := kauthError
              stage := .intercepted action }) }
      else m
  | .step i =>
    match m.threads[i]? with
    | none => m
    | some t =>
      { kext := (stepInterceptor cfg env fuel m.kext t).1
        threads := m.threads.set i (stepInterceptor cfg env fuel m.kext t).2 }
  | .respond messageId responseType =>
    { m with kext := KauthHandler_HandleKernelMessageResponse m.kext messageId responseType }

/-- A sequence of moves. -/
def Machine.run (cfg : Config) (env : Env) (fuel : Nat) (m : Machine) (moves : List Move) :
    Machine :=
  moves.foldl (Machine.move cfg env fuel) m

/-- A thread outside the handler whose frame record will be at an address. -/
def idleInterceptor (addr : Nat) : Interceptor :=
  { pid := 0, vnode := 0, kauthError := 0, provider := 0, messageType := 0, procname := []
    message := { addr := addr, request := ⟨0, 0, 0, [], 0⟩, response := 0, receivedResponse := false }
    stage := .idle }

/-- The addresses of records in a list of keys that are not frame addresses. -/
def foreignKeys (addrs : List Nat) (keys : List (Nat × MessageHeader)) :
    List (Nat × MessageHeader) :=
  keys.filter (fun k => decide (k.1 ∉ addrs))

/-- The list of the machine after interceptors with frames at the given
addresses started on a list: each thread has its frame at its address, the
record of a thread is linked exactly once while the thread is between
LIST_INSERT_HEAD and LIST_REMOVE and not at all otherwise, and the records at
other addresses are those of the first list, in order, each with its
request. -/
structure ListInvariant (first : List OutstandingMessage) (addrs : List Nat) (m : Machine) :
    Prop where
  frames : m.threads.map (fun t => t.message.addr) = addrs
  linked : ∀ (i : Nat) (t : Interceptor), m.threads[i]? = some t →
    (recordKeys m.kext.s_outstandingMessages).countP (fun k => k.1 == t.message.addr) =
      if holdsRecord t.stage then 1 else 0
  foreign : foreignKeys addrs (recordKeys m.kext.s_outstandingMessages) = recordKeys first

/-- What one statement of a thread does to the list: it links the record of
the thread at the head, or unlinks the record at the address of the thread,
or leaves the list as it is; the thread holds a record afterwards according
to that, and its frame stays where it is. -/
def StepEffect (st : KextState) (t : Interceptor) (r : KextState × Interceptor) : Prop :=
  r.2.message.addr = t.message.addr ∧
  ((holdsRecord t.stage = false ∧ holdsRecord r.2.stage = true ∧
      ∃ m, m.addr = t.message.addr ∧ r.1.s_outstandingMessages = m :: st.s_outstandingMessages) ∨
    (holdsRecord t.stage = true ∧ holdsRecord r.2.stage = false ∧
      r.1.s_outstandingMessages =
        st.s_outstandingMessages.eraseP (fun m => m.addr == t.message.addr)) ∨
    (holdsRecord r.2.stage = holdsRecord t.stage ∧
      r.1.s_outstandingMessages = st.s_outstandingMessages))

/-- The threads outside the handler, one per frame address, on a state of the
kext. -/
def Machine.start (st : KextState) (addrs : List Nat) : Machine :=
  { kext := st, threads := addrs.map idleInterceptor }

/-- A move made by the given thread or by the provider. -/
def Move.isBy (i : Nat) : Move → Bool
  | .call j _ _ _ _ => j == i
  | .step j => j == i
  | .respond _ _ => true

/-- What TrySendRequestAndWaitForResponse returned, for a thread that has just
returned from it: the return value, kauthResult and kauthError. -/
def Stage.returnedWith : Stage → Option (Bool × Nat × Int)
  | .returned result kauthResult kauthError => some (result, kauthResult, kauthError)
  | _ => none

/-- What HandleVnodeOperation returned, for a thread that has finished an
access. -/
def Stage.finishedWith : Stage → Option (Nat × Int)
  | .finished kauthResult kauthError => some (kauthResult, kauthError)
  | _ => none

/-- The thread is at the first statement of TrySendRequestAndWaitForResponse. -/
def Stage.isEntered : Stage → Bool
  | .entered => true
  | _ => false

/-- Two processes read the placeholder file 3 and overlap: thread 0 (process
100) goes as far as the wait loop, thread 1 (process 101) then links its
record, the provider answers the request of thread 0 with success, and
thread 0 returns from TrySendRequestAndWaitForResponse. -/
def overlappingMoves : List Move :=
  [.call 0 KAUTH_VNODE_READ_DATA 100 3 0, .step 0,
   .step 0, .step 0, .step 0, .step 0,
   .call 1 KAUTH_VNODE_READ_DATA 101 3 0, .step 1, .step 1, .step 1, .step 1,
   .respond 1 MessageType_Response_Success,
   .step 0, .step 0, .step 0]

/-- After overlappingMoves: thread 0 returns from HandleVnodeOperation, thread 1
sends its request and sleeps once, the provider answers it with failure, and
thread 1 wakes, unlinks and returns. -/
def completingMoves : List Move :=
  [.step 0, .step 1, .step 1,
   .respond 2 MessageType_Response_Fail,
   .step 1, .step 1, .step 1, .step 1]

/-- The stage of a thread of the machine, when there is one. -/
def Machine.stageOf (m : Machine) (i : Nat) : Option Stage :=
  m.threads[i]?.map (fun t => t.stage)

/-- What a call of TrySendRequestAndWaitForResponse that returned left behind:
the return value, kauthResult and kauthError, the list and the counter. -/
def returnOf : Outcome (Bool × Nat × Int × KextState) →
    Option ((Bool × Nat × Int) × List OutstandingMessage × Int)
  | .done (result, kauthResult, kauthError, st) =>
    some ((result, kauthResult, kauthError), st.s_outstandingMessages, st.s_nextMessageId)
  | _ => none

/-- One thread alone: process 100 reads the placeholder file 3, the provider
answers its request with success, and the thread returns from
TrySendRequestAndWaitForResponse. -/
def soloMoves : List Move :=
  [.call 0 KAUTH_VNODE_READ_DATA 100 3 0, .step 0,
   .step 0, .step 0, .step 0, .step 0,
   .respond 1 MessageType_Response_Success,
   .step 0, .step 0, .step 0]

/-! ## Auxiliary facts -/

theorem lor_eq_zero_iff (x y : Nat) : x ||| y = 0 ↔ x = 0 ∧ y = 0 := by
  constructor
  · intro h
    constructor
    · apply Nat.zero_of_testBit_eq_false
      intro i
      have := congrArg (fun n => Nat.testBit n i) h
      simp at this
      exact this.1
    · apply Nat.zero_of_testBit_eq_false
      intro i
      have := congrArg (fun n => Nat.testBit n i) h
      simp at this
      exact this.2
  · rintro ⟨rfl, rfl⟩
    simp

theorem actionBitIsSet_or (a m n : Nat) :
    ActionBitIsSet a (m ||| n) = (ActionBitIsSet a m || ActionBitIsSet a n) := by
  unfold ActionBitIsSet
  rw [Nat.and_or_distrib_left]
  rw [Bool.eq_iff_iff, Bool.or_eq_true, bne_iff_ne, bne_iff_ne, bne_iff_ne, Ne, lor_eq_zero_iff]
  tauto

theorem fileFlagsBitIsSet_iff (f b : Nat) : FileFlagsBitIsSet f b = true ↔ f &&& b ≠ 0 := by
  unfold FileFlagsBitIsSet
  rw [bne_iff_ne]
  exact ⟨fun h e => h e.symm, fun h e => h e.symm⟩

theorem isFileSystemCrawler_iff (s : List Char) : IsFileSystemCrawler s = true ↔ s ∈ crawlerNames := by
  unfold IsFileSystemCrawler crawlerNames
  simp only [Bool.or_eq_true, beq_iff_eq, List.mem_cons, List.mem_singleton, Bool.if_true_left,
    Bool.or_false, ite_eq_left_iff, Bool.not_eq_true, List.not_mem_nil, or_false,
    decide_eq_true_eq]
  tauto

theorem proc_name_crawler (env : Env) (pid : Int) :
    IsFileSystemCrawler (proc_name env pid (MAXCOMLEN + 1)) = true ↔ env.p_comm pid ∈ crawlerNames := by
  rw [isFileSystemCrawler_iff]
  unfold proc_name
  have hlen : ∀ n ∈ crawlerNames, n.length < 16 := by decide
  constructor
  · intro h
    have h1 := hlen _ h
    rw [List.length_take] at h1
    have h2 : (env.p_comm pid).length < 16 := by
      simp [MAXCOMLEN] at h1
      omega
    have h3 : (env.p_comm pid).take (MAXCOMLEN + 1 - 1) = env.p_comm pid := by
      apply List.take_of_length_le
      simp [MAXCOMLEN]
      omega
    rw [h3] at h
    exact h
  · intro h
    have h2 := hlen _ h
    have h3 : (env.p_comm pid).take (MAXCOMLEN + 1 - 1) = env.p_comm pid := by
      apply List.take_of_length_le
      simp [MAXCOMLEN]
      omega
    rw [h3]
    exact h

theorem walkFrame_refl (st : KextState) : WalkFrame st st :=
  ⟨rfl, rfl, rfl, rfl, rfl, rfl, rfl, [], by simp, by simp⟩

theorem walkFrame_trans {a b c : KextState} (h1 : WalkFrame a b) (h2 : WalkFrame b c) :
    WalkFrame a c := by
  obtain ⟨r1, e1, v1⟩ := h1.trace
  obtain ⟨r2, e2, v2⟩ := h2.trace
  refine ⟨h2.providers.trans h1.providers, h2.mutex.trans h1.mutex,
    h2.outstanding.trans h1.outstanding, h2.outstandingMutex.trans h1.outstandingMutex,
    h2.nextMessageId.trans h1.nextMessageId, h2.vnodeListener.trans h1.vnodeListener,
    h2.lockGroup.trans h1.lockGroup, r1 ++ r2, ?_, ?_⟩
  · rw [e2, e1, List.append_assoc]
  · intro e he
    rcases List.mem_append.mp he with h | h
    · exact v1 e h
    · exact v2 e h

theorem walkFrame_emit_find (st : KextState) (v : Nat) : WalkFrame st (st.emit (Event.find v)) :=
  ⟨rfl, rfl, rfl, rfl, rfl, rfl, rfl, [Event.find v], rfl, by simp [Event.isVnodeOp]⟩

theorem walkFrame_vnode_get (st : KextState) (v : Nat) : WalkFrame st (vnode_get st v) :=
  ⟨rfl, rfl, rfl, rfl, rfl, rfl, rfl, [Event.vnodeGet v], rfl, by simp [Event.isVnodeOp]⟩

theorem walkFrame_vnode_put (st : KextState) (v : Nat) : WalkFrame st (vnode_put st v) :=
  ⟨rfl, rfl, rfl, rfl, rfl, rfl, rfl, [Event.vnodePut v], rfl, by simp [Event.isVnodeOp]⟩

theorem walkFrame_vnode_getparent (env : Env) (st : KextState) (v : Nat) :
    WalkFrame st (vnode_getparent env st v).2 :=
  ⟨rfl, rfl, rfl, rfl, rfl, rfl, rfl, [Event.vnodeGetParent v (env.parent v)], rfl,
    by simp [Event.isVnodeOp]⟩

theorem scanForRoot_some {ps : List ActiveProvider} {v i : Nat} (h : scanForRoot ps v = some i) :
    i < MaxActiveProviders ∧ v = (ps.getD i default).virtualizationRootVNode := by
  unfold scanForRoot at h
  have h1 := List.find?_some h
  have h2 := List.mem_of_find?_eq_some h
  exact ⟨List.mem_range.mp h2, by simpa using h1⟩

theorem findLoop_frame (env : Env) :
    ∀ (fuel : Nat) (provider : Option Nat) (vnode : Nat) (st : KextState)
      (r : Option Nat × Nat × KextState),
      findLoop env fuel provider vnode st = some r → WalkFrame st r.2.2 := by
  intro fuel
  induction fuel with
  | zero =>
    intro provider vnode st r h
    unfold findLoop at h
    split at h
    · exact absurd h (by simp)
    · cases h
      exact walkFrame_refl st
  | succ n ih =>
    intro provider vnode st r h
    unfold findLoop at h
    split at h
    · have h3 := ih _ _ _ r h
      exact walkFrame_trans (walkFrame_trans (walkFrame_vnode_getparent env st vnode)
        (walkFrame_vnode_put _ vnode)) h3
    · cases h
      exact walkFrame_refl st

theorem findLoop_provider (env : Env) :
    ∀ (fuel : Nat) (provider : Option Nat) (vnode : Nat) (st : KextState)
      (r : Option Nat × Nat × KextState) (i : Nat),
      findLoop env fuel provider vnode st = some r → r.1 = some i →
      provider = some i ∨
        (i < MaxActiveProviders ∧
          (st.s_activeProviders.getD i default).virtualizationRootVNode ≠ NULLVP) := by
  intro fuel
  induction fuel with
  | zero =>
    intro provider vnode st r i h hi
    unfold findLoop at h
    split at h
    · exact absurd h (by simp)
    · cases h
      exact Or.inl hi
  | succ n ih =>
    intro provider vnode st r i h hi
    unfold findLoop at h
    split at h
    · rename_i hc
      have h3 := ih _ _ _ r i h hi
      rcases h3 with h3 | h3
      · right
        have h4 := scanForRoot_some h3
        refine ⟨h4.1, ?_⟩
        rw [← h4.2]
        simp only [Bool.and_eq_true, bne_iff_ne, ne_eq] at hc
        exact hc.1.2
      · exact Or.inr h3
    · cases h
      exact Or.inl hi

theorem ActiveProviders_Find_cases {env : Env} {fuel : Nat} {st st' : KextState} {v : Nat}
    {p : Option Nat} (h : ActiveProviders_Find env fuel st v = some (p, st')) :
    ∃ vnode st2, findLoop env fuel none v (vnode_get (st.emit (Event.find v)) v)
        = some (p, vnode, st2) ∧
      st' = if vnode != NULLVP then vnode_put st2 vnode else st2 := by
  unfold ActiveProviders_Find at h
  cases heq : findLoop env fuel none v (vnode_get (st.emit (Event.find v)) v) with
  | none =>
    simp only [heq] at h
    exact absurd h (by simp)
  | some r =>
    obtain ⟨provider, vnode, st2⟩ := r
    simp only [heq, Option.some.injEq, Prod.mk.injEq] at h
    exact ⟨vnode, st2, by rw [h.1], h.2.symm⟩

theorem ActiveProviders_Find_frame {env : Env} {fuel : Nat} {st st' : KextState} {v : Nat}
    {p : Option Nat} (h : ActiveProviders_Find env fuel st v = some (p, st')) :
    WalkFrame st st' ∧ ∃ rest, st'.trace = st.trace ++ Event.find v :: rest := by
  obtain ⟨vnode, st2, heq, hst⟩ := ActiveProviders_Find_cases h
  have hf := findLoop_frame env _ _ _ _ _ heq
  have h0 : WalkFrame st (vnode_get (st.emit (Event.find v)) v) :=
    walkFrame_trans (walkFrame_emit_find st v) (walkFrame_vnode_get _ v)
  have h1 : WalkFrame (vnode_get (st.emit (Event.find v)) v) st' := by
    rw [hst]
    split
    · exact walkFrame_trans hf (walkFrame_vnode_put _ _)
    · exact hf
  refine ⟨walkFrame_trans h0 h1, ?_⟩
  obtain ⟨rest, hr, -⟩ := h1.trace
  refine ⟨Event.vnodeGet v :: rest, ?_⟩
  rw [hr]
  simp [vnode_get, KextState.emit]

theorem ActiveProviders_Find_slot {env : Env} {fuel : Nat} {st st' : KextState} {v i : Nat}
    (h : ActiveProviders_Find env fuel st v = some (some i, st')) :
    i < MaxActiveProviders ∧
      (st.s_activeProviders.getD i default).virtualizationRootVNode ≠ NULLVP := by
  obtain ⟨vnode, st2, heq, -⟩ := ActiveProviders_Find_cases h
  have h2 := findLoop_provider env _ _ _ _ _ i heq rfl
  rcases h2 with h2 | h2
  · exact absurd h2 (by simp)
  · exact h2

theorem handleResponse_trace (st : KextState) (messageId responseType : Nat) :
    st.trace <+: (KauthHandler_HandleKernelMessageResponse st messageId responseType).trace := by
  unfold KauthHandler_HandleKernelMessageResponse
  split
  · split
    · exact List.prefix_append _ _
    · exact List.prefix_refl _
  · exact List.prefix_refl _

theorem deliver_trace (batch : List Response) :
    ∀ st : KextState, st.trace <+: (deliver st batch).trace := by
  induction batch with
  | nil => intro st; exact List.prefix_refl _
  | cons r rest ih =>
    intro st
    exact (handleResponse_trace st r.messageId r.responseType).trans (ih _)

theorem waitForResponse_trace (addr : Nat) :
    ∀ (schedule : List (List Response)) (st s : KextState),
      Outcome.finalState id (waitForResponse addr schedule st) = some s → st.trace <+: s.trace := by
  intro schedule
  induction schedule with
  | nil =>
    intro st s h
    unfold waitForResponse at h
    split at h <;> simp only [Outcome.finalState, Option.some.injEq, id] at h <;> rw [← h]
  | cons b rest ih =>
    intro st s h
    unfold waitForResponse at h
    split at h
    · simp only [Outcome.finalState, Option.some.injEq, id] at h
      rw [← h]
    · have h1 := ih _ _ h
      have h2 := deliver_trace b (st.emit (Event.sleep addr))
      have h3 : st.trace <+: (st.emit (Event.sleep addr)).trace := List.prefix_append _ _
      exact (h3.trans h2).trans h1

theorem sendMessage_null {cfg : Config} {st : KextState} {provider : Nat} (m : Message)
    (hp : provider < MaxActiveProviders)
    (hc : (st.s_activeProviders.getD provider default).userClient = 0) :
    ActiveProvider_SendMessage cfg st provider m = .done ( EIO, st) := by
  unfold ActiveProvider_SendMessage
  rw [if_pos hp]
  dsimp only
  rw [if_neg (not_not.mpr hc)]

theorem sendMessage_ok {cfg : Config} {st : KextState} {provider : Nat} (m : Message)
    (hp : provider < MaxActiveProviders)
    (hc : (st.s_activeProviders.getD provider default).userClient ≠ 0) :
    ActiveProvider_SendMessage cfg st provider m =
      .done (0, { st with trace := st.trace ++
        [Event.retain (st.s_activeProviders.getD provider default).userClient,
         Event.sendMessage (st.s_activeProviders.getD provider default).userClient
           (messageMemory cfg m),
         Event.release (st.s_activeProviders.getD provider default).userClient] }) := by
  unfold ActiveProvider_SendMessage
  rw [if_pos hp]
  dsimp only
  rw [if_pos hc]
  simp only [KextState.emit, List.append_assoc, List.singleton_append, List.cons_append,
    List.nil_append]

theorem sendMessage_assert {cfg : Config} {st : KextState} {provider : Nat} (m : Message)
    (hp : ¬ provider < MaxActiveProviders) :
    ActiveProvider_SendMessage cfg st provider m = .assertFailed := by
  unfold ActiveProvider_SendMessage
  rw [if_neg hp]

theorem sendMessage_trace {cfg : Config} {st st' : KextState} {provider err : Nat} {m : Message}
    (h : ActiveProvider_SendMessage cfg st provider m = .done (err, st')) :
    st.trace <+: st'.trace := by
  by_cases hp : provider < MaxActiveProviders
  · by_cases hc : (st.s_activeProviders.getD provider default).userClient = 0
    · rw [sendMessage_null m hp hc] at h
      simp only [Outcome.done.injEq, Prod.mk.injEq] at h
      rw [← h.2]
    · rw [sendMessage_ok m hp hc] at h
      simp only [Outcome.done.injEq, Prod.mk.injEq] at h
      rw [← h.2]
      exact List.prefix_append _ _
  · rw [sendMessage_assert m hp] at h
    exact absurd h (by simp)

theorem trySend_path_fail {cfg : Config} {env : Env} {vnode : Nat}
    (st : KextState) (provider messageType : Nat) (pid : Int) (procname : List Char)
    (kauthError : Int) (message : OutstandingMessage) (schedule : List (List Response))
    (hpath : vn_getpath cfg env vnode = none) :
    TrySendRequestAndWaitForResponse cfg env st provider messageType vnode pid procname
      kauthError message schedule = .done (false, KAUTH_RESULT_DENY, kauthError, st) := by
  unfold TrySendRequestAndWaitForResponse
  simp only [hpath]

theorem trySend_eq {cfg : Config} {env : Env} {vnode : Nat} {vnodePath relativePath : List Char}
    (st : KextState) (provider messageType : Nat) (pid : Int) (procname : List Char)
    (kauthError : Int) (message : OutstandingMessage) (schedule : List (List Response))
    (hpath : vn_getpath cfg env vnode = some vnodePath)
    (hrel : GetRelativePath vnodePath
      (cstr (st.s_activeProviders.getD provider default).virtualizationRoot) = some relativePath) :
    TrySendRequestAndWaitForResponse cfg env st provider messageType vnode pid procname
      kauthError message schedule =
    match ActiveProvider_SendMessage cfg
        (enqueuedState st messageType pid procname relativePath message) provider
        (Message_Init (toUInt64 st.s_nextMessageId) messageType pid procname relativePath) with
    | .assertFailed => .assertFailed
    | .outOfFuel => .outOfFuel
    | .blocked s => .blocked s
    | .done (err, st2) =>
      if err ≠ 0 then
        .done (false, KAUTH_RESULT_DEFER, kauthError, LIST_REMOVE st2 message.addr)
      else
        match waitForResponse message.addr schedule.tail (deliver st2 schedule.headI) with
        | .assertFailed => .assertFailed
        | .outOfFuel => .outOfFuel
        | .blocked s => .blocked s
        | .done st3 =>
          if MessageType_Response_Success =
              (match recordAt st3 message.addr with
               | some m => m.response
               | none => message.response) then
            .done (true, KAUTH_RESULT_DEFER, kauthError, LIST_REMOVE st3 message.addr)
          else
            .done (false, KAUTH_RESULT_DENY, EAGAIN, LIST_REMOVE st3 message.addr) := by
  unfold TrySendRequestAndWaitForResponse
  simp only [hpath, hrel]
  rfl

theorem sendMessage_cases (cfg : Config) (st : KextState) (provider : Nat) (m : Message) :
    ActiveProvider_SendMessage cfg st provider m = .assertFailed ∨
      ∃ err st', ActiveProvider_SendMessage cfg st provider m = .done (err, st') := by
  by_cases hp : provider < MaxActiveProviders
  · by_cases hc : (st.s_activeProviders.getD provider default).userClient = 0
    · exact Or.inr ⟨_, _, sendMessage_null m hp hc⟩
    · exact Or.inr ⟨_, _, sendMessage_ok m hp hc⟩
  · exact Or.inl (sendMessage_assert m hp)

theorem trySend_assert {cfg : Config} {env : Env} {vnode : Nat} {vnodePath : List Char}
    (st : KextState) (provider messageType : Nat) (pid : Int) (procname : List Char)
    (kauthError : Int) (message : OutstandingMessage) (schedule : List (List Response))
    (hpath : vn_getpath cfg env vnode = some vnodePath)
    (hrel : GetRelativePath vnodePath
      (cstr (st.s_activeProviders.getD provider default).virtualizationRoot) = none) :
    TrySendRequestAndWaitForResponse cfg env st provider messageType vnode pid procname
      kauthError message schedule = .assertFailed := by
  unfold TrySendRequestAndWaitForResponse
  simp only [hpath, hrel]

theorem trySend_trace {cfg : Config} {env : Env} {vnode : Nat}
    (st : KextState) (provider messageType : Nat) (pid : Int) (procname : List Char)
    (kauthError : Int) (message : OutstandingMessage) (schedule : List (List Response))
    (s : KextState)
    (h : Outcome.finalState (fun r => r.2.2.2)
      (TrySendRequestAndWaitForResponse cfg env st provider messageType vnode pid procname
        kauthError message schedule) = some s) :
    st.trace <+: s.trace := by
  cases hpath : vn_getpath cfg env vnode with
  | none =>
    rw [trySend_path_fail st provider messageType pid procname kauthError message schedule hpath] at h
    simp only [Outcome.finalState, Option.some.injEq] at h
    rw [← h]
  | some vnodePath =>
    cases hrel : GetRelativePath vnodePath
        (cstr (st.s_activeProviders.getD provider default).virtualizationRoot) with
    | none =>
      rw [trySend_assert st provider messageType pid procname kauthError message schedule
        hpath hrel] at h
      exact absurd h (by simp [Outcome.finalState])
    | some relativePath =>
      rw [trySend_eq st provider messageType pid procname kauthError message schedule
        hpath hrel] at h
      have h0 : st.trace = (enqueuedState st messageType pid procname relativePath message).trace :=
        rfl
      cases hs : ActiveProvider_SendMessage cfg
          (enqueuedState st messageType pid procname relativePath message) provider
          (Message_Init (toUInt64 st.s_nextMessageId) messageType pid procname relativePath) with
      | assertFailed => rw [hs] at h; exact absurd h (by simp [Outcome.finalState])
      | outOfFuel => rw [hs] at h; exact absurd h (by simp [Outcome.finalState])
      | blocked b =>
        rcases sendMessage_cases cfg
          (enqueuedState st messageType pid procname relativePath message) provider
          (Message_Init (toUInt64 st.s_nextMessageId) messageType pid procname relativePath)
          with hh | ⟨e, s2, hh⟩ <;> rw [hh] at hs <;> exact absurd hs (by simp)
      | done r =>
        obtain ⟨err, st2⟩ := r
        rw [hs] at h
        have h1 := sendMessage_trace hs
        rw [← h0] at h1
        simp only at h
        split at h
        · simp only [Outcome.finalState, Option.some.injEq] at h
          rw [← h]
          exact h1
        · cases hw : waitForResponse message.addr schedule.tail (deliver st2 schedule.headI) with
          | assertFailed => rw [hw] at h; exact absurd h (by simp [Outcome.finalState])
          | outOfFuel => rw [hw] at h; exact absurd h (by simp [Outcome.finalState])
          | blocked b =>
            rw [hw] at h
            simp only [Outcome.finalState, Option.some.injEq] at h
            have h2 := waitForResponse_trace message.addr schedule.tail
              (deliver st2 schedule.headI) b (by rw [hw]; rfl)
            rw [← h]
            exact (h1.trans (deliver_trace _ st2)).trans h2
          | done st3 =>
            rw [hw] at h
            have h2 := waitForResponse_trace message.addr schedule.tail
              (deliver st2 schedule.headI) st3 (by rw [hw]; rfl)
            have h3 := (h1.trans (deliver_trace _ st2)).trans h2
            simp only at h
            split at h <;> simp only [Outcome.finalState, Option.some.injEq] at h <;>
              rw [← h] <;> exact h3

theorem requestIfEmpty_trace {cfg : Config} {env : Env}
    (st : KextState) (provider messageType : Nat) (pid : Int) (procname : List Char)
    (currentVnode flags kauthResult : Nat)
    (kauthError : Int) (message : OutstandingMessage) (schedule : List (List Response))
    (s : KextState)
    (h : Outcome.finalState HandlerResult.state
      (requestIfEmpty cfg env st provider messageType pid procname currentVnode flags kauthResult
        kauthError message schedule) = some s) :
    st.trace <+: s.trace := by
  unfold requestIfEmpty at h
  split at h
  · apply @trySend_trace cfg env currentVnode st provider messageType pid procname kauthError
      message schedule s
    cases ht : TrySendRequestAndWaitForResponse cfg env st provider messageType currentVnode pid
        procname kauthError message schedule with
    | assertFailed => rw [ht] at h; exact absurd h (by simp [Outcome.finalState, asHandlerResult])
    | outOfFuel => rw [ht] at h; exact absurd h (by simp [Outcome.finalState, asHandlerResult])
    | blocked b => rw [ht] at h; exact h
    | done r => rw [ht] at h; exact h
  · simp only [Outcome.finalState, Option.some.injEq] at h
    rw [← h]

theorem dispatch_trace {cfg : Config} {env : Env}
    (st : KextState) (provider action : Nat) (pid : Int) (procname : List Char)
    (currentVnode flags kauthResult : Nat)
    (kauthError : Int) (message : OutstandingMessage) (schedule : List (List Response))
    (s : KextState)
    (h : Outcome.finalState HandlerResult.state
      (dispatch cfg env st provider action pid procname currentVnode flags kauthResult
        kauthError message schedule) = some s) :
    st.trace <+: s.trace := by
  unfold dispatch at h
  split at h
  · split at h
    · exact requestIfEmpty_trace _ _ _ _ _ _ _ _ _ _ _ _ h
    · simp only [Outcome.finalState, Option.some.injEq] at h
      rw [← h]
  · split at h
    · exact requestIfEmpty_trace _ _ _ _ _ _ _ _ _ _ _ _ h
    · simp only [Outcome.finalState, Option.some.injEq] at h
      rw [← h]

/-! ## The claims -/

/-- C1: when the flag word of the current vnode does not have the
FileFlags_IsInVirtualizationRoot bit, HandleVnodeOperation returns
KAUTH_RESULT_DEFER, whatever the action, the caller, the registry and the
outstanding-message list are; the out-error keeps its value and the state of
the kext is the state at entry, trace of calls included, so that
ActiveProviders_Find was not called and nothing was sent. -/
theorem HandleVnodeOperation_outside_root (cfg : Config) (env : Env) (fuel : Nat)
    (st : KextState) (action : Nat) (pid : Int) (currentVnode : Nat) (kauthError : Int)
    (message : OutstandingMessage) (schedule : List (List Response)) (flags : Nat)
    (hflags : ReadVNodeFileFlags env currentVnode = some flags)
    (hbit : flags &&& cfg.FileFlags_IsInVirtualizationRoot = 0) :
    HandleVnodeOperation cfg env fuel st action pid currentVnode kauthError message schedule =
      .done ⟨KAUTH_RESULT_DEFER, kauthError, st⟩ := by
  have h : FileFlagsBitIsSet flags cfg.FileFlags_IsInVirtualizationRoot = false := by
    rw [← Bool.not_eq_true, fileFlagsBitIsSet_iff]
    exact not_not.mpr hbit
  unfold HandleVnodeOperation
  simp only [hflags, h, Bool.not_false, if_true]

theorem HandleVnodeOperation_outside_root_witness :
    ReadVNodeFileFlags sampleEnv 6 = some 0 ∧
    0 &&& sampleConfig.FileFlags_IsInVirtualizationRoot = 0 ∧
    HandleVnodeOperation sampleConfig sampleEnv 10 sampleState KAUTH_VNODE_READ_DATA 100 6 0
      sampleFrame [] = .done ⟨KAUTH_RESULT_DEFER, 0, sampleState⟩ :=
  ⟨by decide, by decide,
   HandleVnodeOperation_outside_root sampleConfig sampleEnv 10 sampleState KAUTH_VNODE_READ_DATA
     100 6 0 sampleFrame [] 0 (by decide) (by decide)⟩

/-- C3: for a vnode with the in-virtualization-root bit, when the placeholder
bit FileFlags_IsEmpty is set and the name of the calling process is one of
mds, mdworker, mds_stores, fseventsd, Spotlight, HandleVnodeOperation returns
KAUTH_RESULT_DENY and leaves the state as it was at entry (no provider is
looked up, nothing is sent), whatever the action and the registry are. When
the placeholder bit is clear or the name is not one of the five, the call does
not end as the crawler rule ends it and goes on to ActiveProviders_Find:
every state in which it ends has the lookup as the first call made, so no
deny comes from the crawler rule. -/
theorem HandleVnodeOperation_crawler (cfg : Config) (env : Env) (fuel : Nat)
    (st : KextState) (action : Nat) (pid : Int) (currentVnode : Nat) (kauthError : Int)
    (message : OutstandingMessage) (schedule : List (List Response)) (flags : Nat)
    (hflags : ReadVNodeFileFlags env currentVnode = some flags)
    (hroot : flags &&& cfg.FileFlags_IsInVirtualizationRoot ≠ 0) :
    (flags &&& cfg.FileFlags_IsEmpty ≠ 0 ∧ env.p_comm pid ∈ crawlerNames →
      HandleVnodeOperation cfg env fuel st action pid currentVnode kauthError message schedule =
        .done ⟨KAUTH_RESULT_DENY, kauthError, st⟩) ∧
    (¬ (flags &&& cfg.FileFlags_IsEmpty ≠ 0 ∧ env.p_comm pid ∈ crawlerNames) →
      HandleVnodeOperation cfg env fuel st action pid currentVnode kauthError message schedule ≠
        .done ⟨KAUTH_RESULT_DENY, kauthError, st⟩ ∧
      ∀ s, Outcome.finalState HandlerResult.state
          (HandleVnodeOperation cfg env fuel st action pid currentVnode kauthError message
            schedule) = some s →
        ∃ rest, s.trace = st.trace ++ Event.find currentVnode :: rest) := by
  have h : FileFlagsBitIsSet flags cfg.FileFlags_IsInVirtualizationRoot = true :=
    (fileFlagsBitIsSet_iff _ _).mpr hroot
  have key : ¬ (flags &&& cfg.FileFlags_IsEmpty ≠ 0 ∧ env.p_comm pid ∈ crawlerNames) →
      ∀ s, Outcome.finalState HandlerResult.state
          (HandleVnodeOperation cfg env fuel st action pid currentVnode kauthError message
            schedule) = some s →
        ∃ rest, s.trace = st.trace ++ Event.find currentVnode :: rest := by
    intro hn s hs
    have h3 : (FileFlagsBitIsSet flags cfg.FileFlags_IsEmpty &&
        IsFileSystemCrawler (proc_name env pid (MAXCOMLEN + 1))) = false := by
      rw [← Bool.not_eq_true, Bool.and_eq_true, fileFlagsBitIsSet_iff, proc_name_crawler]
      exact hn
    unfold HandleVnodeOperation at hs
    simp only [hflags, h, h3, Bool.not_true, Bool.false_eq_true, if_false] at hs
    cases hf : ActiveProviders_Find env fuel st currentVnode with
    | none =>
      rw [hf] at hs
      exact absurd hs (by simp [Outcome.finalState])
    | some r =>
      obtain ⟨p, st1⟩ := r
      obtain ⟨-, rest, hrest⟩ := ActiveProviders_Find_frame hf
      rw [hf] at hs
      cases p with
      | none =>
        simp only [Outcome.finalState, Option.some.injEq] at hs
        exact ⟨rest, by rw [← hs, hrest]⟩
      | some provider =>
        simp only at hs
        split at hs
        · simp only [Outcome.finalState, Option.some.injEq] at hs
          exact ⟨rest, by rw [← hs, hrest]⟩
        · obtain ⟨t, ht⟩ := dispatch_trace _ _ _ _ _ _ _ _ _ _ _ _ hs
          exact ⟨rest ++ t, by rw [← ht, hrest]; simp⟩
  constructor
  · rintro ⟨he, hc⟩
    have h1 : FileFlagsBitIsSet flags cfg.FileFlags_IsEmpty = true :=
      (fileFlagsBitIsSet_iff _ _).mpr he
    have h2 := (proc_name_crawler env pid).mpr hc
    unfold HandleVnodeOperation
    simp only [hflags, h, h1, h2, Bool.not_true, Bool.and_self, if_true, Bool.false_eq_true,
      if_false]
  · intro hn
    refine ⟨?_, key hn⟩
    intro heq
    obtain ⟨rest, hrest⟩ := key hn st (by rw [heq]; rfl)
    have hlen := congrArg List.length hrest
    simp only [List.length_append, List.length_cons] at hlen
    omega

theorem HandleVnodeOperation_crawler_witness :
    ReadVNodeFileFlags sampleEnv 4 = some 24 ∧
    24 &&& sampleConfig.FileFlags_IsInVirtualizationRoot ≠ 0 ∧
    HandleVnodeOperation sampleConfig sampleEnv 10 sampleState KAUTH_VNODE_LIST_DIRECTORY 200 4 0
      sampleFrame [] = .done ⟨KAUTH_RESULT_DENY, 0, sampleState⟩ :=
  ⟨by decide, by decide,
   (HandleVnodeOperation_crawler sampleConfig sampleEnv 10 sampleState
     KAUTH_VNODE_LIST_DIRECTORY 200 4 0 sampleFrame [] 24 (by decide) (by decide)).1
     ⟨by decide, by decide⟩⟩

/-- C6: when ActiveProviders_Find returns a slot whose pid is the pid of the
caller (and the crawler rule did not deny), HandleVnodeOperation returns
KAUTH_RESULT_DEFER with the out-error untouched, for every action and whether
the placeholder bit is set or not; the registry, the outstanding-message list
and the id counter are as at entry, and the only calls made are those of the
ancestor walk: nothing is enqueued or sent and the thread does not sleep. -/
theorem HandleVnodeOperation_provider_itself (cfg : Config) (env : Env) (fuel : Nat)
    (st : KextState) (action : Nat) (pid : Int) (currentVnode : Nat) (kauthError : Int)
    (message : OutstandingMessage) (schedule : List (List Response)) (flags provider : Nat)
    (hflags : ReadVNodeFileFlags env currentVnode = some flags)
    (hroot : flags &&& cfg.FileFlags_IsInVirtualizationRoot ≠ 0)
    (hnot : ¬ (flags &&& cfg.FileFlags_IsEmpty ≠ 0 ∧ env.p_comm pid ∈ crawlerNames))
    (hfind : (ActiveProviders_Find env fuel st currentVnode).map Prod.fst = some (some provider))
    (hpid : pid = (st.s_activeProviders.getD provider default).pid) :
    ∃ st1,
      HandleVnodeOperation cfg env fuel st action pid currentVnode kauthError message schedule =
        .done ⟨KAUTH_RESULT_DEFER, kauthError, st1⟩ ∧
      st1.s_activeProviders = st.s_activeProviders ∧
      st1.s_outstandingMessages = st.s_outstandingMessages ∧
      st1.s_nextMessageId = st.s_nextMessageId ∧
      ∃ rest, st1.trace = st.trace ++ rest ∧ ∀ e ∈ rest, Event.isVnodeOp e = true := by
  have h : FileFlagsBitIsSet flags cfg.FileFlags_IsInVirtualizationRoot = true :=
    (fileFlagsBitIsSet_iff _ _).mpr hroot
  have h3 : (FileFlagsBitIsSet flags cfg.FileFlags_IsEmpty &&
      IsFileSystemCrawler (proc_name env pid (MAXCOMLEN + 1))) = false := by
    rw [← Bool.not_eq_true, Bool.and_eq_true, fileFlagsBitIsSet_iff, proc_name_crawler]
    exact hnot
  cases hf : ActiveProviders_Find env fuel st currentVnode with
  | none =>
    rw [hf] at hfind
    exact absurd hfind (by simp)
  | some r =>
    obtain ⟨p, st1⟩ := r
    rw [hf] at hfind
    simp only [Option.map_some', Option.some.injEq] at hfind
    subst hfind
    obtain ⟨hw, -⟩ := ActiveProviders_Find_frame hf
    refine ⟨st1, ?_, hw.providers, hw.outstanding, hw.nextMessageId, hw.trace⟩
    unfold HandleVnodeOperation
    have hp : pid = (st1.s_activeProviders.getD provider default).pid := by
      rw [hw.providers]
      exact hpid
    simp only [hflags, h, h3, hf, Bool.not_true, Bool.false_eq_true, if_false]
    rw [if_pos hp]

theorem HandleVnodeOperation_provider_itself_witness :
    ∃ st1,
      HandleVnodeOperation sampleConfig sampleEnv 10 sampleState KAUTH_VNODE_READ_DATA 77 3 0
        sampleFrame [] = .done ⟨KAUTH_RESULT_DEFER, 0, st1⟩ ∧
      st1.s_activeProviders = sampleState.s_activeProviders ∧
      st1.s_outstandingMessages = sampleState.s_outstandingMessages ∧
      st1.s_nextMessageId = sampleState.s_nextMessageId ∧
      ∃ rest, st1.trace = sampleState.trace ++ rest ∧ ∀ e ∈ rest, Event.isVnodeOp e = true :=
  HandleVnodeOperation_provider_itself sampleConfig sampleEnv 10 sampleState
    KAUTH_VNODE_READ_DATA 77 3 0 sampleFrame [] 24 0 (by decide) (by decide) (by decide)
    (by decide) (by decide)

theorem GetRelativePath_append (root rest : List Char) :
    GetRelativePath (root ++ rest) root =
      some (if rest.head? = some '/' then rest.tail else rest) := by
  unfold GetRelativePath
  have h1 : (root ++ rest).length ≥ root.length := by simp
  have h2 : (root ++ rest).drop root.length = rest := by simp
  rw [if_pos h1]
  simp only [h2, List.drop_one]
  split <;> rfl

/-- C10 as stated fails: with root /R and path /R//a.txt, a path that has the
root as a prefix, GetRelativePath returns /a.txt, which begins with a
separator, and not a.txt, the remainder with its leading separators
removed. -/
theorem GetRelativePath_double_separator :
    GetRelativePath ("/R".toList ++ "//a.txt".toList) "/R".toList = some "/a.txt".toList ∧
    "/a.txt".toList.head? = some '/' ∧
    GetRelativePath ("/R".toList ++ "//a.txt".toList) "/R".toList ≠
      some ("//a.txt".toList.dropWhile (fun c => c == '/')) := by
  decide

/-- C10, amended: for a path that is the root followed by a remainder,
GetRelativePath returns the remainder without its first character when that
character is the separator, and the remainder itself otherwise; one separator
is removed, so the result does not begin with a separator unless the
remainder begins with two of them. Root /R and path /R/a.txt give a.txt, and
a path equal to the root gives the empty string. -/
theorem GetRelativePath_strips_one_separator (root rest : List Char) :
    GetRelativePath (root ++ rest) root =
      some (if rest.head? = some '/' then rest.tail else rest) ∧
    ((∀ t, rest ≠ '/' :: '/' :: t) →
      ∀ r, GetRelativePath (root ++ rest) root = some r → r.head? ≠ some '/') ∧
    GetRelativePath "/R/a.txt".toList "/R".toList = some "a.txt".toList ∧
    GetRelativePath root root = some [] := by
  refine ⟨GetRelativePath_append root rest, ?_, by decide, ?_⟩
  · intro hno r hr
    rw [GetRelativePath_append] at hr
    simp only [Option.some.injEq] at hr
    subst hr
    cases rest with
    | nil => simp
    | cons c t =>
      by_cases hc : c = '/'
      · subst hc
        simp only [List.head?_cons, if_true, List.tail_cons]
        cases t with
        | nil => simp
        | cons d u =>
          intro hd
          simp only [List.head?_cons, Option.some.injEq] at hd
          subst hd
          exact hno u rfl
      · simp only [List.head?_cons, Option.some.injEq, hc, if_false]
        exact fun h => hc (Option.some.inj h)
  · have := GetRelativePath_append root []
    simpa using this

theorem respondFirst_none (messageId responseType : Nat) :
    ∀ l : List OutstandingMessage, (∀ m ∈ l, m.request.messageId ≠ messageId) →
      respondFirst messageId responseType l = (l, none) := by
  intro l
  induction l with
  | nil => intro _; rfl
  | cons m rest ih =>
    intro h
    have hm : m.request.messageId ≠ messageId := h m (List.mem_cons_self _ _)
    have hr := ih (fun x hx => h x (List.mem_cons_of_mem _ hx))
    unfold respondFirst
    rw [if_neg hm, hr]

theorem respondFirst_first (messageId responseType : Nat) (m : OutstandingMessage)
    (post : List OutstandingMessage) (hm : m.request.messageId = messageId) :
    ∀ pre : List OutstandingMessage, (∀ x ∈ pre, x.request.messageId ≠ messageId) →
      respondFirst messageId responseType (pre ++ m :: post) =
        (pre ++ { m with response := responseType, receivedResponse := true } :: post,
         some m.addr) := by
  intro pre
  induction pre with
  | nil =>
    intro _
    simp only [List.nil_append]
    unfold respondFirst
    rw [if_pos hm]
  | cons x rest ih =>
    intro h
    have hx : x.request.messageId ≠ messageId := h x (List.mem_cons_self _ _)
    have hr := ih (fun y hy => h y (List.mem_cons_of_mem _ hy))
    simp only [List.cons_append]
    unfold respondFirst
    rw [if_neg hx, hr]

theorem first_with_id (messageId : Nat) :
    ∀ l : List OutstandingMessage, (∃ m ∈ l, m.request.messageId = messageId) →
      ∃ pre m post, l = pre ++ m :: post ∧ (∀ x ∈ pre, x.request.messageId ≠ messageId) ∧
        m.request.messageId = messageId := by
  intro l
  induction l with
  | nil => rintro ⟨m, hm, -⟩; exact absurd hm (List.not_mem_nil _)
  | cons x rest ih =>
    rintro ⟨m, hm, hid⟩
    by_cases hx : x.request.messageId = messageId
    · exact ⟨[], x, rest, rfl, by simp, hx⟩
    · rcases List.mem_cons.mp hm with h | h
      · subst h
        exact absurd hid hx
      · obtain ⟨pre, m', post, hl, hpre, hm'⟩ := ih ⟨m, h, hid⟩
        refine ⟨x :: pre, m', post, by rw [hl]; rfl, ?_, hm'⟩
        intro y hy
        rcases List.mem_cons.mp hy with h1 | h1
        · rw [h1]; exact hx
        · exact hpre y h1

theorem respondFirst_snd_none (messageId responseType : Nat) :
    ∀ l : List OutstandingMessage, (respondFirst messageId responseType l).2 = none →
      (respondFirst messageId responseType l).1 = l := by
  intro l
  induction l with
  | nil => intro _; rfl
  | cons m rest ih =>
    intro h
    unfold respondFirst at h ⊢
    split at h
    · exact absurd h (by simp)
    · rename_i hm
      rw [if_neg hm]
      simp only at h ⊢
      rw [ih h]

theorem handleResponse_invalid (st : KextState) (messageId : Nat) {responseType : Nat}
    (h : ¬ isResponseKind responseType) :
    KauthHandler_HandleKernelMessageResponse st messageId responseType = st := by
  unfold KauthHandler_HandleKernelMessageResponse
  exact if_neg h

theorem handleResponse_valid (st : KextState) (messageId : Nat) {responseType : Nat}
    (h : isResponseKind responseType) :
    KauthHandler_HandleKernelMessageResponse st messageId responseType =
      match respondFirst messageId responseType st.s_outstandingMessages with
      | (l, some channel) => { st with s_outstandingMessages := l }.emit (Event.wakeup channel)
      | (_, none) => st := by
  unfold KauthHandler_HandleKernelMessageResponse
  exact if_pos h

theorem handleResponse_list (st : KextState) (messageId responseType : Nat) :
    (KauthHandler_HandleKernelMessageResponse st messageId responseType).s_outstandingMessages =
      if isResponseKind responseType then
        (respondFirst messageId responseType st.s_outstandingMessages).1
      else st.s_outstandingMessages := by
  by_cases hk : isResponseKind responseType
  · rw [if_pos hk, handleResponse_valid st messageId hk]
    split
    · rename_i l channel heq
      rw [heq]
      rfl
    · rename_i l heq
      have h := respondFirst_snd_none messageId responseType st.s_outstandingMessages
        (by rw [heq])
      rw [h]
  · rw [if_neg hk, handleResponse_invalid st messageId hk]

theorem respondFirst_comm (a b ka kb : Nat) (hab : a ≠ b) :
    ∀ l : List OutstandingMessage,
      (respondFirst b kb (respondFirst a ka l).1).1 =
        (respondFirst a ka (respondFirst b kb l).1).1 := by
  intro l
  induction l with
  | nil => rfl
  | cons m rest ih =>
    by_cases h1 : m.request.messageId = a
    · have h2 : m.request.messageId ≠ b := fun h => hab (h1.symm.trans h)
      simp only [respondFirst, if_pos h1, if_neg h2]
    · by_cases h2 : m.request.messageId = b
      · simp only [respondFirst, if_pos h2, if_neg h1]
      · simp only [respondFirst, if_neg h1, if_neg h2, ih]

/-- C9: KauthHandler_HandleKernelMessageResponse leaves the state as it is
when the kind is neither MessageType_Response_Success nor
MessageType_Response_Fail or no linked record has the id. Otherwise the list
is pre ++ m :: post with m the first record that has the id: m gets the kind
as response and receivedResponse true, one wakeup is issued on the address
of m, and the records before and after it, their order and the rest of the
state are unchanged. Hence responses to two different ids give the same list
in either order of delivery. -/
theorem KauthHandler_HandleKernelMessageResponse_frame (st : KextState)
    (messageId responseType : Nat) :
    ((¬ isResponseKind responseType ∨
        ∀ m ∈ st.s_outstandingMessages, m.request.messageId ≠ messageId) →
      KauthHandler_HandleKernelMessageResponse st messageId responseType = st) ∧
    (isResponseKind responseType →
      (∃ m ∈ st.s_outstandingMessages, m.request.messageId = messageId) →
      ∃ pre m post,
        st.s_outstandingMessages = pre ++ m :: post ∧
        (∀ x ∈ pre, x.request.messageId ≠ messageId) ∧
        m.request.messageId = messageId ∧
        KauthHandler_HandleKernelMessageResponse st messageId responseType =
          { st with
            s_outstandingMessages :=
              pre ++ { m with response := responseType, receivedResponse := true } :: post
            trace := st.trace ++ [Event.wakeup m.addr] }) ∧
    (∀ otherId otherType, otherId ≠ messageId →
      (KauthHandler_HandleKernelMessageResponse
        (KauthHandler_HandleKernelMessageResponse st messageId responseType)
        otherId otherType).s_outstandingMessages =
      (KauthHandler_HandleKernelMessageResponse
        (KauthHandler_HandleKernelMessageResponse st otherId otherType)
        messageId responseType).s_outstandingMessages) := by
  refine ⟨?_, ?_, ?_⟩
  · intro h
    rcases h with h | h
    · exact handleResponse_invalid st messageId h
    · by_cases hk : isResponseKind responseType
      · rw [handleResponse_valid st messageId hk, respondFirst_none messageId responseType _ h]
      · exact handleResponse_invalid st messageId hk
  · intro hk hex
    obtain ⟨pre, m, post, hl, hpre, hm⟩ := first_with_id messageId _ hex
    refine ⟨pre, m, post, hl, hpre, hm, ?_⟩
    rw [handleResponse_valid st messageId hk, hl,
      respondFirst_first messageId responseType m post hm pre hpre]
    rfl
  · intro otherId otherType hne
    simp only [handleResponse_list]
    by_cases h1 : isResponseKind responseType <;> by_cases h2 : isResponseKind otherType <;>
      simp only [h1, h2, if_true, if_false]
    exact respondFirst_comm messageId otherId responseType otherType (Ne.symm hne) _

theorem KauthHandler_HandleKernelMessageResponse_frame_witness :
    isResponseKind MessageType_Response_Success ∧
    (∃ m ∈ sampleOutstanding.s_outstandingMessages, m.request.messageId = 5) ∧
    ∃ pre m post,
      sampleOutstanding.s_outstandingMessages = pre ++ m :: post ∧
      (∀ x ∈ pre, x.request.messageId ≠ 5) ∧
      m.request.messageId = 5 ∧
      KauthHandler_HandleKernelMessageResponse sampleOutstanding 5 MessageType_Response_Success =
        { sampleOutstanding with
          s_outstandingMessages :=
            pre ++ { m with response := MessageType_Response_Success,
                            receivedResponse := true } :: post
          trace := sampleOutstanding.trace ++ [Event.wakeup m.addr] } :=
  ⟨by decide, by decide,
   (KauthHandler_HandleKernelMessageResponse_frame sampleOutstanding 5
     MessageType_Response_Success).2.1 (by decide) (by decide)⟩

theorem find_range_first (p : Nat → Bool) :
    ∀ (n k : Nat), k < n → p k = true → (∀ j, j < k → p j = false) →
      (List.range n).find? p = some k := by
  intro n
  induction n with
  | zero => intro k hk; omega
  | succ n ih =>
    intro k hk hp hlt
    rw [List.range_succ, List.find?_append]
    by_cases h : k < n
    · rw [ih k h hp hlt]
      rfl
    · have hkn : k = n := by omega
      subst hkn
      have hnone : (List.range k).find? p = none := by
        rw [List.find?_eq_none]
        intro x hx
        rw [hlt x (List.mem_range.mp hx)]
        simp
      rw [hnone]
      simp [hp]

theorem find_range_none (p : Nat → Bool) (n : Nat) (h : ∀ j, j < n → p j = false) :
    (List.range n).find? p = none := by
  rw [List.find?_eq_none]
  intro x hx
  rw [h x (List.mem_range.mp hx)]
  simp

theorem registry_getD_filled (cfg : Config) (filled : List ActiveProvider) (m j : Nat)
    (hj : j < filled.length) :
    (filled ++ List.replicate m (emptyProvider cfg)).getD j default = filled.getD j default := by
  simp only [List.getD_eq_getElem?_getD]
  rw [List.getElem?_append_left hj]

theorem registry_getD_empty (cfg : Config) (filled : List ActiveProvider) (m j : Nat)
    (hj : filled.length ≤ j) (hm : j < filled.length + m) :
    (filled ++ List.replicate m (emptyProvider cfg)).getD j default = emptyProvider cfg := by
  simp only [List.getD_eq_getElem?_getD]
  rw [List.getElem?_append_right hj, List.getElem?_replicate]
  have : j - filled.length < m := by omega
  simp [this]

theorem registryAfter_slot_filled (cfg : Config) (clients : List (Nat × Int)) (j : Nat)
    (hn : ∀ c ∈ clients, c.1 ≠ 0) (hj : j < clients.length) :
    ((registryAfter cfg clients).getD j default).userClient ≠ 0 := by
  unfold registryAfter
  rw [registry_getD_filled cfg _ _ j (by simpa using hj)]
  simp only [List.getD_eq_getElem?_getD]
  rw [List.getElem?_map, List.getElem?_eq_getElem hj]
  simp only [Option.map_some', Option.getD_some, registeredProvider]
  exact hn _ (List.getElem_mem hj)

theorem registryAfter_slot_empty (cfg : Config) (clients : List (Nat × Int)) (j : Nat)
    (hj : clients.length ≤ j) (hm : j < MaxActiveProviders) :
    (registryAfter cfg clients).getD j default = emptyProvider cfg := by
  unfold registryAfter
  apply registry_getD_empty
  · simpa using hj
  · simp only [List.length_map]
    omega

theorem findUnused_registryAfter (cfg : Config) (clients : List (Nat × Int))
    (hn : ∀ c ∈ clients, c.1 ≠ 0) (hl : clients.length < MaxActiveProviders) :
    FindUnusedIndex_Locked (registryAfter cfg clients) = some clients.length := by
  unfold FindUnusedIndex_Locked
  apply find_range_first _ _ _ hl
  · rw [registryAfter_slot_empty cfg clients _ (le_refl _) hl]
    rfl
  · intro j hj
    have := registryAfter_slot_filled cfg clients j hn hj
    simpa using this

theorem findUnused_registryAfter_full (cfg : Config) (clients : List (Nat × Int))
    (hn : ∀ c ∈ clients, c.1 ≠ 0) (hl : clients.length = MaxActiveProviders) :
    FindUnusedIndex_Locked (registryAfter cfg clients) = none := by
  unfold FindUnusedIndex_Locked
  apply find_range_none
  intro j hj
  have := registryAfter_slot_filled cfg clients j hn (by omega)
  simpa using this

theorem registryAfter_set (cfg : Config) (clients : List (Nat × Int)) (c : Nat × Int)
    (hl : clients.length < MaxActiveProviders) :
    (registryAfter cfg clients).set clients.length (registeredProvider cfg c) =
      registryAfter cfg (clients ++ [c]) := by
  unfold registryAfter
  have h1 : MaxActiveProviders - clients.length =
      (MaxActiveProviders - (clients ++ [c]).length) + 1 := by
    simp only [List.length_append, List.length_singleton]
    omega
  rw [h1, List.replicate_succ, List.set_append]
  simp only [List.length_map, lt_self_iff_false, if_false, Nat.sub_self, List.set_cons_zero,
    List.map_append, List.map_cons, List.map_nil, List.append_assoc, List.singleton_append]

theorem register_step (cfg : Config) (st : KextState) (clients : List (Nat × Int))
    (c : Nat × Int)
    (hst : st.s_activeProviders = registryAfter cfg clients)
    (hn : ∀ x ∈ clients, x.1 ≠ 0) (hl : clients.length < MaxActiveProviders) :
    ActiveProvider_RegisterUserClient st c.1 c.2 =
      .done (some clients.length,
        { st with s_activeProviders := registryAfter cfg (clients ++ [c]) }) := by
  unfold ActiveProvider_RegisterUserClient
  rw [hst, findUnused_registryAfter cfg clients hn hl]
  simp only [if_pos hl]
  rw [registryAfter_slot_empty cfg clients _ (le_refl _) hl]
  have h := registryAfter_set cfg clients c hl
  unfold registeredProvider at h
  simp only [emptyProvider, if_true] at h ⊢
  rw [h]

theorem register_full (cfg : Config) (st : KextState) (clients : List (Nat × Int))
    (userClient : Nat) (clientPID : Int)
    (hst : st.s_activeProviders = registryAfter cfg clients)
    (hn : ∀ x ∈ clients, x.1 ≠ 0) (hl : clients.length = MaxActiveProviders) :
    ActiveProvider_RegisterUserClient st userClient clientPID = .done (none, st) := by
  unfold ActiveProvider_RegisterUserClient
  rw [hst, findUnused_registryAfter_full cfg clients hn hl]

theorem registerClients_from (cfg : Config) :
    ∀ (rest done : List (Nat × Int)) (st : KextState),
      st.s_activeProviders = registryAfter cfg done →
      (∀ x ∈ done ++ rest, x.1 ≠ 0) →
      (done ++ rest).length ≤ MaxActiveProviders →
      registerClients st rest =
        .done ((List.range' done.length rest.length).map some,
          { st with s_activeProviders := registryAfter cfg (done ++ rest) }) := by
  intro rest
  induction rest with
  | nil =>
    intro done st hst _ _
    simp only [registerClients, List.append_nil, List.length_nil, List.range'_zero, List.map_nil]
    rw [← hst]
  | cons c rest ih =>
    intro done st hst hn hl
    have hl1 : done.length < MaxActiveProviders := by
      simp only [List.length_append, List.length_cons] at hl
      omega
    have hstep := register_step cfg st done c hst
      (fun x hx => hn x (List.mem_append_left _ hx)) hl1
    have hih := ih (done ++ [c]) { st with s_activeProviders := registryAfter cfg (done ++ [c]) }
      rfl (by simpa using hn) (by simpa using hl)
    obtain ⟨c1, c2⟩ := c
    simp only at hstep
    simp only [registerClients, hstep, hih, List.length_append, List.length_singleton,
      List.append_assoc, List.singleton_append, List.length_cons, List.range'_succ, List.map_cons,
      List.length_nil, Nat.zero_add]
/-- C7: from the empty registry, a run of at most 32
ActiveProvider_RegisterUserClient calls with non-null client handles and no
other call between them succeeds at every call: after the first k calls the
slots returned are 0, 1, ..., k - 1 (non-null and pairwise distinct), slot j
holds the client and pid of call j and the slots from k on are zeroed, so the
next call finds slot k as the lowest slot with a null client and returns it.
After 32 such calls a further call returns null and leaves the state as it
is. -/
theorem ActiveProvider_RegisterUserClient_fills_in_order (cfg : Config) (st : KextState)
    (clients : List (Nat × Int))
    (hempty : st.s_activeProviders = List.replicate MaxActiveProviders (emptyProvider cfg))
    (hlen : clients.length ≤ MaxActiveProviders)
    (hnonnull : ∀ c ∈ clients, c.1 ≠ 0) :
    (∀ k, k ≤ clients.length →
      registerClients st (clients.take k) =
        .done ((List.range k).map some,
          { st with s_activeProviders := registryAfter cfg (clients.take k) })) ∧
    (∀ k, k < clients.length →
      FindUnusedIndex_Locked (registryAfter cfg (clients.take k)) = some k ∧
      ((registryAfter cfg (clients.take k)).getD k default).userClient = 0 ∧
      ∀ j, j < k → ((registryAfter cfg (clients.take k)).getD j default).userClient ≠ 0) ∧
    (∀ j (h : j < clients.length),
      (registryAfter cfg clients).getD j default =
        { emptyProvider cfg with userClient := clients[j].1, pid := clients[j].2 }) ∧
    ((List.range clients.length).map some).Nodup ∧
    (clients.length = MaxActiveProviders → ∀ userClient clientPID,
      ActiveProvider_RegisterUserClient
        { st with s_activeProviders := registryAfter cfg clients } userClient clientPID =
        .done (none, { st with s_activeProviders := registryAfter cfg clients })) := by
  have htake : ∀ k, ∀ c ∈ clients.take k, c.1 ≠ 0 :=
    fun k c hc => hnonnull c (List.mem_of_mem_take hc)
  refine ⟨?_, ?_, ?_, ?_, ?_⟩
  · intro k hk
    have h := registerClients_from cfg (clients.take k) [] st
      (by rw [hempty]; simp [registryAfter]) (by simpa using htake k)
      (by simp only [List.nil_append, List.length_take]; omega)
    rw [h]
    simp only [List.length_nil, List.length_take, List.nil_append, Nat.min_eq_left hk,
      List.range_eq_range']
  · intro k hk
    have hl : (clients.take k).length = k := by
      rw [List.length_take]; omega
    have hlt : (clients.take k).length < MaxActiveProviders := by omega
    have h1 := findUnused_registryAfter cfg (clients.take k) (htake k) hlt
    have h2 := registryAfter_slot_empty cfg (clients.take k) k (by omega) (by omega)
    rw [hl] at h1
    refine ⟨h1, by rw [h2]; rfl, ?_⟩
    intro j hj
    exact registryAfter_slot_filled cfg (clients.take k) j (htake k) (by omega)
  · intro j hj
    unfold registryAfter
    rw [registry_getD_filled cfg _ _ j (by simpa using hj)]
    simp only [List.getD_eq_getElem?_getD]
    rw [List.getElem?_map, List.getElem?_eq_getElem hj]
    rfl
  · exact (List.nodup_range _).map (fun a b h => Option.some.inj h)
  · intro hfull userClient clientPID
    exact register_full cfg _ clients userClient clientPID rfl hnonnull hfull

theorem ActiveProvider_RegisterUserClient_fills_in_order_witness :
    registerClients (loadedState sampleConfig (fun _ => 0)) sampleClients =
      .done ((List.range 32).map some,
        { loadedState sampleConfig (fun _ => 0) with
          s_activeProviders := registryAfter sampleConfig sampleClients }) ∧
    ActiveProvider_RegisterUserClient
      { loadedState sampleConfig (fun _ => 0) with
        s_activeProviders := registryAfter sampleConfig sampleClients } 1033 33 =
      .done (none, { loadedState sampleConfig (fun _ => 0) with
        s_activeProviders := registryAfter sampleConfig sampleClients }) :=
  have h := ActiveProvider_RegisterUserClient_fills_in_order sampleConfig
    (loadedState sampleConfig (fun _ => 0)) sampleClients rfl (by decide) (by decide)
  ⟨h.1 32 (by decide), h.2.2.2.2 (by decide) 1033 33⟩

theorem wrapInt32_succ (c : Int) (k : Nat) :
    wrapInt32 (wrapInt32 (c + 1) + k) = wrapInt32 (c + (k + 1 : Nat)) := by
  unfold wrapInt32
  push_cast
  omega

theorem issueIds_closed_form :
    ∀ (n : Nat) (st : KextState), wrapInt32 st.s_nextMessageId = st.s_nextMessageId →
      (issueIds n st).1 =
        (List.range n).map (fun k => toUInt64 (wrapInt32 (st.s_nextMessageId + (k : Nat)))) := by
  intro n
  induction n with
  | zero => intro st _; rfl
  | succ n ih =>
    intro st hst
    have h1 : wrapInt32 (OSIncrementAtomic st).2.s_nextMessageId =
        (OSIncrementAtomic st).2.s_nextMessageId := by
      simp only [OSIncrementAtomic, wrapInt32]
      omega
    have h2 := ih (OSIncrementAtomic st).2 h1
    simp only [issueIds]
    rw [h2, List.range_succ_eq_map]
    simp only [List.map_cons, List.map_map, Nat.cast_zero, add_zero, hst, OSIncrementAtomic]
    congr 1
    apply List.map_congr_left
    intro k _
    simp only [Function.comp, Nat.succ_eq_add_one]
    rw [wrapInt32_succ]

theorem id_injective_below (i j : Nat) (hi : i < 2 ^ 32) (hj : j < 2 ^ 32)
    (h : toUInt64 (wrapInt32 (1 + (i : Nat))) = toUInt64 (wrapInt32 (1 + (j : Nat)))) : i = j := by
  unfold toUInt64 wrapInt32 at h
  omega

theorem id_nonzero_below (i : Nat) (hi : i < 2 ^ 32 - 1) :
    toUInt64 (wrapInt32 (1 + (i : Nat))) ≠ 0 := by
  unfold toUInt64 wrapInt32
  omega

theorem id_small (i : Nat) (hi : i + 1 < 2 ^ 31) :
    toUInt64 (wrapInt32 (1 + (i : Nat))) = i + 1 := by
  unfold toUInt64 wrapInt32
  omega

theorem KauthHandler_Cleanup_counter (st : KextState) :
    (KauthHandler_Cleanup st).2.s_nextMessageId = st.s_nextMessageId := by
  unfold KauthHandler_Cleanup ActiveProviders_Cleanup
  simp only
  split <;> split <;> split <;> rfl

theorem KauthHandler_Init_counter (a : InitAllocs) (st : KextState)
    (hfresh : st.s_vnodeListener = 0) : (KauthHandler_Init a st).2.s_nextMessageId = 1 := by
  unfold KauthHandler_Init
  rw [if_neg (not_not.mpr hfresh)]
  simp only
  split
  · rw [KauthHandler_Cleanup_counter]
  · unfold ActiveProviders_Init
    simp only
    split
    · simp only
      split
      · rw [KauthHandler_Cleanup_counter]
      · split
        · rw [KauthHandler_Cleanup_counter]
        · rfl
    · split
      · simp only
        split
        · rw [KauthHandler_Cleanup_counter]
        · split
          · rw [KauthHandler_Cleanup_counter]
          · rfl
      · simp only
        split
        · rw [KauthHandler_Cleanup_counter]
        · split
          · rw [KauthHandler_Cleanup_counter]
          · rfl

theorem toUInt64_mod (x : Int) : toUInt64 x % 2 ^ 64 = toUInt64 x := by
  unfold toUInt64
  omega

/-- C8 as stated fails. The id issued first after KauthHandler_Init is 1, and
it is 1 again after a cleanup and a second KauthHandler_Init, so an id is
reused across re-initialisation. Within one run the counter has 32 bits: the
allocation number 2^32 gets the reserved id 0 and the next one gets the id
1 of the first allocation again. -/
theorem request_ids_reused :
    (issueIds 1 sampleInitialised).1 = [1] ∧
    (issueIds 1 sampleReinitialised).1 = [1] ∧
    (issueIds (2 ^ 32 + 1) sampleInitialised).1[2 ^ 32 - 1]? = some 0 ∧
    (issueIds (2 ^ 32 + 1) sampleInitialised).1[2 ^ 32]? = some 1 ∧
    (issueIds (2 ^ 32 + 1) sampleInitialised).1[0]? = some 1 := by
  have hc : sampleInitialised.s_nextMessageId = 1 := KauthHandler_Init_counter _ _ rfl
  have hw : wrapInt32 sampleInitialised.s_nextMessageId = sampleInitialised.s_nextMessageId := by
    rw [hc]; decide
  have hcl := issueIds_closed_form (2 ^ 32 + 1) sampleInitialised hw
  refine ⟨by decide, by decide, ?_, ?_, ?_⟩
  · rw [hcl, List.getElem?_map, List.getElem?_range (by norm_num), hc]
    simp only [Option.map_some', Option.some.injEq]
    unfold toUInt64 wrapInt32
    norm_num
  · rw [hcl, List.getElem?_map, List.getElem?_range (by norm_num), hc]
    simp only [Option.map_some', Option.some.injEq]
    unfold toUInt64 wrapInt32
    norm_num
  · rw [hcl, List.getElem?_map, List.getElem?_range (by norm_num), hc]
    simp only [Option.map_some', Option.some.injEq]
    unfold toUInt64 wrapInt32
    norm_num

/-- C8, amended: the counter is a 32-bit int that KauthHandler_Init sets to 1
(when no listener is registered at entry) and OSIncrementAtomic increments.
After such an initialisation the id of allocation number k + 1 is the 32-bit
value 1 + k converted to 64 bits, and it is the id stored in the record that
TrySendRequestAndWaitForResponse links; the first id is 1, the first
2^31 - 1 ids are 1, 2, 3, ..., each the previous plus one, and the first
2^32 - 1 ids are non-zero and pairwise distinct. Nothing is said of later
allocations, and ids start again at 1 after a re-initialisation. -/
theorem request_ids_after_init (a : InitAllocs) (st : KextState) (n : Nat)
    (hfresh : st.s_vnodeListener = 0) :
    (KauthHandler_Init a st).2.s_nextMessageId = 1 ∧
    (issueIds n (KauthHandler_Init a st).2).1 =
      (List.range n).map (fun k => toUInt64 (wrapInt32 (1 + (k : Nat)))) ∧
    (n < 2 ^ 31 → (issueIds n (KauthHandler_Init a st).2).1 = List.range' 1 n) ∧
    (n < 2 ^ 32 → (issueIds n (KauthHandler_Init a st).2).1.Nodup ∧
      ∀ id ∈ (issueIds n (KauthHandler_Init a st).2).1, id ≠ 0) ∧
    (∀ (s : KextState) (messageType : Nat) (pid : Int) (procname relativePath : List Char)
      (message : OutstandingMessage),
      (requestRecord s messageType pid procname relativePath message).request.messageId =
        (issueIds 1 s).1.headI ∧
      (enqueuedState s messageType pid procname relativePath message).s_nextMessageId =
        (issueIds 1 s).2.s_nextMessageId) := by
  have hc := KauthHandler_Init_counter a st hfresh
  have hw : wrapInt32 (KauthHandler_Init a st).2.s_nextMessageId =
      (KauthHandler_Init a st).2.s_nextMessageId := by
    rw [hc]; decide
  have hcl := issueIds_closed_form n _ hw
  rw [hc] at hcl
  refine ⟨hc, hcl, ?_, ?_, ?_⟩
  · intro hn
    rw [hcl, List.range'_eq_map_range]
    apply List.map_congr_left
    intro k hk
    have hk' := List.mem_range.mp hk
    rw [id_small k (by omega)]
    omega
  · intro hn
    rw [hcl]
    constructor
    · apply List.Nodup.map_on _ (List.nodup_range n)
      intro x hx y hy hxy
      exact id_injective_below x y (by have := List.mem_range.mp hx; omega)
        (by have := List.mem_range.mp hy; omega) hxy
    · intro id hid
      obtain ⟨k, hk, rfl⟩ := List.mem_map.mp hid
      exact id_nonzero_below k (by have := List.mem_range.mp hk; omega)
  · intro s messageType pid procname relativePath message
    constructor
    · simp only [requestRecord, Message_Init, issueIds, OSIncrementAtomic, List.headI]
      exact toUInt64_mod _
    · rfl

theorem request_ids_after_init_witness :
    (loadedState sampleConfig (fun _ => 0)).s_vnodeListener = 0 ∧
    (issueIds 5 sampleInitialised).1 = List.range' 1 5 :=
  ⟨rfl,
   (request_ids_after_init sampleAllocs (loadedState sampleConfig (fun _ => 0)) 5 rfl).2.2.1
     (by norm_num)⟩

theorem actionBitIsSet_iff (a m : Nat) : ActionBitIsSet a m = true ↔ a &&& m ≠ 0 := by
  unfold ActionBitIsSet
  rw [bne_iff_ne]

theorem directory_mask_iff (action : Nat) :
    ActionBitIsSet action
      (KAUTH_VNODE_LIST_DIRECTORY ||| KAUTH_VNODE_SEARCH ||| KAUTH_VNODE_READ_SECURITY |||
        KAUTH_VNODE_READ_ATTRIBUTES ||| KAUTH_VNODE_READ_EXTATTRIBUTES) = true ↔
      ∃ bit ∈ directoryTriggerBits, action &&& bit ≠ 0 := by
  simp only [actionBitIsSet_or, Bool.or_eq_true]
  simp only [actionBitIsSet_iff, directoryTriggerBits, List.mem_cons,
    List.mem_singleton, exists_eq_or_imp, exists_eq_left,
    List.not_mem_nil, false_and, exists_false, or_false, or_assoc]

theorem file_mask_iff (action : Nat) :
    ActionBitIsSet action
      (KAUTH_VNODE_READ_ATTRIBUTES ||| KAUTH_VNODE_WRITE_ATTRIBUTES |||
        KAUTH_VNODE_READ_EXTATTRIBUTES ||| KAUTH_VNODE_WRITE_EXTATTRIBUTES |||
        KAUTH_VNODE_READ_DATA ||| KAUTH_VNODE_WRITE_DATA ||| KAUTH_VNODE_EXECUTE) = true ↔
      ∃ bit ∈ fileTriggerBits, action &&& bit ≠ 0 := by
  simp only [actionBitIsSet_or, Bool.or_eq_true]
  simp only [actionBitIsSet_iff, fileTriggerBits, List.mem_cons,
    List.mem_singleton, exists_eq_or_imp, exists_eq_left,
    List.not_mem_nil, false_and, exists_false, or_false, or_assoc]
  tauto

theorem dispatch_request {cfg : Config} {env : Env} {action currentVnode flags : Nat}
    (st : KextState) (provider : Nat) (pid : Int) (procname : List Char) (kauthResult : Nat)
    (kauthError : Int) (message : OutstandingMessage) (schedule : List (List Response))
    (htrig : Triggers env action currentVnode) (hempty : flags &&& cfg.FileFlags_IsEmpty ≠ 0) :
    dispatch cfg env st provider action pid procname currentVnode flags kauthResult kauthError
      message schedule =
    asHandlerResult (TrySendRequestAndWaitForResponse cfg env st provider
      (requestKind env currentVnode) currentVnode pid procname kauthError message schedule) := by
  have he := (fileFlagsBitIsSet_iff flags cfg.FileFlags_IsEmpty).mpr hempty
  unfold Triggers at htrig
  unfold dispatch requestKind requestIfEmpty
  by_cases hd : env.vnode_isdir currentVnode = true
  · rw [if_pos hd] at htrig
    rw [if_pos hd, if_pos ((directory_mask_iff action).mpr htrig), if_pos he, if_pos hd]
  · rw [if_neg hd] at htrig
    rw [if_neg hd, if_pos ((file_mask_iff action).mpr htrig), if_pos he, if_neg hd]

theorem dispatch_defer {cfg : Config} {env : Env} {action currentVnode flags : Nat}
    (st : KextState) (provider : Nat) (pid : Int) (procname : List Char) (kauthResult : Nat)
    (kauthError : Int) (message : OutstandingMessage) (schedule : List (List Response))
    (h : ¬ (Triggers env action currentVnode ∧ flags &&& cfg.FileFlags_IsEmpty ≠ 0)) :
    dispatch cfg env st provider action pid procname currentVnode flags kauthResult kauthError
      message schedule = .done ⟨kauthResult, kauthError, st⟩ := by
  unfold Triggers at h
  unfold dispatch requestIfEmpty
  by_cases hd : env.vnode_isdir currentVnode = true
  · rw [if_pos hd] at h
    rw [if_pos hd]
    by_cases ht : ActionBitIsSet action
      (KAUTH_VNODE_LIST_DIRECTORY ||| KAUTH_VNODE_SEARCH ||| KAUTH_VNODE_READ_SECURITY |||
        KAUTH_VNODE_READ_ATTRIBUTES ||| KAUTH_VNODE_READ_EXTATTRIBUTES) = true
    · rw [if_pos ht]
      have he : ¬ FileFlagsBitIsSet flags cfg.FileFlags_IsEmpty = true := by
        rw [fileFlagsBitIsSet_iff]
        exact fun he => h ⟨(directory_mask_iff action).mp ht, he⟩
      rw [if_neg he]
    · rw [if_neg ht]
  · rw [if_neg hd] at h
    rw [if_neg hd]
    by_cases ht : ActionBitIsSet action
      (KAUTH_VNODE_READ_ATTRIBUTES ||| KAUTH_VNODE_WRITE_ATTRIBUTES |||
        KAUTH_VNODE_READ_EXTATTRIBUTES ||| KAUTH_VNODE_WRITE_EXTATTRIBUTES |||
        KAUTH_VNODE_READ_DATA ||| KAUTH_VNODE_WRITE_DATA ||| KAUTH_VNODE_EXECUTE) = true
    · rw [if_pos ht]
      have he : ¬ FileFlagsBitIsSet flags cfg.FileFlags_IsEmpty = true := by
        rw [fileFlagsBitIsSet_iff]
        exact fun he => h ⟨(file_mask_iff action).mp ht, he⟩
      rw [if_neg he]
    · rw [if_neg ht]

theorem handle_eq_dispatch {cfg : Config} {env : Env} {fuel : Nat} {st : KextState} {pid : Int}
    {currentVnode flags provider : Nat}
    (action : Nat) (kauthError : Int) (message : OutstandingMessage)
    (schedule : List (List Response))
    (h : PassesFastPath cfg env fuel st pid currentVnode flags provider) :
    ∃ st1, ActiveProviders_Find env fuel st currentVnode = some (some provider, st1) ∧
      WalkFrame st st1 ∧
      HandleVnodeOperation cfg env fuel st action pid currentVnode kauthError message schedule =
        dispatch cfg env st1 provider action pid (proc_name env pid (MAXCOMLEN + 1)) currentVnode
          flags KAUTH_RESULT_DEFER kauthError message schedule := by
  have h1 : FileFlagsBitIsSet flags cfg.FileFlags_IsInVirtualizationRoot = true :=
    (fileFlagsBitIsSet_iff _ _).mpr h.in_root
  have h3 : (FileFlagsBitIsSet flags cfg.FileFlags_IsEmpty &&
      IsFileSystemCrawler (proc_name env pid (MAXCOMLEN + 1))) = false := by
    rw [← Bool.not_eq_true, Bool.and_eq_true, fileFlagsBitIsSet_iff, proc_name_crawler]
    exact h.not_denied
  have hfind := h.found
  cases hf : ActiveProviders_Find env fuel st currentVnode with
  | none =>
    rw [hf] at hfind
    exact absurd hfind (by simp)
  | some r =>
    obtain ⟨p, st1⟩ := r
    rw [hf] at hfind
    simp only [Option.map_some', Option.some.injEq] at hfind
    subst hfind
    obtain ⟨hw, -⟩ := ActiveProviders_Find_frame hf
    refine ⟨st1, rfl, hw, ?_⟩
    unfold HandleVnodeOperation
    have hp : ¬ pid = (st1.s_activeProviders.getD provider default).pid := by
      rw [hw.providers]
      exact h.other_pid
    simp only [h.flags_read, h1, h3, hf, Bool.not_true, Bool.false_eq_true, if_false]
    rw [if_neg hp]

theorem answerRecord_request (m : OutstandingMessage) (r : Response) :
    (answerRecord m r).request = m.request ∧ (answerRecord m r).addr = m.addr := by
  unfold answerRecord
  split <;> exact ⟨rfl, rfl⟩

theorem answerRecord_pos (m : OutstandingMessage) (r : Response)
    (h : isResponseKind r.responseType ∧ m.request.messageId = r.messageId) :
    answerRecord m r = { m with response := r.responseType, receivedResponse := true } := by
  unfold answerRecord
  exact if_pos h

theorem foldl_answer_request (b : List Response) :
    ∀ m : OutstandingMessage, (b.foldl answerRecord m).request = m.request ∧
      (b.foldl answerRecord m).addr = m.addr := by
  induction b with
  | nil => intro m; exact ⟨rfl, rfl⟩
  | cons r rest ih =>
    intro m
    simp only [List.foldl_cons]
    have h1 := ih (answerRecord m r)
    have h2 := answerRecord_request m r
    exact ⟨h1.1.trans h2.1, h1.2.trans h2.2⟩

theorem foldl_answer_unanswered (b : List Response) :
    ∀ m : OutstandingMessage,
      (∀ r ∈ b, r.messageId = m.request.messageId → ¬ isResponseKind r.responseType) →
      b.foldl answerRecord m = m := by
  induction b with
  | nil => intro m _; rfl
  | cons r rest ih =>
    intro m h
    simp only [List.foldl_cons]
    have hr : answerRecord m r = m := by
      unfold answerRecord
      rw [if_neg]
      rintro ⟨hk, hid⟩
      exact h r (List.mem_cons_self _ _) hid.symm hk
    rw [hr]
    exact ih m (fun x hx => h x (List.mem_cons_of_mem _ hx))

theorem foldl_answer_answered (before after : List Response) (m : OutstandingMessage) (k : Nat)
    (hk : isResponseKind k)
    (hafter : ∀ r ∈ after, r.messageId = m.request.messageId → ¬ isResponseKind r.responseType) :
    (before ++ ⟨m.request.messageId, k⟩ :: after).foldl answerRecord m =
      { m with response := k, receivedResponse := true } := by
  rw [List.foldl_append, List.foldl_cons]
  obtain ⟨h1, h2⟩ := foldl_answer_request before m
  have h3 : answerRecord (before.foldl answerRecord m) ⟨m.request.messageId, k⟩ =
      { m with response := k, receivedResponse := true } := by
    rw [answerRecord_pos _ _ ⟨hk, by rw [h1]⟩, h1, h2]
  rw [h3]
  exact foldl_answer_unanswered after _ hafter

theorem foldl_answer_inv (b : List Response) :
    ∀ m : OutstandingMessage,
      b.foldl answerRecord m = m ∨
      ((b.foldl answerRecord m).receivedResponse = true ∧
        isResponseKind (b.foldl answerRecord m).response ∧
        (⟨m.request.messageId, (b.foldl answerRecord m).response⟩ : Response) ∈ b) := by
  induction b with
  | nil => intro m; exact Or.inl rfl
  | cons r rest ih =>
    intro m
    simp only [List.foldl_cons]
    have h2 := answerRecord_request m r
    rcases ih (answerRecord m r) with h | ⟨h3, h4, h5⟩
    · rw [h]
      unfold answerRecord
      split
      · rename_i hc
        right
        refine ⟨rfl, hc.1, ?_⟩
        simp only
        rw [hc.2]
        exact List.mem_cons_self _ _
      · exact Or.inl rfl
    · right
      refine ⟨h3, h4, ?_⟩
      rw [h2.1] at h5
      exact List.mem_cons_of_mem _ h5

theorem handle_head (st : KextState) (messageId responseType : Nat) (m : OutstandingMessage)
    (rest : List OutstandingMessage) (h : st.s_outstandingMessages = m :: rest) :
    ∃ rest', (KauthHandler_HandleKernelMessageResponse st messageId
      responseType).s_outstandingMessages = answerRecord m ⟨messageId, responseType⟩ :: rest' := by
  rw [handleResponse_list, h]
  unfold answerRecord
  by_cases hk : isResponseKind responseType
  · rw [if_pos hk]
    unfold respondFirst
    by_cases hid : m.request.messageId = messageId
    · rw [if_pos hid, if_pos ⟨hk, hid⟩]
      exact ⟨rest, rfl⟩
    · rw [if_neg hid, if_neg (fun hc => hid hc.2)]
      exact ⟨_, rfl⟩
  · rw [if_neg hk, if_neg (fun hc => hk hc.1)]
    exact ⟨rest, rfl⟩

theorem deliver_head (batch : List Response) :
    ∀ (st : KextState) (m : OutstandingMessage) (rest : List OutstandingMessage),
      st.s_outstandingMessages = m :: rest →
      ∃ rest', (deliver st batch).s_outstandingMessages = batch.foldl answerRecord m :: rest' := by
  induction batch with
  | nil => intro st m rest h; exact ⟨rest, h⟩
  | cons r b ih =>
    intro st m rest h
    obtain ⟨rest1, h1⟩ := handle_head st r.messageId r.responseType m rest h
    exact ih _ _ rest1 h1

theorem recordAt_head {st : KextState} {m : OutstandingMessage} {rest : List OutstandingMessage}
    (h : st.s_outstandingMessages = m :: rest) : recordAt st m.addr = some m := by
  unfold recordAt
  rw [h]
  simp

theorem receivedAt_head {st : KextState} {m : OutstandingMessage} {rest : List OutstandingMessage}
    (h : st.s_outstandingMessages = m :: rest) : receivedAt st m.addr = m.receivedResponse := by
  unfold receivedAt
  rw [recordAt_head h]

theorem waitForResponse_received (addr : Nat) (schedule : List (List Response)) (st : KextState)
    (h : receivedAt st addr = true) : waitForResponse addr schedule st = .done st := by
  cases schedule with
  | nil => unfold waitForResponse; rw [if_pos h]
  | cons b rest => unfold waitForResponse; rw [if_pos h]

theorem waitForResponse_answered (batch : List Response) (post : List (List Response))
    (k : Nat) :
    ∀ (pre : List (List Response)) (st : KextState) (m : OutstandingMessage)
      (rest : List OutstandingMessage),
      st.s_outstandingMessages = m :: rest →
      m.receivedResponse = false →
      (∀ b ∈ pre, ∀ r ∈ b, r.messageId = m.request.messageId →
        ¬ isResponseKind r.responseType) →
      batch.foldl answerRecord m = { m with response := k, receivedResponse := true } →
      ∃ st' rest', waitForResponse m.addr (pre ++ batch :: post) st = .done st' ∧
        st'.s_outstandingMessages = { m with response := k, receivedResponse := true } :: rest' := by
  intro pre
  induction pre with
  | nil =>
    intro st m rest hl hr _ hb
    have h0 : receivedAt st m.addr = false := by rw [receivedAt_head hl, hr]
    simp only [List.nil_append]
    unfold waitForResponse
    rw [if_neg (by rw [h0]; simp)]
    obtain ⟨rest', h1⟩ := deliver_head batch (st.emit (Event.sleep m.addr)) m rest hl
    rw [hb] at h1
    refine ⟨_, rest', ?_, h1⟩
    apply waitForResponse_received
    have := receivedAt_head h1
    exact this
  | cons p ps ih =>
    intro st m rest hl hr hpre hb
    have h0 : receivedAt st m.addr = false := by rw [receivedAt_head hl, hr]
    simp only [List.cons_append]
    unfold waitForResponse
    rw [if_neg (by rw [h0]; simp)]
    obtain ⟨rest', h1⟩ := deliver_head p (st.emit (Event.sleep m.addr)) m rest hl
    rw [foldl_answer_unanswered p m (hpre p (List.mem_cons_self _ _))] at h1
    exact ih _ m rest' h1 hr (fun b hb' => hpre b (List.mem_cons_of_mem _ hb')) hb

theorem waitForResponse_done_inv :
    ∀ (schedule : List (List Response)) (st st' : KextState) (m : OutstandingMessage)
      (rest : List OutstandingMessage),
      st.s_outstandingMessages = m :: rest →
      waitForResponse m.addr schedule st = .done st' →
      ∃ m' rest', st'.s_outstandingMessages = m' :: rest' ∧ m'.addr = m.addr ∧
        m'.request = m.request ∧ m'.receivedResponse = true ∧
        (m' = m ∨ (isResponseKind m'.response ∧
          ∃ b ∈ schedule, (⟨m.request.messageId, m'.response⟩ : Response) ∈ b)) := by
  intro schedule
  induction schedule with
  | nil =>
    intro st st' m rest hl hw
    unfold waitForResponse at hw
    split at hw
    · rename_i hr
      simp only [Outcome.done.injEq] at hw
      subst hw
      rw [receivedAt_head hl] at hr
      exact ⟨m, rest, hl, rfl, rfl, hr, Or.inl rfl⟩
    · exact absurd hw (by simp)
  | cons b bs ih =>
    intro st st' m rest hl hw
    unfold waitForResponse at hw
    split at hw
    · rename_i hr
      simp only [Outcome.done.injEq] at hw
      subst hw
      rw [receivedAt_head hl] at hr
      exact ⟨m, rest, hl, rfl, rfl, hr, Or.inl rfl⟩
    · obtain ⟨rest1, h1⟩ := deliver_head b (st.emit (Event.sleep m.addr)) m rest hl
      obtain ⟨hreq, haddr⟩ := foldl_answer_request b m
      have hw' : waitForResponse (b.foldl answerRecord m).addr bs
          (deliver (st.emit (Event.sleep m.addr)) b) = .done st' := by
        rw [haddr]
        exact hw
      obtain ⟨m', rest', h2, h3, h4, h5, h6⟩ := ih _ st' _ rest1 h1 hw'
      refine ⟨m', rest', h2, h3.trans haddr, h4.trans hreq, h5, ?_⟩
      rcases h6 with h6 | ⟨h6, b', hb', h7⟩
      · rcases foldl_answer_inv b m with h8 | ⟨-, h9, h10⟩
        · left
          rw [h6, h8]
        · right
          rw [h6]
          exact ⟨h9, b, List.mem_cons_self _ _, h10⟩
      · right
        rw [hreq] at h7
        exact ⟨h6, b', List.mem_cons_of_mem _ hb', h7⟩

theorem await_answered {schedule : List (List Response)} {kind : Nat}
    (st : KextState) (m : OutstandingMessage) (rest : List OutstandingMessage)
    (hl : st.s_outstandingMessages = m :: rest) (hr : m.receivedResponse = false)
    (hans : AnsweredWith schedule m.request.messageId kind) :
    ∃ st' rest', waitForResponse m.addr schedule.tail (deliver st schedule.headI) = .done st' ∧
      st'.s_outstandingMessages =
        { m with response := kind, receivedResponse := true } :: rest' := by
  obtain ⟨hk, pre, before, after, post, hs, hpre, hafter⟩ := hans
  have hb := foldl_answer_answered before after m kind hk hafter
  cases pre with
  | nil =>
    rw [hs]
    simp only [List.nil_append, List.headI_cons, List.tail_cons]
    obtain ⟨rest', h1⟩ := deliver_head (before ++ ⟨m.request.messageId, kind⟩ :: after) st m rest hl
    rw [hb] at h1
    refine ⟨_, rest', ?_, h1⟩
    apply waitForResponse_received
    exact receivedAt_head h1
  | cons p ps =>
    rw [hs]
    simp only [List.cons_append, List.headI_cons, List.tail_cons]
    obtain ⟨rest', h1⟩ := deliver_head p st m rest hl
    rw [foldl_answer_unanswered p m (hpre p (List.mem_cons_self _ _))] at h1
    exact waitForResponse_answered _ post kind ps _ m rest' h1 hr
      (fun b hb' => hpre b (List.mem_cons_of_mem _ hb')) hb

theorem await_done_inv {schedule : List (List Response)} {st st' : KextState}
    {m : OutstandingMessage} {rest : List OutstandingMessage}
    (hl : st.s_outstandingMessages = m :: rest) (hr : m.receivedResponse = false)
    (hw : waitForResponse m.addr schedule.tail (deliver st schedule.headI) = .done st') :
    ∃ m' rest', st'.s_outstandingMessages = m' :: rest' ∧ m'.addr = m.addr ∧
      m'.request = m.request ∧ isResponseKind m'.response ∧
      ∃ b ∈ schedule, (⟨m.request.messageId, m'.response⟩ : Response) ∈ b := by
  obtain ⟨rest1, h1⟩ := deliver_head schedule.headI st m rest hl
  obtain ⟨hreq, haddr⟩ := foldl_answer_request schedule.headI m
  have hw' : waitForResponse (schedule.headI.foldl answerRecord m).addr schedule.tail
      (deliver st schedule.headI) = .done st' := by
    rw [haddr]
    exact hw
  obtain ⟨m', rest', h2, h3, h4, h5, h6⟩ := waitForResponse_done_inv _ _ st' _ rest1 h1 hw'
  have hhead : ∀ r, r ∈ schedule.headI → ∃ b ∈ schedule, r ∈ b := by
    intro r hr'
    cases schedule with
    | nil => exact absurd hr' (by simp [List.headI, default])
    | cons b bs => exact ⟨b, List.mem_cons_self _ _, hr'⟩
  refine ⟨m', rest', h2, h3.trans haddr, h4.trans hreq, ?_⟩
  rcases h6 with h6 | ⟨h6, b', hb', h7⟩
  · rcases foldl_answer_inv schedule.headI m with h8 | ⟨-, h9, h10⟩
    · rw [h6, h8, hr] at h5
      exact absurd h5 (by simp)
    · rw [h6]
      exact ⟨h9, hhead _ h10⟩
  · rw [hreq] at h7
    exact ⟨h6, b', List.mem_of_mem_tail hb', h7⟩

theorem list_remove_head (st : KextState) (m : OutstandingMessage)
    (rest : List OutstandingMessage) (h : st.s_outstandingMessages = m :: rest) :
    LIST_REMOVE st m.addr = { st with s_outstandingMessages := rest } := by
  unfold LIST_REMOVE
  rw [h]
  simp

theorem trySend_send_fails {cfg : Config} {env : Env} {vnode provider : Nat}
    {vnodePath relativePath : List Char}
    (st : KextState) (messageType : Nat) (pid : Int) (procname : List Char)
    (kauthError : Int) (message : OutstandingMessage) (schedule : List (List Response))
    (hpath : vn_getpath cfg env vnode = some vnodePath)
    (hrel : GetRelativePath vnodePath
      (cstr (st.s_activeProviders.getD provider default).virtualizationRoot) = some relativePath)
    (hp : provider < MaxActiveProviders)
    (hc : (st.s_activeProviders.getD provider default).userClient = 0) :
    TrySendRequestAndWaitForResponse cfg env st provider messageType vnode pid procname
      kauthError message schedule =
    .done (false, KAUTH_RESULT_DEFER, kauthError,
      { st with s_nextMessageId := wrapInt32 (st.s_nextMessageId + 1) }) := by
  rw [trySend_eq st provider messageType pid procname kauthError message schedule hpath hrel]
  have hc' : ((enqueuedState st messageType pid procname relativePath
      message).s_activeProviders.getD provider default).userClient = 0 := hc
  rw [sendMessage_null _ hp hc']
  simp only
  rw [if_pos (by decide)]
  have := list_remove_head (enqueuedState st messageType pid procname relativePath message)
    (requestRecord st messageType pid procname relativePath message) st.s_outstandingMessages rfl
  exact congrArg (fun s => Outcome.done (false, KAUTH_RESULT_DEFER, kauthError, s)) this

theorem trySend_after_send {cfg : Config} {env : Env} {vnode provider : Nat}
    {vnodePath relativePath : List Char}
    (st : KextState) (messageType : Nat) (pid : Int) (procname : List Char)
    (kauthError : Int) (message : OutstandingMessage) (schedule : List (List Response))
    (hpath : vn_getpath cfg env vnode = some vnodePath)
    (hrel : GetRelativePath vnodePath
      (cstr (st.s_activeProviders.getD provider default).virtualizationRoot) = some relativePath)
    (hp : provider < MaxActiveProviders)
    (hc : (st.s_activeProviders.getD provider default).userClient ≠ 0) :
    TrySendRequestAndWaitForResponse cfg env st provider messageType vnode pid procname
      kauthError message schedule =
    match waitForResponse message.addr schedule.tail
        (deliver (sentState cfg st provider messageType pid procname relativePath message)
          schedule.headI) with
    | .assertFailed => .assertFailed
    | .outOfFuel => .outOfFuel
    | .blocked s => .blocked s
    | .done st3 =>
      if MessageType_Response_Success =
          (match recordAt st3 message.addr with
           | some m => m.response
           | none => message.response) then
        .done (true, KAUTH_RESULT_DEFER, kauthError, LIST_REMOVE st3 message.addr)
      else
        .done (false, KAUTH_RESULT_DENY, EAGAIN, LIST_REMOVE st3 message.addr) := by
  rw [trySend_eq st provider messageType pid procname kauthError message schedule hpath hrel]
  have hc' : ((enqueuedState st messageType pid procname relativePath
      message).s_activeProviders.getD provider default).userClient ≠ 0 := hc
  rw [sendMessage_ok _ hp hc']
  simp only
  rw [if_neg (by simp)]
  rfl

theorem trySend_answered {cfg : Config} {env : Env} {vnode provider kind : Nat}
    {vnodePath relativePath : List Char}
    (st : KextState) (messageType : Nat) (pid : Int) (procname : List Char)
    (kauthError : Int) (message : OutstandingMessage) (schedule : List (List Response))
    (hpath : vn_getpath cfg env vnode = some vnodePath)
    (hrel : GetRelativePath vnodePath
      (cstr (st.s_activeProviders.getD provider default).virtualizationRoot) = some relativePath)
    (hp : provider < MaxActiveProviders)
    (hc : (st.s_activeProviders.getD provider default).userClient ≠ 0)
    (hans : AnsweredWith schedule (toUInt64 st.s_nextMessageId) kind) :
    ∃ s, TrySendRequestAndWaitForResponse cfg env st provider messageType vnode pid procname
      kauthError message schedule =
      .done (decide (kind = MessageType_Response_Success),
        (if kind = MessageType_Response_Success then KAUTH_RESULT_DEFER else KAUTH_RESULT_DENY),
        (if kind = MessageType_Response_Success then kauthError else EAGAIN), s) := by
  rw [trySend_after_send st messageType pid procname kauthError message schedule hpath hrel hp hc]
  have hid : (requestRecord st messageType pid procname relativePath message).request.messageId
      = toUInt64 st.s_nextMessageId := by
    simp only [requestRecord, Message_Init]
    exact toUInt64_mod _
  rw [← hid] at hans
  obtain ⟨st3, rest', hw, hl⟩ := await_answered
    (sentState cfg st provider messageType pid procname relativePath message)
    (requestRecord st messageType pid procname relativePath message) st.s_outstandingMessages
    rfl rfl hans
  have haddr : (requestRecord st messageType pid procname relativePath message).addr
      = message.addr := rfl
  rw [haddr] at hw
  rw [hw]
  have hrec := recordAt_head hl
  simp only [haddr] at hrec
  simp only [hrec]
  by_cases hk : kind = MessageType_Response_Success
  · rw [if_pos hk.symm]
    simp only [hk, if_true, decide_True]
    exact ⟨_, rfl⟩
  · rw [if_neg (fun h => hk h.symm)]
    simp only [hk, if_false, decide_False]
    exact ⟨_, rfl⟩

theorem trySend_deny_inv {cfg : Config} {env : Env} {vnode provider : Nat}
    {st s : KextState} {messageType : Nat} {pid : Int} {procname : List Char}
    {kauthError e : Int} {message : OutstandingMessage} {schedule : List (List Response)}
    {b : Bool}
    (h : TrySendRequestAndWaitForResponse cfg env st provider messageType vnode pid procname
      kauthError message schedule = .done (b, KAUTH_RESULT_DENY, e, s)) :
    vn_getpath cfg env vnode = none ∨
      ∃ batch ∈ schedule,
        (⟨toUInt64 st.s_nextMessageId, MessageType_Response_Fail⟩ : Response) ∈ batch := by
  cases hpath : vn_getpath cfg env vnode with
  | none => exact Or.inl rfl
  | some vnodePath =>
    right
    cases hrel : GetRelativePath vnodePath
        (cstr (st.s_activeProviders.getD provider default).virtualizationRoot) with
    | none =>
      rw [trySend_assert st provider messageType pid procname kauthError message schedule
        hpath hrel] at h
      exact absurd h (by simp)
    | some relativePath =>
      by_cases hp : provider < MaxActiveProviders
      · by_cases hc : (st.s_activeProviders.getD provider default).userClient = 0
        · rw [trySend_send_fails st messageType pid procname kauthError message schedule
            hpath hrel hp hc] at h
          simp only [Outcome.done.injEq, Prod.mk.injEq] at h
          exact absurd h.2.1 (by decide)
        · rw [trySend_after_send st messageType pid procname kauthError message schedule
            hpath hrel hp hc] at h
          cases hw : waitForResponse message.addr schedule.tail
              (deliver (sentState cfg st provider messageType pid procname relativePath message)
                schedule.headI) with
          | assertFailed => rw [hw] at h; exact absurd h (by simp)
          | outOfFuel => rw [hw] at h; exact absurd h (by simp)
          | blocked x => rw [hw] at h; exact absurd h (by simp)
          | done st3 =>
            rw [hw] at h
            have hid : (requestRecord st messageType pid procname relativePath
                message).request.messageId = toUInt64 st.s_nextMessageId := by
              simp only [requestRecord, Message_Init]
              exact toUInt64_mod _
            obtain ⟨m', rest', h2, h3, h4, h5, batch, hb, hin⟩ := @await_done_inv schedule
              (sentState cfg st provider messageType pid procname relativePath message) st3
              (requestRecord st messageType pid procname relativePath message)
              st.s_outstandingMessages rfl rfl hw
            have hrec := recordAt_head h2
            have haddr : m'.addr = message.addr := h3
            rw [haddr] at hrec
            simp only [hrec] at h
            split at h
            · simp only [Outcome.done.injEq, Prod.mk.injEq] at h
              exact absurd h.2.1 (by decide)
            · rename_i hne
              rw [hid] at hin
              refine ⟨batch, hb, ?_⟩
              have hfail : m'.response = MessageType_Response_Fail := by
                rcases h5 with h5 | h5
                · exact absurd h5.symm hne
                · exact h5
              rw [← hfail]
              exact hin
      · rw [trySend_eq st provider messageType pid procname kauthError message schedule
          hpath hrel, sendMessage_assert _ hp] at h
        exact absurd h (by simp)

theorem waitTrace_refl (st : KextState) : WaitTrace st st :=
  ⟨[], by simp, by simp⟩

theorem waitTrace_trans {a b c : KextState} (h1 : WaitTrace a b) (h2 : WaitTrace b c) :
    WaitTrace a c := by
  obtain ⟨r1, e1, v1⟩ := h1
  obtain ⟨r2, e2, v2⟩ := h2
  refine ⟨r1 ++ r2, by rw [e2, e1, List.append_assoc], ?_⟩
  intro e he
  rcases List.mem_append.mp he with h | h
  · exact v1 e h
  · exact v2 e h

theorem handleResponse_waitTrace (st : KextState) (messageId responseType : Nat) :
    WaitTrace st (KauthHandler_HandleKernelMessageResponse st messageId responseType) := by
  unfold KauthHandler_HandleKernelMessageResponse
  split
  · split
    · rename_i l channel _
      exact ⟨[Event.wakeup channel], rfl, by simp [Event.isWaitOp]⟩
    · exact waitTrace_refl st
  · exact waitTrace_refl st

theorem deliver_waitTrace (batch : List Response) :
    ∀ st : KextState, WaitTrace st (deliver st batch) := by
  induction batch with
  | nil => intro st; exact waitTrace_refl st
  | cons r rest ih =>
    intro st
    exact waitTrace_trans (handleResponse_waitTrace st r.messageId r.responseType) (ih _)

theorem waitForResponse_waitTrace (addr : Nat) :
    ∀ (schedule : List (List Response)) (st s : KextState),
      Outcome.finalState id (waitForResponse addr schedule st) = some s → WaitTrace st s := by
  intro schedule
  induction schedule with
  | nil =>
    intro st s h
    unfold waitForResponse at h
    split at h <;> simp only [Outcome.finalState, Option.some.injEq, id] at h <;> rw [← h] <;>
      exact waitTrace_refl st
  | cons b rest ih =>
    intro st s h
    unfold waitForResponse at h
    split at h
    · simp only [Outcome.finalState, Option.some.injEq, id] at h
      rw [← h]
      exact waitTrace_refl st
    · have h1 := ih _ _ h
      have h2 := deliver_waitTrace b (st.emit (Event.sleep addr))
      have h3 : WaitTrace st (st.emit (Event.sleep addr)) :=
        ⟨[Event.sleep addr], rfl, by simp [Event.isWaitOp]⟩
      exact waitTrace_trans (waitTrace_trans h3 h2) h1

theorem sentBuffers_append (l1 l2 : List Event) :
    sentBuffers (l1 ++ l2) = sentBuffers l1 ++ sentBuffers l2 := by
  induction l1 with
  | nil => rfl
  | cons e rest ih =>
    cases e <;> simp [sentBuffers, ih]

theorem sentBuffers_of_waitOps (l : List Event) (h : ∀ e ∈ l, Event.isWaitOp e = true) :
    sentBuffers l = [] := by
  induction l with
  | nil => rfl
  | cons e rest ih =>
    have he := h e (List.mem_cons_self _ _)
    have hr := ih (fun x hx => h x (List.mem_cons_of_mem _ hx))
    cases e <;> simp [Event.isWaitOp] at he <;> simp [sentBuffers, hr]

theorem sentBuffers_of_vnodeOps (l : List Event) (h : ∀ e ∈ l, Event.isVnodeOp e = true) :
    sentBuffers l = [] := by
  induction l with
  | nil => rfl
  | cons e rest ih =>
    have he := h e (List.mem_cons_self _ _)
    have hr := ih (fun x hx => h x (List.mem_cons_of_mem _ hx))
    cases e <;> simp [Event.isVnodeOp] at he <;> simp [sentBuffers, hr]

theorem sentBuffers_waitTrace {st st' : KextState} (h : WaitTrace st st') :
    sentBuffers st'.trace = sentBuffers st.trace := by
  obtain ⟨rest, h1, h2⟩ := h
  rw [h1, sentBuffers_append, sentBuffers_of_waitOps rest h2, List.append_nil]

theorem sentBuffers_walkFrame {st st' : KextState} (h : WalkFrame st st') :
    sentBuffers st'.trace = sentBuffers st.trace := by
  obtain ⟨rest, h1, h2⟩ := h.trace
  rw [h1, sentBuffers_append, sentBuffers_of_vnodeOps rest h2, List.append_nil]

theorem trySend_sent {cfg : Config} {env : Env} {vnode provider : Nat}
    {vnodePath relativePath : List Char}
    (st : KextState) (messageType : Nat) (pid : Int) (procname : List Char)
    (kauthError : Int) (message : OutstandingMessage) (schedule : List (List Response))
    (hpath : vn_getpath cfg env vnode = some vnodePath)
    (hrel : GetRelativePath vnodePath
      (cstr (st.s_activeProviders.getD provider default).virtualizationRoot) = some relativePath)
    (hp : provider < MaxActiveProviders)
    (hc : (st.s_activeProviders.getD provider default).userClient ≠ 0)
    (s : KextState)
    (h : Outcome.finalState (fun r => r.2.2.2)
      (TrySendRequestAndWaitForResponse cfg env st provider messageType vnode pid procname
        kauthError message schedule) = some s) :
    sentBuffers s.trace = sentBuffers st.trace ++
      [((st.s_activeProviders.getD provider default).userClient,
        messageMemory cfg
          (Message_Init (toUInt64 st.s_nextMessageId) messageType pid procname relativePath))] := by
  rw [trySend_after_send st messageType pid procname kauthError message schedule hpath hrel hp hc]
    at h
  have hsent : sentBuffers
      (sentState cfg st provider messageType pid procname relativePath message).trace =
      sentBuffers st.trace ++
      [((st.s_activeProviders.getD provider default).userClient,
        messageMemory cfg
          (Message_Init (toUInt64 st.s_nextMessageId) messageType pid procname relativePath))] := by
    simp only [sentState, sendCalls, sentBuffers_append, sentBuffers]
  have hd := deliver_waitTrace schedule.headI
    (sentState cfg st provider messageType pid procname relativePath message)
  cases hw : waitForResponse message.addr schedule.tail
      (deliver (sentState cfg st provider messageType pid procname relativePath message)
        schedule.headI) with
  | assertFailed => rw [hw] at h; exact absurd h (by simp [Outcome.finalState])
  | outOfFuel => rw [hw] at h; exact absurd h (by simp [Outcome.finalState])
  | blocked x =>
    rw [hw] at h
    simp only [Outcome.finalState, Option.some.injEq] at h
    have h2 := waitForResponse_waitTrace message.addr schedule.tail _ x (by rw [hw]; rfl)
    rw [← h, sentBuffers_waitTrace (waitTrace_trans hd h2), hsent]
  | done st3 =>
    rw [hw] at h
    have h2 := waitForResponse_waitTrace message.addr schedule.tail _ st3 (by rw [hw]; rfl)
    have h3 := sentBuffers_waitTrace (waitTrace_trans hd h2)
    simp only at h
    split at h <;> simp only [Outcome.finalState, Option.some.injEq] at h <;>
      rw [← h] <;> simp only [LIST_REMOVE] <;> rw [h3, hsent]

theorem defer_ne_deny : KAUTH_RESULT_DEFER ≠ KAUTH_RESULT_DENY := by decide

theorem asHandlerResult_done {o : Outcome (Bool × Nat × Int × KextState)} {r : HandlerResult}
    (h : asHandlerResult o = .done r) :
    ∃ b, o = .done (b, r.kauthResult, r.kauthError, r.state) := by
  cases o with
  | done x =>
    obtain ⟨b, k, e, s⟩ := x
    simp only [asHandlerResult, Outcome.done.injEq] at h
    subst h
    exact ⟨b, rfl⟩
  | blocked s => exact absurd h (by simp [asHandlerResult])
  | assertFailed => exact absurd h (by simp [asHandlerResult])
  | outOfFuel => exact absurd h (by simp [asHandlerResult])

theorem asHandlerResult_finalState (o : Outcome (Bool × Nat × Int × KextState)) :
    Outcome.finalState HandlerResult.state (asHandlerResult o) =
      Outcome.finalState (fun r => r.2.2.2) o := by
  cases o with
  | done x => rfl
  | blocked s => rfl
  | assertFailed => rfl
  | outOfFuel => rfl

theorem trySend_deny_sources {cfg : Config} {env : Env} {vnode provider : Nat}
    {st s : KextState} {messageType : Nat} {pid : Int} {procname : List Char}
    {kauthError e : Int} {message : OutstandingMessage} {schedule : List (List Response)}
    {b : Bool}
    (h : TrySendRequestAndWaitForResponse cfg env st provider messageType vnode pid procname
      kauthError message schedule = .done (b, KAUTH_RESULT_DENY, e, s)) :
    (vn_getpath cfg env vnode = none ∧ e = kauthError ∧ s = st) ∨
      ∃ vnodePath relativePath, vn_getpath cfg env vnode = some vnodePath ∧
        GetRelativePath vnodePath
          (cstr (st.s_activeProviders.getD provider default).virtualizationRoot) =
            some relativePath ∧
        provider < MaxActiveProviders ∧
        (st.s_activeProviders.getD provider default).userClient ≠ 0 ∧
        e = EAGAIN ∧
        ∃ batch ∈ schedule,
          (⟨toUInt64 st.s_nextMessageId, MessageType_Response_Fail⟩ : Response) ∈ batch := by
  have h0 := h
  cases hpath : vn_getpath cfg env vnode with
  | none =>
    left
    rw [trySend_path_fail st provider messageType pid procname kauthError message schedule hpath]
      at h
    simp only [Outcome.done.injEq, Prod.mk.injEq] at h
    exact ⟨rfl, h.2.2.1.symm, h.2.2.2.symm⟩
  | some vnodePath =>
    right
    have hbatch := (trySend_deny_inv h0).resolve_left (by rw [hpath]; simp)
    cases hrel : GetRelativePath vnodePath
        (cstr (st.s_activeProviders.getD provider default).virtualizationRoot) with
    | none =>
      rw [trySend_assert st provider messageType pid procname kauthError message schedule
        hpath hrel] at h
      exact absurd h (by simp)
    | some relativePath =>
      by_cases hp : provider < MaxActiveProviders
      · by_cases hc : (st.s_activeProviders.getD provider default).userClient = 0
        · rw [trySend_send_fails st messageType pid procname kauthError message schedule
            hpath hrel hp hc] at h
          simp only [Outcome.done.injEq, Prod.mk.injEq] at h
          exact absurd h.2.1 (by decide)
        · refine ⟨vnodePath, relativePath, rfl, hrel, hp, hc, ?_, hbatch⟩
          rw [trySend_after_send st messageType pid procname kauthError message schedule
            hpath hrel hp hc] at h
          cases hw : waitForResponse message.addr schedule.tail
              (deliver (sentState cfg st provider messageType pid procname relativePath message)
                schedule.headI) with
          | assertFailed => rw [hw] at h; exact absurd h (by simp)
          | outOfFuel => rw [hw] at h; exact absurd h (by simp)
          | blocked x => rw [hw] at h; exact absurd h (by simp)
          | done st3 =>
            rw [hw] at h
            dsimp only at h
            split at h
            · simp only [Outcome.done.injEq, Prod.mk.injEq] at h
              exact absurd h.2.1 (by decide)
            · simp only [Outcome.done.injEq, Prod.mk.injEq] at h
              exact h.2.2.1.symm
      · rw [trySend_eq st provider messageType pid procname kauthError message schedule
          hpath hrel, sendMessage_assert _ hp] at h
        exact absurd h (by simp)

/-- C2 as stated fails: process 100 reads the placeholder file 7 below the
registered root; the access passes the fast path, the placeholder bit is set,
READ_DATA is a trigger and the caller is no crawler, the path of the vnode
cannot be resolved, no response is ever delivered, and HandleVnodeOperation
returns KAUTH_RESULT_DENY, not KAUTH_RESULT_DEFER. -/
theorem path_failure_denies :
    PassesFastPath sampleConfig sampleEnv 10 sampleState 100 7 24 0 ∧
    24 &&& sampleConfig.FileFlags_IsEmpty ≠ 0 ∧
    Triggers sampleEnv KAUTH_VNODE_READ_DATA 7 ∧
    sampleEnv.p_comm 100 ∉ crawlerNames ∧
    vn_getpath sampleConfig sampleEnv 7 = none ∧
    verdict (HandleVnodeOperation sampleConfig sampleEnv 10 sampleState KAUTH_VNODE_READ_DATA
      100 7 0 sampleFrame []) = some (KAUTH_RESULT_DENY, 0) :=
  ⟨⟨by decide, by decide, by decide, by decide, by decide⟩, by decide, by decide, by decide,
   by decide, by decide⟩

/-- C2, amended: for an access that reaches materialization (fast path
passed, placeholder bit set, a triggering action bit set), HandleVnodeOperation
returns KAUTH_RESULT_DEFER with the out-error untouched when
ActiveProvider_SendMessage returns an error (the client handle of the slot is
null), and KAUTH_RESULT_DENY with the out-error untouched when vn_getpath
fails. For every access at all, a return of KAUTH_RESULT_DENY has one of three
sources: a crawler touching a placeholder inside a virtualization root, with
the out-error untouched; an access that reached materialization and whose path
resolution failed, with the out-error untouched; or an access that reached
materialization, whose path resolved and whose request was handed to the
client of the slot, and a response of kind MessageType_Response_Fail delivered
for the id of that request, with the out-error EAGAIN. -/
theorem HandleVnodeOperation_deny_sources (cfg : Config) (env : Env) (fuel : Nat)
    (st : KextState) (action : Nat) (pid : Int) (currentVnode : Nat) (kauthError : Int)
    (message : OutstandingMessage) (schedule : List (List Response)) :
    (∀ flags provider, PassesFastPath cfg env fuel st pid currentVnode flags provider →
      flags &&& cfg.FileFlags_IsEmpty ≠ 0 → Triggers env action currentVnode →
      (vn_getpath cfg env currentVnode = none →
        ∃ s, HandleVnodeOperation cfg env fuel st action pid currentVnode kauthError message
          schedule = .done ⟨KAUTH_RESULT_DENY, kauthError, s⟩) ∧
      (∀ vnodePath relativePath, vn_getpath cfg env currentVnode = some vnodePath →
        GetRelativePath vnodePath
          (cstr (st.s_activeProviders.getD provider default).virtualizationRoot) =
            some relativePath →
        (st.s_activeProviders.getD provider default).userClient = 0 →
        ∃ s, HandleVnodeOperation cfg env fuel st action pid currentVnode kauthError message
          schedule = .done ⟨KAUTH_RESULT_DEFER, kauthError, s⟩)) ∧
    (∀ r, HandleVnodeOperation cfg env fuel st action pid currentVnode kauthError message
        schedule = .done r → r.kauthResult = KAUTH_RESULT_DENY →
      (∃ flags, ReadVNodeFileFlags env currentVnode = some flags ∧
        flags &&& cfg.FileFlags_IsInVirtualizationRoot ≠ 0 ∧
        flags &&& cfg.FileFlags_IsEmpty ≠ 0 ∧ env.p_comm pid ∈ crawlerNames ∧
        r.kauthError = kauthError) ∨
      (∃ flags provider, PassesFastPath cfg env fuel st pid currentVnode flags provider ∧
        flags &&& cfg.FileFlags_IsEmpty ≠ 0 ∧ Triggers env action currentVnode ∧
        vn_getpath cfg env currentVnode = none ∧ r.kauthError = kauthError) ∨
      (∃ flags provider vnodePath relativePath,
        PassesFastPath cfg env fuel st pid currentVnode flags provider ∧
        flags &&& cfg.FileFlags_IsEmpty ≠ 0 ∧ Triggers env action currentVnode ∧
        vn_getpath cfg env currentVnode = some vnodePath ∧
        GetRelativePath vnodePath
          (cstr (st.s_activeProviders.getD provider default).virtualizationRoot) =
            some relativePath ∧
        (st.s_activeProviders.getD provider default).userClient ≠ 0 ∧
        sentBuffers r.state.trace = sentBuffers st.trace ++
          [((st.s_activeProviders.getD provider default).userClient,
            messageMemory cfg
              (Message_Init (toUInt64 st.s_nextMessageId) (requestKind env currentVnode) pid
                (proc_name env pid (MAXCOMLEN + 1)) relativePath))] ∧
        r.kauthError = EAGAIN ∧
        ∃ batch ∈ schedule,
          (⟨toUInt64 st.s_nextMessageId, MessageType_Response_Fail⟩ : Response) ∈ batch)) := by
  constructor
  · intro flags provider hfast hempty htrig
    obtain ⟨st1, hf, hw, heq⟩ := handle_eq_dispatch action kauthError message schedule hfast
    rw [heq, dispatch_request st1 provider pid _ _ kauthError message schedule htrig hempty]
    constructor
    · intro hpath
      rw [trySend_path_fail st1 provider _ pid _ kauthError message schedule hpath]
      exact ⟨st1, rfl⟩
    · intro vnodePath relativePath hpath hrel hc
      rw [← hw.providers] at hrel hc
      rw [trySend_send_fails st1 _ pid _ kauthError message schedule hpath hrel
        (ActiveProviders_Find_slot hf).1 hc]
      exact ⟨_, rfl⟩
  · intro r hr hdeny
    unfold HandleVnodeOperation at hr
    cases hflags : ReadVNodeFileFlags env currentVnode with
    | none =>
      rw [hflags] at hr
      exact absurd hr (by simp)
    | some flags =>
      rw [hflags] at hr
      simp only at hr
      split at hr
      · simp only [Outcome.done.injEq] at hr
        rw [← hr] at hdeny
        exact absurd hdeny defer_ne_deny
      · rename_i hroot
        have hinroot : flags &&& cfg.FileFlags_IsInVirtualizationRoot ≠ 0 := by
          rw [← fileFlagsBitIsSet_iff]
          simpa using hroot
        split at hr
        · rename_i hcr
          left
          rw [Bool.and_eq_true, fileFlagsBitIsSet_iff, proc_name_crawler] at hcr
          simp only [Outcome.done.injEq] at hr
          exact ⟨flags, rfl, hinroot, hcr.1, hcr.2, by rw [← hr]⟩
        · rename_i hcr
          rw [Bool.and_eq_true, fileFlagsBitIsSet_iff, proc_name_crawler] at hcr
          right
          cases hf : ActiveProviders_Find env fuel st currentVnode with
          | none =>
            rw [hf] at hr
            exact absurd hr (by simp)
          | some x =>
            obtain ⟨p, st1⟩ := x
            obtain ⟨hw, -⟩ := ActiveProviders_Find_frame hf
            rw [hf] at hr
            cases p with
            | none =>
              simp only [Outcome.done.injEq] at hr
              rw [← hr] at hdeny
              exact absurd hdeny defer_ne_deny
            | some provider =>
              simp only at hr
              split at hr
              · simp only [Outcome.done.injEq] at hr
                rw [← hr] at hdeny
                exact absurd hdeny defer_ne_deny
              · rename_i hpid
                rw [hw.providers] at hpid
                have hfast : PassesFastPath cfg env fuel st pid currentVnode flags provider :=
                  ⟨hflags, hinroot, hcr, by rw [hf]; rfl, hpid⟩
                by_cases hc : Triggers env action currentVnode ∧
                    flags &&& cfg.FileFlags_IsEmpty ≠ 0
                · rw [dispatch_request st1 provider pid _ _ kauthError message schedule
                    hc.1 hc.2] at hr
                  obtain ⟨b, hb⟩ := asHandlerResult_done hr
                  rw [hdeny] at hb
                  rcases trySend_deny_sources hb with ⟨hpath, herr, -⟩ |
                    ⟨vnodePath, relativePath, hpath, hrel, hp, hclient, herr, hbatch⟩
                  · exact Or.inl ⟨flags, provider, hfast, hc.2, hc.1, hpath, herr⟩
                  · right
                    have hsent := trySend_sent st1 (requestKind env currentVnode) pid
                      (proc_name env pid (MAXCOMLEN + 1)) kauthError message schedule hpath
                      hrel hp hclient r.state (by rw [hb]; rfl)
                    rw [sentBuffers_walkFrame hw, hw.providers, hw.nextMessageId] at hsent
                    rw [hw.providers] at hrel hclient
                    rw [hw.nextMessageId] at hbatch
                    exact ⟨flags, provider, vnodePath, relativePath, hfast, hc.2, hc.1, hpath,
                      hrel, hclient, hsent, herr, hbatch⟩
                · rw [dispatch_defer st1 provider pid _ _ kauthError message schedule hc] at hr
                  simp only [Outcome.done.injEq] at hr
                  rw [← hr] at hdeny
                  exact absurd hdeny defer_ne_deny

theorem HandleVnodeOperation_deny_sources_witness :
    PassesFastPath sampleConfig sampleEnv 10
      sampleStateNoClient
      100 3 24 0 ∧
    ∃ s, HandleVnodeOperation sampleConfig sampleEnv 10
      sampleStateNoClient
      KAUTH_VNODE_READ_DATA 100 3 0 sampleFrame [] = .done ⟨KAUTH_RESULT_DEFER, 0, s⟩ :=
  ⟨⟨by decide, by decide, by decide, by decide, by decide⟩,
   ((HandleVnodeOperation_deny_sources sampleConfig sampleEnv 10
      sampleStateNoClient
      KAUTH_VNODE_READ_DATA 100 3 0 sampleFrame []).1 24 0
      ⟨by decide, by decide, by decide, by decide, by decide⟩ (by decide) (by decide)).2
      "/R/a.txt".toList "a.txt".toList (by decide) (by decide) (by decide)⟩

/-- C4: a request that was sent (the access reached materialization, the
path resolved, the slot has a client) and whose id is answered by the
schedule with a kind: when the kind is MessageType_Response_Success
HandleVnodeOperation returns KAUTH_RESULT_DEFER and the out-error keeps its
value; when it is MessageType_Response_Fail it returns KAUTH_RESULT_DENY with
the out-error EAGAIN. Nothing else enters the verdict: not the action, not the
other records in the list, not the other responses of the schedule. -/
theorem HandleVnodeOperation_verdict_of_response (cfg : Config) (env : Env) (fuel : Nat)
    (st : KextState) (action : Nat) (pid : Int) (currentVnode : Nat) (kauthError : Int)
    (message : OutstandingMessage) (schedule : List (List Response))
    (flags provider kind : Nat) (vnodePath relativePath : List Char)
    (hfast : PassesFastPath cfg env fuel st pid currentVnode flags provider)
    (hempty : flags &&& cfg.FileFlags_IsEmpty ≠ 0)
    (htrig : Triggers env action currentVnode)
    (hpath : vn_getpath cfg env currentVnode = some vnodePath)
    (hrel : GetRelativePath vnodePath
      (cstr (st.s_activeProviders.getD provider default).virtualizationRoot) =
        some relativePath)
    (hclient : (st.s_activeProviders.getD provider default).userClient ≠ 0)
    (hans : AnsweredWith schedule (toUInt64 st.s_nextMessageId) kind) :
    (kind = MessageType_Response_Success →
      ∃ s, HandleVnodeOperation cfg env fuel st action pid currentVnode kauthError message
        schedule = .done ⟨KAUTH_RESULT_DEFER, kauthError, s⟩) ∧
    (kind = MessageType_Response_Fail →
      ∃ s, HandleVnodeOperation cfg env fuel st action pid currentVnode kauthError message
        schedule = .done ⟨KAUTH_RESULT_DENY, EAGAIN, s⟩) := by
  obtain ⟨st1, hf, hw, heq⟩ := handle_eq_dispatch action kauthError message schedule hfast
  rw [heq, dispatch_request st1 provider pid _ _ kauthError message schedule htrig hempty]
  rw [← hw.providers] at hrel hclient
  rw [← hw.nextMessageId] at hans
  obtain ⟨s, hs⟩ := trySend_answered st1 (requestKind env currentVnode) pid
    (proc_name env pid (MAXCOMLEN + 1)) kauthError message schedule hpath hrel
    (ActiveProviders_Find_slot hf).1 hclient hans
  rw [hs]
  constructor
  · intro hk
    rw [if_pos hk, if_pos hk]
    exact ⟨s, rfl⟩
  · intro hk
    have hne : kind ≠ MessageType_Response_Success := by
      rw [hk]; decide
    rw [if_neg hne, if_neg hne]
    exact ⟨s, rfl⟩

theorem HandleVnodeOperation_verdict_of_response_witness :
    PassesFastPath sampleConfig sampleEnv 10 sampleState 100 3 24 0 ∧
    AnsweredWith [[], [⟨1, MessageType_Response_Fail⟩]] (toUInt64 sampleState.s_nextMessageId)
      MessageType_Response_Fail ∧
    ∃ s, HandleVnodeOperation sampleConfig sampleEnv 10 sampleState KAUTH_VNODE_READ_DATA 100 3 0
      sampleFrame [[], [⟨1, MessageType_Response_Fail⟩]] = .done ⟨KAUTH_RESULT_DENY, EAGAIN, s⟩ :=
  have hfast : PassesFastPath sampleConfig sampleEnv 10 sampleState 100 3 24 0 :=
    ⟨by decide, by decide, by decide, by decide, by decide⟩
  have hans : AnsweredWith [[], [⟨1, MessageType_Response_Fail⟩]]
      (toUInt64 sampleState.s_nextMessageId) MessageType_Response_Fail :=
    ⟨by decide, [[]], [], [], [], by decide, by decide, by decide⟩
  ⟨hfast, hans,
   (HandleVnodeOperation_verdict_of_response sampleConfig sampleEnv 10 sampleState
     KAUTH_VNODE_READ_DATA 100 3 0 sampleFrame [[], [⟨1, MessageType_Response_Fail⟩]]
     24 0 MessageType_Response_Fail "/R/a.txt".toList "a.txt".toList hfast (by decide)
     (by decide) (by decide) (by decide) (by decide) hans).2 rfl⟩

/-- C5 as stated fails: process 100 writes the placeholder file 7; the access
passes the fast path, the placeholder bit is set and WRITE_DATA is in the
trigger set of a non-directory, yet no request is enqueued and no buffer is
handed to the transport, because the path of the vnode does not resolve. -/
theorem trigger_without_request :
    PassesFastPath sampleConfig sampleEnv 10 sampleState 100 7 24 0 ∧
    24 &&& sampleConfig.FileFlags_IsEmpty ≠ 0 ∧
    Triggers sampleEnv KAUTH_VNODE_WRITE_DATA 7 ∧
    (Outcome.finalState HandlerResult.state
      (HandleVnodeOperation sampleConfig sampleEnv 10 sampleState KAUTH_VNODE_WRITE_DATA
        100 7 0 sampleFrame [])).map
      (fun s => (sentBuffers s.trace, s.s_outstandingMessages, s.s_nextMessageId)) =
      some ([], [], 1) :=
  ⟨⟨by decide, by decide, by decide, by decide, by decide⟩, by decide, by decide, by decide⟩

/-- C5, amended: for an access that passes the fast-path checks, with st1 the
state after the lookup. When the placeholder bit is clear or the action does
not intersect the trigger set of the target (for a directory LIST_DIRECTORY,
SEARCH, READ_SECURITY, READ_ATTRIBUTES, READ_EXTATTRIBUTES; for a
non-directory READ_DATA, WRITE_DATA, EXECUTE, READ_ATTRIBUTES,
WRITE_ATTRIBUTES, READ_EXTATTRIBUTES, WRITE_EXTATTRIBUTES), the result is
KAUTH_RESULT_DEFER in st1: nothing was enqueued or sent. When the placeholder
bit is set and the action intersects the set, the result is that of
TrySendRequestAndWaitForResponse called with MessageType_KtoU_EnumerateDirectory
for a directory and MessageType_KtoU_HydrateFile otherwise; that call hands
exactly one buffer, the request of this kind, to the transport when the path
resolves and the slot has a client; it returns without building a request when
the path does not resolve, and it sends nothing when the slot has no
client. -/
theorem HandleVnodeOperation_dispatch_table (cfg : Config) (env : Env) (fuel : Nat)
    (st : KextState) (action : Nat) (pid : Int) (currentVnode : Nat) (kauthError : Int)
    (message : OutstandingMessage) (schedule : List (List Response)) (flags provider : Nat)
    (hfast : PassesFastPath cfg env fuel st pid currentVnode flags provider) :
    ∃ st1, ActiveProviders_Find env fuel st currentVnode = some (some provider, st1) ∧
      (¬ (flags &&& cfg.FileFlags_IsEmpty ≠ 0 ∧ Triggers env action currentVnode) →
        HandleVnodeOperation cfg env fuel st action pid currentVnode kauthError message
          schedule = .done ⟨KAUTH_RESULT_DEFER, kauthError, st1⟩ ∧
        st1.s_outstandingMessages = st.s_outstandingMessages ∧
        st1.s_nextMessageId = st.s_nextMessageId ∧
        sentBuffers st1.trace = sentBuffers st.trace) ∧
      (flags &&& cfg.FileFlags_IsEmpty ≠ 0 ∧ Triggers env action currentVnode →
        HandleVnodeOperation cfg env fuel st action pid currentVnode kauthError message
          schedule =
          asHandlerResult (TrySendRequestAndWaitForResponse cfg env st1 provider
            (requestKind env currentVnode) currentVnode pid (proc_name env pid (MAXCOMLEN + 1))
            kauthError message schedule) ∧
        (vn_getpath cfg env currentVnode = none →
          HandleVnodeOperation cfg env fuel st action pid currentVnode kauthError message
            schedule = .done ⟨KAUTH_RESULT_DENY, kauthError, st1⟩) ∧
        (∀ vnodePath relativePath, vn_getpath cfg env currentVnode = some vnodePath →
          GetRelativePath vnodePath
            (cstr (st.s_activeProviders.getD provider default).virtualizationRoot) =
              some relativePath →
          ((st.s_activeProviders.getD provider default).userClient = 0 →
            HandleVnodeOperation cfg env fuel st action pid currentVnode kauthError message
              schedule = .done ⟨KAUTH_RESULT_DEFER, kauthError,
                { st1 with s_nextMessageId := wrapInt32 (st1.s_nextMessageId + 1) }⟩) ∧
          ((st.s_activeProviders.getD provider default).userClient ≠ 0 →
            ∀ s, Outcome.finalState HandlerResult.state
              (HandleVnodeOperation cfg env fuel st action pid currentVnode kauthError message
                schedule) = some s →
              sentBuffers s.trace = sentBuffers st.trace ++
                [((st.s_activeProviders.getD provider default).userClient,
                  messageMemory cfg (Message_Init (toUInt64 st.s_nextMessageId)
                    (requestKind env currentVnode) pid (proc_name env pid (MAXCOMLEN + 1))
                    relativePath))]))) := by
  obtain ⟨st1, hf, hw, heq⟩ := handle_eq_dispatch action kauthError message schedule hfast
  refine ⟨st1, hf, ?_, ?_⟩
  · intro hno
    rw [heq, dispatch_defer st1 provider pid _ _ kauthError message schedule
      (fun h => hno ⟨h.2, h.1⟩)]
    exact ⟨rfl, hw.outstanding, hw.nextMessageId, sentBuffers_walkFrame hw⟩
  · rintro ⟨hempty, htrig⟩
    have hd := dispatch_request st1 provider pid (proc_name env pid (MAXCOMLEN + 1))
      KAUTH_RESULT_DEFER kauthError message schedule htrig hempty
    rw [heq, hd]
    refine ⟨rfl, ?_, ?_⟩
    · intro hpath
      rw [trySend_path_fail st1 provider _ pid _ kauthError message schedule hpath]
      rfl
    · intro vnodePath relativePath hpath hrel
      rw [← hw.providers] at hrel
      rw [← hw.providers]
      constructor
      · intro hc
        rw [trySend_send_fails st1 _ pid _ kauthError message schedule hpath hrel
          (ActiveProviders_Find_slot hf).1 hc]
        rfl
      · intro hc s hs
        rw [asHandlerResult_finalState] at hs
        have := trySend_sent st1 _ pid _ kauthError message schedule hpath hrel
          (ActiveProviders_Find_slot hf).1 hc s hs
        rw [this, sentBuffers_walkFrame hw, hw.nextMessageId]

theorem HandleVnodeOperation_dispatch_table_witness :
    PassesFastPath sampleConfig sampleEnv 10 sampleState 100 4 24 0 ∧
    ∃ st1, ActiveProviders_Find sampleEnv 10 sampleState 4 = some (some 0, st1) ∧
      HandleVnodeOperation sampleConfig sampleEnv 10 sampleState KAUTH_VNODE_LIST_DIRECTORY
        100 4 0 sampleFrame [[⟨1, MessageType_Response_Success⟩]] =
      asHandlerResult (TrySendRequestAndWaitForResponse sampleConfig sampleEnv st1 0
        MessageType_KtoU_EnumerateDirectory 4 100 "cat".toList 0 sampleFrame
        [[⟨1, MessageType_Response_Success⟩]]) :=
  have hfast : PassesFastPath sampleConfig sampleEnv 10 sampleState 100 4 24 0 :=
    ⟨by decide, by decide, by decide, by decide, by decide⟩
  ⟨hfast,
   (HandleVnodeOperation_dispatch_table sampleConfig sampleEnv 10 sampleState
     KAUTH_VNODE_LIST_DIRECTORY 100 4 0 sampleFrame [[⟨1, MessageType_Response_Success⟩]]
     24 0 hfast).imp (fun _ h => ⟨h.1, (h.2.2 ⟨by decide, by decide⟩).1⟩)⟩

theorem KauthHandler_Cleanup_nulls (st : KextState) :
    (KauthHandler_Cleanup st).2.s_vnodeListener = 0 ∧
    (KauthHandler_Cleanup st).2.s_outstandingMessagesMutex = 0 ∧
    (KauthHandler_Cleanup st).2.s_mutex = 0 ∧
    (KauthHandler_Cleanup st).2.s_lockGroup = st.s_lockGroup := by
  unfold KauthHandler_Cleanup ActiveProviders_Cleanup
  simp only
  split <;> split <;> split <;> simp_all [Mutex_IsValid]

theorem Locks_Cleanup_nulls (st : KextState) :
    (Locks_Cleanup st).2.s_lockGroup = 0 ∧
    (Locks_Cleanup st).2.s_vnodeListener = st.s_vnodeListener ∧
    (Locks_Cleanup st).2.s_outstandingMessagesMutex = st.s_outstandingMessagesMutex ∧
    (Locks_Cleanup st).2.s_mutex = st.s_mutex := by
  unfold Locks_Cleanup
  split <;> simp_all

theorem PrjFSKext_Stop_nulls (memoryCleanup : Nat) (st : KextState) :
    (PrjFSKext_Stop memoryCleanup st).2 = (Locks_Cleanup (KauthHandler_Cleanup st).2).2 ∧
    (PrjFSKext_Stop memoryCleanup st).2.s_vnodeListener = 0 ∧
    (PrjFSKext_Stop memoryCleanup st).2.s_outstandingMessagesMutex = 0 ∧
    (PrjFSKext_Stop memoryCleanup st).2.s_mutex = 0 ∧
    (PrjFSKext_Stop memoryCleanup st).2.s_lockGroup = 0 := by
  have h0 : (PrjFSKext_Stop memoryCleanup st).2 = (Locks_Cleanup (KauthHandler_Cleanup st).2).2 :=
    rfl
  obtain ⟨k1, k2, k3, -⟩ := KauthHandler_Cleanup_nulls st
  obtain ⟨l1, l2, l3, l4⟩ := Locks_Cleanup_nulls (KauthHandler_Cleanup st).2
  rw [h0]
  exact ⟨rfl, l2.trans k1, l3.trans k2, l4.trans k3, l1⟩

theorem KauthHandler_Init_cases (a : InitAllocs) (st : KextState) :
    (KauthHandler_Init a st).1 = KERN_SUCCESS ∨
    ((KauthHandler_Init a st).1 = KERN_FAILURE ∧
      ∃ s0, (KauthHandler_Init a st).2 = (KauthHandler_Cleanup s0).2) := by
  unfold KauthHandler_Init
  split
  · exact Or.inr ⟨rfl, _, rfl⟩
  · simp only
    split
    · exact Or.inr ⟨rfl, _, rfl⟩
    · split
      · exact Or.inr ⟨rfl, _, rfl⟩
      · split
        · exact Or.inr ⟨rfl, _, rfl⟩
        · exact Or.inl rfl

theorem PrjFSKext_Start_cases (a : StartAllocs) (st : KextState) :
    (PrjFSKext_Start a st).1 = KERN_SUCCESS ∨
    ((PrjFSKext_Start a st).1 = KERN_FAILURE ∧
      ∃ s0, (PrjFSKext_Start a st).2 = (PrjFSKext_Stop a.memoryCleanup s0).2) := by
  unfold PrjFSKext_Start
  split
  · exact Or.inr ⟨rfl, _, rfl⟩
  · simp only
    split
    · exact Or.inr ⟨rfl, _, rfl⟩
    · split
      · exact Or.inr ⟨rfl, _, rfl⟩
      · exact Or.inl rfl

/-- C15: init and cleanup are idempotence-safe when allocations succeed. For
the registry: from a null s_mutex, ActiveProviders_Init returns KERN_SUCCESS,
a second ActiveProviders_Init returns KERN_FAILURE, ActiveProviders_Cleanup
then returns KERN_SUCCESS and a second ActiveProviders_Cleanup returns
KERN_FAILURE. For the handler: from a null listener and a null registry
mutex, KauthHandler_Init returns KERN_SUCCESS, a second KauthHandler_Init
returns KERN_FAILURE, and after the successful init KauthHandler_Cleanup
returns KERN_SUCCESS and a second KauthHandler_Cleanup returns
KERN_FAILURE. -/
theorem init_cleanup_idempotence (st : KextState) (a : InitAllocs)
    (hlistener : st.s_vnodeListener = 0) (hmutex : st.s_mutex = 0)
    (ha1 : a.outstandingMessagesMutex ≠ 0) (ha2 : a.registryMutex ≠ 0)
    (ha3 : a.vnodeListener ≠ 0) :
    ((ActiveProviders_Init a.registryMutex st).1 = KERN_SUCCESS ∧
      (∀ again, (ActiveProviders_Init again
        (ActiveProviders_Init a.registryMutex st).2).1 = KERN_FAILURE) ∧
      (ActiveProviders_Cleanup (ActiveProviders_Init a.registryMutex st).2).1 = KERN_SUCCESS ∧
      (ActiveProviders_Cleanup
        (ActiveProviders_Cleanup (ActiveProviders_Init a.registryMutex st).2).2).1 =
          KERN_FAILURE) ∧
    ((KauthHandler_Init a st).1 = KERN_SUCCESS ∧
      (∀ again, (KauthHandler_Init again (KauthHandler_Init a st).2).1 = KERN_FAILURE) ∧
      (KauthHandler_Cleanup (KauthHandler_Init a st).2).1 = KERN_SUCCESS ∧
      (KauthHandler_Cleanup (KauthHandler_Cleanup (KauthHandler_Init a st).2).2).1 =
        KERN_FAILURE) := by
  have hreg : ActiveProviders_Init a.registryMutex st =
      (KERN_SUCCESS, { st with s_mutex := a.registryMutex }) := by
    unfold ActiveProviders_Init
    simp [Mutex_IsValid, hmutex, ha2]
  have hinit : KauthHandler_Init a st =
      (KERN_SUCCESS, { st with
        s_outstandingMessages := []
        s_nextMessageId := 1
        s_outstandingMessagesMutex := a.outstandingMessagesMutex
        s_mutex := a.registryMutex
        s_vnodeListener := a.vnodeListener }) := by
    unfold KauthHandler_Init ActiveProviders_Init
    simp [Mutex_IsValid, hmutex, hlistener, ha1, ha2, ha3, KERN_SUCCESS]
  constructor
  · rw [hreg]
    refine ⟨rfl, ?_, ?_, ?_⟩
    · intro again
      unfold ActiveProviders_Init
      simp [Mutex_IsValid, ha2]
    · unfold ActiveProviders_Cleanup
      simp [Mutex_IsValid, ha2]
    · unfold ActiveProviders_Cleanup
      simp [Mutex_IsValid, ha2]
  · rw [hinit]
    refine ⟨rfl, ?_, ?_, ?_⟩
    · intro again
      unfold KauthHandler_Init
      simp [ha3]
    · unfold KauthHandler_Cleanup ActiveProviders_Cleanup
      simp [Mutex_IsValid, ha1, ha2, ha3, KERN_SUCCESS]
    · unfold KauthHandler_Cleanup ActiveProviders_Cleanup
      simp [Mutex_IsValid, ha1, ha2, ha3, KERN_SUCCESS, KERN_FAILURE]

theorem init_cleanup_idempotence_witness :
    (KauthHandler_Init sampleAllocs (loadedState sampleConfig (fun _ => 0))).1 = KERN_SUCCESS ∧
    (KauthHandler_Init sampleAllocs sampleInitialised).1 = KERN_FAILURE ∧
    (KauthHandler_Cleanup sampleInitialised).1 = KERN_SUCCESS ∧
    (KauthHandler_Cleanup (KauthHandler_Cleanup sampleInitialised).2).1 = KERN_FAILURE :=
  have h := (init_cleanup_idempotence (loadedState sampleConfig (fun _ => 0)) sampleAllocs
    rfl rfl (by decide) (by decide) (by decide)).2
  ⟨h.1, h.2.1 sampleAllocs, h.2.2.1, h.2.2.2⟩

/-- C16: a failed start leaves no partial initialisation. Whatever the state
at entry and whichever allocation fails, when KauthHandler_Init returns
KERN_FAILURE its last act was KauthHandler_Cleanup, and on return the vnode
listener is null and the outstanding-messages mutex and the registry mutex are
invalid; when PrjFSKext_Start returns KERN_FAILURE its last act was
PrjFSKext_Stop, and on return the lock group is null as well. PrjFSKext_Stop
runs the handler tier and then the lock tier whatever the first returned, and
the two functions return nothing but KERN_SUCCESS and KERN_FAILURE. -/
theorem failed_start_is_unwound (st : KextState) :
    (∀ a : InitAllocs,
      ((KauthHandler_Init a st).1 = KERN_SUCCESS ∨ (KauthHandler_Init a st).1 = KERN_FAILURE) ∧
      ((KauthHandler_Init a st).1 = KERN_FAILURE →
        (∃ s0, (KauthHandler_Init a st).2 = (KauthHandler_Cleanup s0).2) ∧
        (KauthHandler_Init a st).2.s_vnodeListener = 0 ∧
        Mutex_IsValid (KauthHandler_Init a st).2.s_outstandingMessagesMutex = false ∧
        Mutex_IsValid (KauthHandler_Init a st).2.s_mutex = false)) ∧
    (∀ a : StartAllocs,
      ((PrjFSKext_Start a st).1 = KERN_SUCCESS ∨ (PrjFSKext_Start a st).1 = KERN_FAILURE) ∧
      ((PrjFSKext_Start a st).1 = KERN_FAILURE →
        (∃ s0, (PrjFSKext_Start a st).2 = (PrjFSKext_Stop a.memoryCleanup s0).2) ∧
        (PrjFSKext_Start a st).2.s_vnodeListener = 0 ∧
        Mutex_IsValid (PrjFSKext_Start a st).2.s_outstandingMessagesMutex = false ∧
        Mutex_IsValid (PrjFSKext_Start a st).2.s_mutex = false ∧
        (PrjFSKext_Start a st).2.s_lockGroup = 0)) ∧
    (∀ memoryCleanup s,
      (PrjFSKext_Stop memoryCleanup s).2 = (Locks_Cleanup (KauthHandler_Cleanup s).2).2) := by
  have hne : KERN_FAILURE ≠ KERN_SUCCESS := by decide
  refine ⟨?_, ?_, fun m s => (PrjFSKext_Stop_nulls m s).1⟩
  · intro a
    rcases KauthHandler_Init_cases a st with h | ⟨h, s0, hs⟩
    · exact ⟨Or.inl h, fun hf => absurd (hf.symm.trans h) hne⟩
    · refine ⟨Or.inr h, fun _ => ⟨⟨s0, hs⟩, ?_⟩⟩
      obtain ⟨k1, k2, k3, -⟩ := KauthHandler_Cleanup_nulls s0
      rw [hs, k1, k2, k3]
      exact ⟨rfl, rfl, rfl⟩
  · intro a
    rcases PrjFSKext_Start_cases a st with h | ⟨h, s0, hs⟩
    · exact ⟨Or.inl h, fun hf => absurd (hf.symm.trans h) hne⟩
    · refine ⟨Or.inr h, fun _ => ⟨⟨s0, hs⟩, ?_⟩⟩
      obtain ⟨-, k1, k2, k3, k4⟩ := PrjFSKext_Stop_nulls a.memoryCleanup s0
      rw [hs, k1, k2, k3, k4]
      exact ⟨rfl, rfl, rfl, rfl⟩

theorem failed_start_is_unwound_witness :
    (KauthHandler_Init sampleAllocs sampleInitialised).1 = KERN_FAILURE ∧
    (KauthHandler_Init sampleAllocs sampleInitialised).2.s_vnodeListener = 0 ∧
    Mutex_IsValid (KauthHandler_Init sampleAllocs sampleInitialised).2.s_outstandingMessagesMutex
      = false ∧
    Mutex_IsValid (KauthHandler_Init sampleAllocs sampleInitialised).2.s_mutex = false :=
  ⟨by decide,
   (((failed_start_is_unwound sampleInitialised).1 sampleAllocs).2 (by decide)).2⟩

theorem getD_set_self {α : Type} (l : List α) (i : Nat) (a d : α) (h : i < l.length) :
    (l.set i a).getD i d = a := by
  rw [List.getD_eq_getElem?_getD, List.getElem?_set_self h]
  rfl

theorem getD_set_ne {α : Type} (l : List α) (i j : Nat) (a d : α) (h : i ≠ j) :
    (l.set i a).getD j d = l.getD j d := by
  rw [List.getD_eq_getElem?_getD, List.getD_eq_getElem?_getD, List.getElem?_set_ne h]

theorem find_range_le (p : Nat → Bool) (n k : Nat) (hk : k < n) (hp : p k = true) :
    ∃ j, j ≤ k ∧ (List.range n).find? p = some j := by
  have hex : ∃ j, p j = true := ⟨k, hp⟩
  refine ⟨Nat.find hex, Nat.find_min' hex hp, ?_⟩
  apply find_range_first p n (Nat.find hex) (lt_of_le_of_lt (Nat.find_min' hex hp) hk)
    (Nat.find_spec hex)
  intro j hj
  have := Nat.find_min hex hj
  simpa using this

/-- C11: ActiveProvider_Disconnect on an occupied slot of the registry. When
the slot holds a root, vnode_put is called once on it: its use-count goes
down by one and no other use-count changes; when the root is null nothing is
put. In both cases the root handle and the client handle of the slot become
null and its path buffer is zeroed on all PrjFSMaxPath cells, every other
slot is as before, and the slot is free again: FindUnusedIndex_Locked finds a
slot at or below it, and when the slots below it are occupied the next
ActiveProvider_RegisterUserClient returns this slot. -/
theorem ActiveProvider_Disconnect_frame (cfg : Config) (st : KextState) (provider : Nat)
    (hlen : st.s_activeProviders.length = MaxActiveProviders)
    (hp : provider < MaxActiveProviders)
    (hocc : (st.s_activeProviders.getD provider default).userClient ≠ 0) :
    ∃ st', ActiveProvider_Disconnect cfg st provider = .done st' ∧
      st'.s_activeProviders.getD provider default =
        { userClient := 0
          virtualizationRootVNode := NULLVP
          virtualizationRoot := List.replicate cfg.PrjFSMaxPath NUL
          pid := (st.s_activeProviders.getD provider default).pid } ∧
      (∀ j, j ≠ provider →
        st'.s_activeProviders.getD j default = st.s_activeProviders.getD j default) ∧
      st'.s_activeProviders.length = MaxActiveProviders ∧
      ((st.s_activeProviders.getD provider default).virtualizationRootVNode ≠ NULLVP →
        st'.iocount (st.s_activeProviders.getD provider default).virtualizationRootVNode =
          st.iocount (st.s_activeProviders.getD provider default).virtualizationRootVNode - 1 ∧
        (∀ v, v ≠ (st.s_activeProviders.getD provider default).virtualizationRootVNode →
          st'.iocount v = st.iocount v) ∧
        st'.trace = st.trace ++
          [Event.vnodePut (st.s_activeProviders.getD provider default).virtualizationRootVNode]) ∧
      ((st.s_activeProviders.getD provider default).virtualizationRootVNode = NULLVP →
        st'.iocount = st.iocount ∧ st'.trace = st.trace) ∧
      st'.s_outstandingMessages = st.s_outstandingMessages ∧
      st'.s_nextMessageId = st.s_nextMessageId ∧
      (∃ j, j ≤ provider ∧ FindUnusedIndex_Locked st'.s_activeProviders = some j) ∧
      ((∀ j, j < provider → (st.s_activeProviders.getD j default).userClient ≠ 0) →
        ∀ userClient clientPID, ∃ st'',
          ActiveProvider_RegisterUserClient st' userClient clientPID =
            .done (some provider, st'')) := by
  have hpl : provider < st.s_activeProviders.length := by rw [hlen]; exact hp
  obtain ⟨st', hst', hprov, hcount⟩ : ∃ st', ActiveProvider_Disconnect cfg st provider = .done st' ∧
      st'.s_activeProviders = st.s_activeProviders.set provider
        { userClient := 0
          virtualizationRootVNode := NULLVP
          virtualizationRoot := List.replicate cfg.PrjFSMaxPath NUL
          pid := (st.s_activeProviders.getD provider default).pid } ∧
      st'.s_outstandingMessages = st.s_outstandingMessages ∧
      st'.s_nextMessageId = st.s_nextMessageId ∧
      (((st.s_activeProviders.getD provider default).virtualizationRootVNode ≠ NULLVP ∧
        st'.iocount = (vnode_put st
          (st.s_activeProviders.getD provider default).virtualizationRootVNode).iocount ∧
        st'.trace = (vnode_put st
          (st.s_activeProviders.getD provider default).virtualizationRootVNode).trace) ∨
       ((st.s_activeProviders.getD provider default).virtualizationRootVNode = NULLVP ∧
        st'.iocount = st.iocount ∧ st'.trace = st.trace)) := by
    unfold ActiveProvider_Disconnect
    rw [if_pos hp]
    simp only
    rw [if_pos hocc]
    by_cases hr : (st.s_activeProviders.getD provider default).virtualizationRootVNode = NULLVP
    · rw [if_neg (not_not.mpr hr)]
      refine ⟨_, rfl, ?_, rfl, rfl, Or.inr ⟨hr, rfl, rfl⟩⟩
      simp only [hr]
    · rw [if_pos hr]
      exact ⟨_, rfl, rfl, rfl, rfl, Or.inl ⟨hr, rfl, rfl⟩⟩
  have hslot := getD_set_self st.s_activeProviders provider
    { userClient := 0
      virtualizationRootVNode := NULLVP
      virtualizationRoot := List.replicate cfg.PrjFSMaxPath NUL
      pid := (st.s_activeProviders.getD provider default).pid } default hpl
  rw [← hprov] at hslot
  have hothers : ∀ j, j ≠ provider →
      st'.s_activeProviders.getD j default = st.s_activeProviders.getD j default := by
    intro j hj
    rw [hprov]
    exact getD_set_ne _ _ _ _ _ (Ne.symm hj)
  have hfree : (st'.s_activeProviders.getD provider default).userClient = 0 := by
    rw [hslot]
  refine ⟨st', hst', hslot, hothers, by rw [hprov, List.length_set, hlen], ?_, ?_,
    hcount.1, hcount.2.1, ?_, ?_⟩
  · intro hr
    rcases hcount.2.2 with ⟨-, h1, h2⟩ | ⟨h0, -, -⟩
    · rw [h1, h2]
      refine ⟨?_, ?_, rfl⟩
      · show (if _ = _ then _ else _) = _
        rw [if_pos rfl]
      · intro v hv
        show (if _ = _ then _ else _) = _
        rw [if_neg hv]
    · exact absurd h0 hr
  · intro hr
    rcases hcount.2.2 with ⟨h0, -, -⟩ | ⟨-, h1, h2⟩
    · exact absurd hr h0
    · exact ⟨h1, h2⟩
  · unfold FindUnusedIndex_Locked
    apply find_range_le _ _ _ hp
    rw [hfree]
    rfl
  · intro hbelow userClient clientPID
    have hfind : FindUnusedIndex_Locked st'.s_activeProviders = some provider := by
      unfold FindUnusedIndex_Locked
      apply find_range_first _ _ _ hp
      · rw [hfree]
        rfl
      · intro j hj
        rw [hothers j (Nat.ne_of_lt hj)]
        simpa using hbelow j hj
    unfold ActiveProvider_RegisterUserClient
    rw [hfind]
    simp only [if_pos hp]
    rw [hslot]
    simp only [if_true]
    exact ⟨_, rfl⟩

theorem ActiveProvider_Disconnect_frame_witness :
    ∃ st', ActiveProvider_Disconnect sampleConfig sampleState 0 = .done st' ∧
      st'.s_activeProviders.getD 0 default = { emptyProvider sampleConfig with pid := 77 } ∧
      st'.iocount 2 = 0 ∧
      st'.trace = [Event.vnodePut 2] :=
  (ActiveProvider_Disconnect_frame sampleConfig sampleState 0 (by decide) (by decide)
    (by decide)).imp
    (fun _ h => ⟨h.1, h.2.1, (h.2.2.2.2.1 (by decide)).1, (h.2.2.2.2.1 (by decide)).2.2⟩)

theorem strlcpy_spec (dst src : List Char) (size : Nat) (hsize : 0 < size)
    (hdst : dst.length = size) (hsrc : ∀ c ∈ src, c ≠ NUL) :
    cstr (strlcpy dst src size) = src.take (size - 1) ∧
    (strlcpy dst src size).length = size ∧
    ∃ rest, strlcpy dst src size = src.take (size - 1) ++ NUL :: rest := by
  have htake : src.take (min src.length (size - 1)) = src.take (size - 1) := by
    by_cases h : src.length ≤ size - 1
    · rw [Nat.min_eq_left h, List.take_of_length_le (le_refl _), List.take_of_length_le h]
    · rw [Nat.min_eq_right (by omega)]
  have heq : strlcpy dst src size =
      src.take (size - 1) ++ NUL :: dst.drop (min src.length (size - 1) + 1) := by
    unfold strlcpy
    rw [if_neg (by omega)]
    simp only [htake]
  refine ⟨?_, ?_, _, heq⟩
  · rw [heq]
    unfold cstr
    rw [List.takeWhile_append_of_pos]
    · rw [List.takeWhile_cons_of_neg (by simp)]
      simp
    · intro a ha
      have := hsrc a (List.mem_of_mem_take ha)
      simpa using this
  · rw [heq]
    simp only [List.length_append, List.length_take, List.length_cons, List.length_drop, hdst]
    omega

/-- C14: the return value and the effect of ActiveProvider_RegisterRoot on a
slot of the registry, by the result of vnode_lookup. A lookup error is
returned unchanged and nothing changes. A non-directory gives ENOTDIR, and a
directory on a slot that has a root gives EBUSY: in both the registry is
unchanged and the use-count taken by the lookup is put back once, so every
use-count is as before. Otherwise the result is 0: the root handle of the
slot is the vnode found, whose use-count stays one higher, and the path
buffer of the slot holds the first PrjFSMaxPath - 1 characters of the path
followed by a NUL; the other slots are unchanged. -/
theorem ActiveProvider_RegisterRoot_results (cfg : Config) (env : Env) (st : KextState)
    (provider : Nat) (virtualizationRootPath : List Char)
    (hp : provider < MaxActiveProviders)
    (hlen : st.s_activeProviders.length = MaxActiveProviders)
    (hfound : (env.lookup virtualizationRootPath).1 = 0 →
      (env.lookup virtualizationRootPath).2 ≠ NULLVP) :
    ((env.lookup virtualizationRootPath).1 ≠ 0 →
      ActiveProvider_RegisterRoot cfg env st provider virtualizationRootPath =
        .done ((env.lookup virtualizationRootPath).1, st)) ∧
    ((env.lookup virtualizationRootPath).1 = 0 →
      (env.vnode_isdir (env.lookup virtualizationRootPath).2 = false ∨
        (st.s_activeProviders.getD provider default).virtualizationRootVNode ≠ NULLVP) →
      ∃ st', ActiveProvider_RegisterRoot cfg env st provider virtualizationRootPath =
          .done ((if env.vnode_isdir (env.lookup virtualizationRootPath).2 = false then ENOTDIR
                  else EBUSY), st') ∧
        st'.s_activeProviders = st.s_activeProviders ∧
        (∀ v, st'.iocount v = st.iocount v) ∧
        st'.trace = st.trace ++ [Event.vnodeGet (env.lookup virtualizationRootPath).2,
          Event.vnodePut (env.lookup virtualizationRootPath).2]) ∧
    ((env.lookup virtualizationRootPath).1 = 0 →
      env.vnode_isdir (env.lookup virtualizationRootPath).2 = true →
      (st.s_activeProviders.getD provider default).virtualizationRootVNode = NULLVP →
      ∃ st', ActiveProvider_RegisterRoot cfg env st provider virtualizationRootPath =
          .done (0, st') ∧
        st'.s_activeProviders.getD provider default =
          { st.s_activeProviders.getD provider default with
            virtualizationRootVNode := (env.lookup virtualizationRootPath).2
            virtualizationRoot :=
              strlcpy (st.s_activeProviders.getD provider default).virtualizationRoot
                virtualizationRootPath cfg.PrjFSMaxPath } ∧
        (∀ j, j ≠ provider →
          st'.s_activeProviders.getD j default = st.s_activeProviders.getD j default) ∧
        st'.iocount (env.lookup virtualizationRootPath).2 =
          st.iocount (env.lookup virtualizationRootPath).2 + 1 ∧
        (∀ v, v ≠ (env.lookup virtualizationRootPath).2 → st'.iocount v = st.iocount v) ∧
        st'.trace = st.trace ++ [Event.vnodeGet (env.lookup virtualizationRootPath).2] ∧
        (0 < cfg.PrjFSMaxPath →
          (st.s_activeProviders.getD provider default).virtualizationRoot.length =
            cfg.PrjFSMaxPath →
          (∀ c ∈ virtualizationRootPath, c ≠ NUL) →
          cstr (st'.s_activeProviders.getD provider default).virtualizationRoot =
            virtualizationRootPath.take (cfg.PrjFSMaxPath - 1) ∧
          (st'.s_activeProviders.getD provider default).virtualizationRoot.length =
            cfg.PrjFSMaxPath ∧
          ∃ rest, (st'.s_activeProviders.getD provider default).virtualizationRoot =
            virtualizationRootPath.take (cfg.PrjFSMaxPath - 1) ++ NUL :: rest)) := by
  have hpl : provider < st.s_activeProviders.length := by rw [hlen]; exact hp
  cases hl : env.lookup virtualizationRootPath with
  | mk err found =>
  rw [hl] at hfound
  simp only at hfound ⊢
  refine ⟨?_, ?_, ?_⟩
  · intro herr
    unfold ActiveProvider_RegisterRoot
    rw [if_pos hp, hl]
    simp only [herr, if_false, false_and]
    rfl
  · intro herr hcase
    subst herr
    have hnn := hfound rfl
    unfold ActiveProvider_RegisterRoot
    rw [if_pos hp, hl]
    simp only [if_true, true_and]
    by_cases hd : env.vnode_isdir found = true
    · have hroot : (st.s_activeProviders.getD provider default).virtualizationRootVNode
          ≠ NULLVP := by
        rcases hcase with h | h
        · rw [hd] at h; exact absurd h (by simp)
        · exact h
      have hroot' : ((vnode_get st found).s_activeProviders.getD provider
          default).virtualizationRootVNode ≠ NULLVP := hroot
      rw [if_pos hd, if_neg hroot']
      simp only [if_pos hnn, hd, Bool.true_eq_false, if_false]
      refine ⟨_, rfl, rfl, ?_, ?_⟩
      · intro v
        show (if v = found then (if v = found then _ else _) - 1 else
          (if v = found then _ else _)) = _
        by_cases hv : v = found
        · rw [if_pos hv, if_pos hv]; omega
        · rw [if_neg hv, if_neg hv]
      · simp [vnode_put, vnode_get]
    · rw [if_neg hd]
      simp only [if_true, if_pos hnn]
      have hd' : env.vnode_isdir found = false := by simpa using hd
      simp only [hd', if_true]
      refine ⟨_, rfl, rfl, ?_, ?_⟩
      · intro v
        show (if v = found then (if v = found then _ else _) - 1 else
          (if v = found then _ else _)) = _
        by_cases hv : v = found
        · rw [if_pos hv, if_pos hv]; omega
        · rw [if_neg hv, if_neg hv]
      · simp [vnode_put, vnode_get]
  · intro herr hd hroot
    subst herr
    have hrun : ActiveProvider_RegisterRoot cfg env st provider virtualizationRootPath =
        .done (0, { vnode_get st found with
          s_activeProviders := st.s_activeProviders.set provider
            { st.s_activeProviders.getD provider default with
              virtualizationRootVNode := found
              virtualizationRoot :=
                strlcpy (st.s_activeProviders.getD provider default).virtualizationRoot
                  virtualizationRootPath cfg.PrjFSMaxPath } }) := by
      unfold ActiveProvider_RegisterRoot
      rw [if_pos hp, hl]
      simp only [if_true, true_and]
      have hroot' : ((vnode_get st found).s_activeProviders.getD provider
          default).virtualizationRootVNode = NULLVP := hroot
      rw [if_pos hd, if_pos hroot']
      simp only [ne_eq, not_true_eq_false, if_false]
      rfl
    have hslot := getD_set_self st.s_activeProviders provider
      { st.s_activeProviders.getD provider default with
        virtualizationRootVNode := found
        virtualizationRoot :=
          strlcpy (st.s_activeProviders.getD provider default).virtualizationRoot
            virtualizationRootPath cfg.PrjFSMaxPath } default hpl
    refine ⟨_, hrun, hslot, ?_, ?_, ?_, rfl, ?_⟩
    · intro j hj
      exact getD_set_ne _ _ _ _ _ (Ne.symm hj)
    · show (if _ = _ then _ else _) = _
      rw [if_pos rfl]
    · intro v hv
      show (if _ = _ then _ else _) = _
      rw [if_neg hv]
    · intro hpos hbuf hnul
      have hs := strlcpy_spec (st.s_activeProviders.getD provider default).virtualizationRoot
        virtualizationRootPath cfg.PrjFSMaxPath hpos hbuf hnul
      simp only [hslot]
      exact hs

theorem ActiveProvider_RegisterRoot_results_witness :
    (sampleEnv.lookup "/R".toList).1 = 0 ∧
    sampleEnv.vnode_isdir (sampleEnv.lookup "/R".toList).2 = true ∧
    (sampleRegistered.s_activeProviders.getD 0 default).virtualizationRootVNode = NULLVP ∧
    ∃ st', ActiveProvider_RegisterRoot sampleConfig sampleEnv sampleRegistered 0 "/R".toList =
        .done (0, st') ∧
      st'.iocount 2 = sampleRegistered.iocount 2 + 1 ∧
      cstr (st'.s_activeProviders.getD 0 default).virtualizationRoot = "/R".toList :=
  ⟨by decide, by decide, by decide,
   ((ActiveProvider_RegisterRoot_results sampleConfig sampleEnv sampleRegistered 0 "/R".toList
      (by decide) (by decide) (by decide)).2.2 (by decide) (by decide) (by decide)).imp
     (fun _ h => ⟨h.1, h.2.2.2.1,
       (h.2.2.2.2.2.2 (by decide) (List.length_replicate 1024 NUL) (by decide)).1⟩)⟩

theorem bytesAt_length (s : List Char) (n : Nat) : (bytesAt s n).length = n := by
  unfold bytesAt
  simp only [List.length_take, List.length_append, List.length_map, List.length_replicate]
  omega

theorem bytesAt_of_le (s : List Char) (n : Nat) (h : n ≤ s.length) :
    bytesAt s n = (s.take n).map Char.toNat := by
  unfold bytesAt
  rw [List.take_append_of_le_length (by simpa using h), List.map_take]

theorem messageMemory_layout (cfg : Config) (message : Message)
    (hheader : (cfg.headerBytes message.messageHeader).length = cfg.sizeofHeader)
    (hsize : cfg.sizeofHeader + message.messageHeader.pathSizeBytes < 2 ^ 32) :
    messageMemory cfg message =
      cfg.headerBytes message.messageHeader ++
        bytesAt message.path message.messageHeader.pathSizeBytes := by
  unfold messageMemory
  simp only
  rw [Nat.mod_eq_of_lt hsize]
  have h1 : (cfg.headerBytes message.messageHeader).take cfg.sizeofHeader =
      cfg.headerBytes message.messageHeader :=
    List.take_of_length_le (by rw [hheader])
  rw [h1]
  by_cases h0 : message.messageHeader.pathSizeBytes > 0
  · rw [if_pos h0]
    apply List.take_of_length_le
    rw [List.length_append, hheader, bytesAt_length]
  · rw [if_neg h0]
    have hz : message.messageHeader.pathSizeBytes = 0 := by omega
    rw [hz]
    have hb : bytesAt message.path 0 = [] := by
      apply List.eq_nil_of_length_eq_zero
      exact bytesAt_length _ _
    rw [hb, List.append_nil]
    apply List.take_of_length_le
    rw [hheader]
    omega

theorem referencesHeld_append (c : Nat) (l1 l2 : List Event) :
    referencesHeld c (l1 ++ l2) = referencesHeld c l1 + referencesHeld c l2 := by
  induction l1 with
  | nil => simp [referencesHeld]
  | cons e rest ih =>
    cases e <;> simp [referencesHeld, ih] <;> omega

/-- C17: ActiveProvider_SendMessage on a slot of the registry returns EIO, with
the state and so the registry unchanged and nothing handed to the transport,
exactly when the client handle of the slot is null. Otherwise it returns 0
after three calls on the client: retain, sendMessage with one buffer, release;
the references held on every client are as before and the registry is
unchanged. The buffer has sizeof(header) + pathSizeBytes bytes: the image of
the header first, then the pathSizeBytes bytes read at the path, which are
the first pathSizeBytes characters of the path in order (for a header image
of sizeof(header) bytes and a size that fits the uint32_t messageSize). -/
theorem ActiveProvider_SendMessage_results (cfg : Config) (st : KextState) (provider : Nat)
    (message : Message) (hp : provider < MaxActiveProviders) :
    ((st.s_activeProviders.getD provider default).userClient = 0 →
      ActiveProvider_SendMessage cfg st provider message = .done ( EIO, st)) ∧
    ((st.s_activeProviders.getD provider default).userClient ≠ 0 →
      ∃ st', ActiveProvider_SendMessage cfg st provider message = .done (0, st') ∧
        st' = { st with trace := st.trace ++
          [Event.retain (st.s_activeProviders.getD provider default).userClient,
           Event.sendMessage (st.s_activeProviders.getD provider default).userClient
             (messageMemory cfg message),
           Event.release (st.s_activeProviders.getD provider default).userClient] } ∧
        st'.s_activeProviders = st.s_activeProviders ∧
        sentBuffers st'.trace = sentBuffers st.trace ++
          [((st.s_activeProviders.getD provider default).userClient,
            messageMemory cfg message)] ∧
        ∀ c, referencesHeld c st'.trace = referencesHeld c st.trace) ∧
    (∀ err st', ActiveProvider_SendMessage cfg st provider message = .done (err, st') →
      (err = EIO ∧ sentBuffers st'.trace = sentBuffers st.trace ↔
        (st.s_activeProviders.getD provider default).userClient = 0) ∧
      (err = 0 ∨ err = EIO)) ∧
    ((cfg.headerBytes message.messageHeader).length = cfg.sizeofHeader →
      cfg.sizeofHeader + message.messageHeader.pathSizeBytes < 2 ^ 32 →
      (messageMemory cfg message).length =
        cfg.sizeofHeader + message.messageHeader.pathSizeBytes ∧
      (messageMemory cfg message).take cfg.sizeofHeader =
        cfg.headerBytes message.messageHeader ∧
      (messageMemory cfg message).drop cfg.sizeofHeader =
        bytesAt message.path message.messageHeader.pathSizeBytes ∧
      (message.messageHeader.pathSizeBytes ≤ message.path.length →
        (messageMemory cfg message).drop cfg.sizeofHeader =
          (message.path.take message.messageHeader.pathSizeBytes).map Char.toNat)) := by
  have hsent : (st.s_activeProviders.getD provider default).userClient ≠ 0 →
      sentBuffers (st.trace ++
          [Event.retain (st.s_activeProviders.getD provider default).userClient,
           Event.sendMessage (st.s_activeProviders.getD provider default).userClient
             (messageMemory cfg message),
           Event.release (st.s_activeProviders.getD provider default).userClient]) =
        sentBuffers st.trace ++
          [((st.s_activeProviders.getD provider default).userClient,
            messageMemory cfg message)] := by
    intro _
    rw [sentBuffers_append]
    rfl
  refine ⟨fun hc => sendMessage_null message hp hc, ?_, ?_, ?_⟩
  · intro hc
    refine ⟨_, sendMessage_ok message hp hc, rfl, rfl, hsent hc, ?_⟩
    intro c
    show referencesHeld c (st.trace ++ _) = _
    rw [referencesHeld_append]
    simp only [referencesHeld]
    split <;> omega
  · intro err st' h
    by_cases hc : (st.s_activeProviders.getD provider default).userClient = 0
    · rw [sendMessage_null message hp hc] at h
      simp only [Outcome.done.injEq, Prod.mk.injEq] at h
      rw [← h.1, ← h.2]
      exact ⟨⟨fun _ => hc, fun _ => ⟨rfl, rfl⟩⟩, Or.inr rfl⟩
    · rw [sendMessage_ok message hp hc] at h
      simp only [Outcome.done.injEq, Prod.mk.injEq] at h
      rw [← h.1, ← h.2]
      refine ⟨⟨fun hh => absurd hh.1 (by decide), fun hh => absurd hh hc⟩, Or.inl rfl⟩
  · intro hheader hsize
    have hl := messageMemory_layout cfg message hheader hsize
    rw [hl]
    refine ⟨?_, ?_, ?_, ?_⟩
    · rw [List.length_append, hheader, bytesAt_length]
    · rw [List.take_append_of_le_length (by rw [hheader]),
        List.take_of_length_le (by rw [hheader])]
    · rw [List.drop_append_of_le_length (by rw [hheader]),
        List.drop_of_length_le (by rw [hheader]), List.nil_append]
    · intro hle
      rw [List.drop_append_of_le_length (by rw [hheader]),
        List.drop_of_length_le (by rw [hheader]), List.nil_append]
      exact bytesAt_of_le _ _ hle

theorem ActiveProvider_SendMessage_results_witness :
    (sampleState.s_activeProviders.getD 0 default).userClient ≠ 0 ∧
    ∃ st', ActiveProvider_SendMessage sampleConfig sampleState 0 sampleMessage = .done (0, st') ∧
      sentBuffers st'.trace = [(1001, messageMemory sampleConfig sampleMessage)] ∧
      (messageMemory sampleConfig sampleMessage).length = 37 + 5 ∧
      (messageMemory sampleConfig sampleMessage).drop 37 = "a.txt".toList.map Char.toNat :=
  have h := ActiveProvider_SendMessage_results sampleConfig sampleState 0 sampleMessage
    (by decide)
  ⟨by decide,
   (h.2.1 (by decide)).imp (fun _ x =>
     ⟨x.1, x.2.2.2.1, (h.2.2.2 (by decide) (by decide)).1,
      (h.2.2.2 (by decide) (by decide)).2.2.2 (by decide)⟩)⟩

theorem findLoop_cond (env : Env) (v : Nat) :
    ((none : Option Nat).isNone && v != NULLVP && !env.vnode_isvroot v) = !endsWalk env v := by
  unfold endsWalk
  cases h1 : (v == NULLVP) <;> cases h2 : env.vnode_isvroot v <;> simp [bne, h1]

theorem findLoop_found (env : Env) (fuel i v : Nat) (st : KextState) :
    findLoop env fuel (some i) v st = some (some i, v, st) := by
  cases fuel <;> simp [findLoop]

theorem findLoop_stop (env : Env) (fuel v : Nat) (st : KextState)
    (h : endsWalk env v = true) : findLoop env fuel none v st = some (none, v, st) := by
  cases fuel <;> unfold findLoop <;> rw [findLoop_cond, h] <;> rfl

theorem findLoop_step (env : Env) (fuel v : Nat) (st : KextState)
    (h : endsWalk env v = false) :
    findLoop env (fuel + 1) none v st =
      findLoop env fuel (scanForRoot st.s_activeProviders v) (env.parent v)
        (vnode_put (vnode_getparent env st v).2 v) := by
  rw [findLoop, findLoop_cond, h]
  rfl

theorem hasDepth_succ {env : Env} {v d : Nat} (h : HasDepth env v (d + 1)) :
    endsWalk env v = false ∧ HasDepth env (env.parent v) d :=
  ⟨h.2 0 (Nat.succ_pos d), h.1, fun k hk => h.2 (k + 1) (Nat.succ_lt_succ hk)⟩

theorem findLoop_run (env : Env) :
    ∀ (d fuel v : Nat) (st : KextState), HasDepth env v d → d ≤ fuel →
      ∃ p n st2, findLoop env fuel none v st = some (p, ancestor env n v, st2) ∧ n ≤ d ∧
        (∀ k, k + 1 < n → scanForRoot st.s_activeProviders (ancestor env k v) = none) ∧
        (p = none → n = d ∧
          ∀ k, k < n → scanForRoot st.s_activeProviders (ancestor env k v) = none) ∧
        (∀ i, p = some i →
          ∃ k, n = k + 1 ∧ scanForRoot st.s_activeProviders (ancestor env k v) = some i) ∧
        st2.trace = st.trace ++ walkEvents env n v ∧
        (∀ u, st2.iocount u = st.iocount u + heldBy u (walkEvents env n v)) := by
  intro d
  induction d with
  | zero =>
    intro fuel v st hd _
    refine ⟨none, 0, st, findLoop_stop env fuel v st hd.1, le_refl 0, ?_, ?_, ?_, ?_, ?_⟩
    · intro k hk; omega
    · intro _; exact ⟨rfl, fun k hk => absurd hk (Nat.not_lt_zero k)⟩
    · intro i hi; exact absurd hi (by simp)
    · simp [walkEvents]
    · intro u; simp [walkEvents, heldBy]
  | succ d ih =>
    intro fuel v st hd hfuel
    obtain ⟨htop, hd'⟩ := hasDepth_succ hd
    obtain ⟨f, rfl⟩ : ∃ f, fuel = f + 1 := ⟨fuel - 1, by omega⟩
    rw [findLoop_step env f v st htop]
    have hio : ∀ u, (vnode_put (vnode_getparent env st v).2 v).iocount u =
        st.iocount u + ((if u = env.parent v ∧ env.parent v ≠ NULLVP then 1 else 0) +
          (if u = v then -1 else 0)) := by
      intro u
      show (if u = v then (if u = env.parent v ∧ env.parent v ≠ NULLVP then st.iocount u + 1
        else st.iocount u) - 1 else (if u = env.parent v ∧ env.parent v ≠ NULLVP then
          st.iocount u + 1 else st.iocount u)) = _
      split <;> split <;> omega
    cases hscan : scanForRoot st.s_activeProviders v with
    | some i =>
      refine ⟨some i, 1, vnode_put (vnode_getparent env st v).2 v, ?_, by omega, ?_, ?_, ?_,
        ?_, ?_⟩
      · rw [findLoop_found]
        rfl
      · intro k hk; omega
      · intro h; exact absurd h (by simp)
      · intro j hj
        refine ⟨0, rfl, ?_⟩
        rw [← hj]
        exact hscan
      · simp [walkEvents, vnode_put, vnode_getparent]
      · intro u
        rw [hio u]
        simp only [walkEvents, heldBy]
        omega
    | none =>
      obtain ⟨p, n, st2, hrun, hn, hbefore, hnone, hsome, htrace, hcount⟩ :=
        ih f (env.parent v) (vnode_put (vnode_getparent env st v).2 v) hd' (by omega)
      have hprov : (vnode_put (vnode_getparent env st v).2 v).s_activeProviders =
          st.s_activeProviders := rfl
      rw [hprov] at hbefore hnone hsome
      refine ⟨p, n + 1, st2, hrun, by omega, ?_, ?_, ?_, ?_, ?_⟩
      · intro k hk
        cases k with
        | zero => exact hscan
        | succ k => exact hbefore k (by omega)
      · intro hp
        obtain ⟨h1, h2⟩ := hnone hp
        refine ⟨by omega, ?_⟩
        intro k hk
        cases k with
        | zero => exact hscan
        | succ k => exact h2 k (by omega)
      · intro i hi
        obtain ⟨k, h1, h2⟩ := hsome i hi
        exact ⟨k + 1, by omega, h2⟩
      · rw [htrace]
        simp [walkEvents, vnode_put, vnode_getparent]
      · intro u
        rw [hcount u, hio u]
        simp only [walkEvents, heldBy]
        omega

theorem scanForRoot_eq_some_iff (ps : List ActiveProvider) (w i : Nat) :
    scanForRoot ps w = some i ↔ IsFirstSlot ps w i := by
  constructor
  · intro h
    obtain ⟨h1, h2⟩ := scanForRoot_some h
    refine ⟨h1, h2.symm, ?_⟩
    intro j hj hroot
    obtain ⟨j', hj', hfind⟩ :=
      find_range_le (fun i => w == (ps.getD i default).virtualizationRootVNode)
        MaxActiveProviders j (by omega) (beq_iff_eq.mpr hroot.symm)
    unfold scanForRoot at h
    rw [h] at hfind
    simp only [Option.some.injEq] at hfind
    omega
  · rintro ⟨h1, h2, h3⟩
    unfold scanForRoot
    apply find_range_first _ _ _ h1
    · exact beq_iff_eq.mpr h2.symm
    · intro j hj
      have := h3 j hj
      simp only [beq_eq_false_iff_ne, ne_eq]
      exact fun hc => this hc.symm

theorem scanForRoot_eq_none_iff (ps : List ActiveProvider) (w : Nat) :
    scanForRoot ps w = none ↔
      ∀ i, i < MaxActiveProviders → (ps.getD i default).virtualizationRootVNode ≠ w := by
  constructor
  · intro h i hi hroot
    obtain ⟨j', -, hfind⟩ :=
      find_range_le (fun i => w == (ps.getD i default).virtualizationRootVNode)
        MaxActiveProviders i hi (beq_iff_eq.mpr hroot.symm)
    unfold scanForRoot at h
    rw [h] at hfind
    exact absurd hfind (by simp)
  · intro h
    unfold scanForRoot
    apply find_range_none
    intro j hj
    have := h j hj
    simp only [beq_eq_false_iff_ne, ne_eq]
    exact fun hc => this hc.symm

theorem heldBy_append (u : Nat) (l1 l2 : List Event) :
    heldBy u (l1 ++ l2) = heldBy u l1 + heldBy u l2 := by
  induction l1 with
  | nil => simp [heldBy]
  | cons e rest ih =>
    cases e <;> simp [heldBy, ih] <;> omega

theorem loopIterations_append (l1 l2 : List Event) :
    loopIterations (l1 ++ l2) = loopIterations l1 + loopIterations l2 := by
  induction l1 with
  | nil => simp [loopIterations]
  | cons e rest ih =>
    cases e <;> simp [loopIterations, ih]
    omega

theorem loopIterations_walkEvents (env : Env) :
    ∀ (n v : Nat), loopIterations (walkEvents env n v) = n := by
  intro n
  induction n with
  | zero => intro v; rfl
  | succ n ih =>
    intro v
    simp only [walkEvents, loopIterations]
    rw [ih]

theorem walkEvents_add (env : Env) :
    ∀ (a b v : Nat),
      walkEvents env (a + b) v = walkEvents env a v ++ walkEvents env b (ancestor env a v) := by
  intro a
  induction a with
  | zero => intro b v; simp [walkEvents, ancestor]
  | succ a ih =>
    intro b v
    rw [show a + 1 + b = (a + b) + 1 by omega]
    simp only [walkEvents, ancestor, List.cons_append]
    rw [ih]

theorem heldBy_walkEvents (env : Env) (u : Nat) :
    ∀ (n v : Nat), (∀ k, k < n → ancestor env k v ≠ NULLVP) →
      heldBy u (walkEvents env n v) =
        (if u = ancestor env n v ∧ ancestor env n v ≠ NULLVP then 1 else 0) -
          (if u = v ∧ v ≠ NULLVP then 1 else 0) := by
  intro n
  induction n with
  | zero =>
    intro v _
    simp [walkEvents, heldBy, ancestor]
  | succ n ih =>
    intro v h
    have hv : v ≠ NULLVP := h 0 (Nat.succ_pos n)
    have ih' := ih (env.parent v) (fun k hk => h (k + 1) (Nat.succ_lt_succ hk))
    simp only [walkEvents, heldBy, ancestor]
    rw [ih']
    by_cases h1 : u = v
    · simp only [h1, hv, ne_eq, not_false_eq_true, and_self, if_true]
      omega
    · simp only [h1, false_and, if_false]
      omega

theorem endsWalk_false {env : Env} {v : Nat} (h : endsWalk env v = false) :
    v ≠ NULLVP ∧ env.vnode_isvroot v = false := by
  unfold endsWalk at h
  simp only [Bool.or_eq_false_iff, beq_eq_false_iff_ne, ne_eq] at h
  exact h

theorem endsWalk_true {env : Env} {v : Nat} (h : endsWalk env v = true) :
    v = NULLVP ∨ env.vnode_isvroot v = true := by
  unfold endsWalk at h
  simp only [Bool.or_eq_true, beq_iff_eq] at h
  exact h

theorem ActiveProviders_Find_run (env : Env) (st : KextState) (v d fuel : Nat)
    (hd : HasDepth env v d) (hfuel : d ≤ fuel) :
    ∃ p n st', ActiveProviders_Find env fuel st v = some (p, st') ∧ n ≤ d ∧
      (∀ k, k + 1 < n → scanForRoot st.s_activeProviders (ancestor env k v) = none) ∧
      (p = none → n = d ∧
        ∀ k, k < n → scanForRoot st.s_activeProviders (ancestor env k v) = none) ∧
      (∀ i, p = some i →
        ∃ k, n = k + 1 ∧ scanForRoot st.s_activeProviders (ancestor env k v) = some i) ∧
      st'.trace = st.trace ++ Event.find v :: Event.vnodeGet v :: (walkEvents env n v ++
        if ancestor env n v ≠ NULLVP then [Event.vnodePut (ancestor env n v)] else []) ∧
      (∀ u, st'.iocount u = st.iocount u + heldBy u (Event.vnodeGet v :: (walkEvents env n v ++
        if ancestor env n v ≠ NULLVP then [Event.vnodePut (ancestor env n v)] else []))) := by
  obtain ⟨p, n, st2, hrun, hn, hbefore, hnone, hsome, htrace, hcount⟩ :=
    findLoop_run env d fuel v (vnode_get (st.emit (Event.find v)) v) hd hfuel
  have hprov : (vnode_get (st.emit (Event.find v)) v).s_activeProviders =
      st.s_activeProviders := rfl
  rw [hprov] at hbefore hnone hsome
  have h0 : ∀ u, (vnode_get (st.emit (Event.find v)) v).iocount u =
      st.iocount u + (if u = v then 1 else 0) := by
    intro u
    show (if u = v then st.iocount u + 1 else st.iocount u) = _
    split <;> omega
  have ht0 : (vnode_get (st.emit (Event.find v)) v).trace =
      st.trace ++ [Event.find v, Event.vnodeGet v] := by
    simp [vnode_get, KextState.emit]
  refine ⟨p, n, if ancestor env n v != NULLVP then vnode_put st2 (ancestor env n v) else st2,
    ?_, hn, hbefore, hnone, hsome, ?_, ?_⟩
  · unfold ActiveProviders_Find
    simp only [hrun]
  · by_cases hz : ancestor env n v = NULLVP
    · simp only [hz, bne_self_eq_false, Bool.false_eq_true, if_false, ne_eq, not_true_eq_false,
        List.append_nil]
      rw [htrace, ht0]
      simp
    · have hb : (ancestor env n v != NULLVP) = true := by simpa using hz
      rw [if_pos hb, if_pos hz]
      show st2.trace ++ [Event.vnodePut (ancestor env n v)] = _
      rw [htrace, ht0]
      simp
  · intro u
    by_cases hz : ancestor env n v = NULLVP
    · simp only [hz, bne_self_eq_false, Bool.false_eq_true, if_false, ne_eq, not_true_eq_false,
        List.append_nil]
      rw [hcount u, h0 u]
      simp only [heldBy]
      omega
    · have hb : (ancestor env n v != NULLVP) = true := by simpa using hz
      rw [if_pos hb, if_pos hz]
      show (if u = ancestor env n v then st2.iocount u - 1 else st2.iocount u) = _
      rw [hcount u, h0 u]
      simp only [heldBy, heldBy_append]
      split <;> omega

/-- C18: for a vnode at depth d (d parent steps lead to the first vnode that is
null or the root of a file system) and every registry, ActiveProviders_Find
given at least d steps returns, after n ≤ d iterations of its loop, so that the
loop condition is evaluated on n + 1 ≤ d + 1 vnodes. The calls it makes are
vnode_get, then vnode_getparent and vnode_put for each of the n vnodes, then
one vnode_put when the walk did not end on the null vnode. The loop stops on
the first vnode whose scan finds a slot, or with no slot on a null ancestor
or on the root of the file system; none of the vnodes it went through is null
or such a root. -/
theorem ActiveProviders_Find_terminates (env : Env) (st : KextState) (v d fuel : Nat)
    (hd : HasDepth env v d) (hfuel : d ≤ fuel) :
    ∃ p st' n, ActiveProviders_Find env fuel st v = some (p, st') ∧
      n ≤ d ∧ n + 1 ≤ d + 1 ∧
      loopIterations st'.trace = loopIterations st.trace + n ∧
      st'.trace = st.trace ++ Event.find v :: Event.vnodeGet v :: (walkEvents env n v ++
        if ancestor env n v ≠ NULLVP then [Event.vnodePut (ancestor env n v)] else []) ∧
      ((∃ i k, p = some i ∧ n = k + 1 ∧
          scanForRoot st.s_activeProviders (ancestor env k v) = some i) ∨
        (p = none ∧ n = d ∧ ancestor env n v = NULLVP) ∨
        (p = none ∧ n = d ∧ env.vnode_isvroot (ancestor env n v) = true)) ∧
      (∀ k, k + 1 < n → scanForRoot st.s_activeProviders (ancestor env k v) = none) ∧
      (∀ k, k < n → ancestor env k v ≠ NULLVP ∧ env.vnode_isvroot (ancestor env k v) = false) := by
  obtain ⟨p, n, st', hrun, hn, hbefore, hnone, hsome, htrace, -⟩ :=
    ActiveProviders_Find_run env st v d fuel hd hfuel
  refine ⟨p, st', n, hrun, hn, by omega, ?_, htrace, ?_, hbefore, ?_⟩
  · rw [htrace, loopIterations_append]
    simp only [loopIterations, loopIterations_append, loopIterations_walkEvents]
    split <;> simp [loopIterations]
  · cases p with
    | some i =>
      obtain ⟨k, hk, hs⟩ := hsome i rfl
      exact Or.inl ⟨i, k, rfl, hk, hs⟩
    | none =>
      obtain ⟨hnd, -⟩ := hnone rfl
      have htop := hd.1
      rw [← hnd] at htop
      rcases endsWalk_true htop with h | h
      · exact Or.inr (Or.inl ⟨rfl, hnd, h⟩)
      · exact Or.inr (Or.inr ⟨rfl, hnd, h⟩)
  · intro k hk
    exact endsWalk_false (hd.2 k (by omega))

theorem ActiveProviders_Find_terminates_witness :
    HasDepth sampleEnv 6 2 ∧
    ∃ p st' n, ActiveProviders_Find sampleEnv 2 sampleState 6 = some (p, st') ∧ n ≤ 2 ∧
      loopIterations st'.trace = loopIterations sampleState.trace + n :=
  ⟨by decide,
   (ActiveProviders_Find_terminates sampleEnv sampleState 6 2 2 (by decide) (by decide)).imp
     (fun _ h => h.imp (fun _ h => h.imp (fun _ h => ⟨h.1, h.2.1, h.2.2.2.1⟩)))⟩

theorem ancestor_succ (env : Env) :
    ∀ (k v : Nat), ancestor env (k + 1) v = env.parent (ancestor env k v) := by
  intro k
  induction k with
  | zero => intro v; rfl
  | succ k ih =>
    intro v
    show ancestor env (k + 1) (env.parent v) = env.parent (ancestor env k (env.parent v))
    exact ih (env.parent v)

theorem walkEvents_succ (env : Env) (k v : Nat) :
    walkEvents env (k + 1) v = walkEvents env k v ++
      [Event.vnodeGetParent (ancestor env k v) (ancestor env (k + 1) v),
       Event.vnodePut (ancestor env k v)] := by
  rw [walkEvents_add env k 1 v, ancestor_succ]
  rfl

theorem walkEvents_prefix (env : Env) :
    ∀ (n v : Nat) (pre : List Event), pre <+: walkEvents env n v →
      (∃ k, k ≤ n ∧ pre = walkEvents env k v) ∨
      (∃ k, k < n ∧ pre = walkEvents env k v ++
        [Event.vnodeGetParent (ancestor env k v) (ancestor env (k + 1) v)]) := by
  intro n
  induction n with
  | zero =>
    intro v pre h
    left
    refine ⟨0, le_refl 0, ?_⟩
    simpa [walkEvents] using h
  | succ n ih =>
    intro v pre h
    cases pre with
    | nil => exact Or.inl ⟨0, Nat.zero_le _, rfl⟩
    | cons e1 pre1 =>
      simp only [walkEvents] at h
      obtain ⟨he1, h1⟩ := List.cons_prefix_cons.mp h
      cases pre1 with
      | nil =>
        right
        exact ⟨0, Nat.succ_pos n, by rw [he1]; rfl⟩
      | cons e2 pre2 =>
        obtain ⟨he2, h2⟩ := List.cons_prefix_cons.mp h1
        rcases ih (env.parent v) pre2 h2 with ⟨k, hk, hpre⟩ | ⟨k, hk, hpre⟩
        · left
          refine ⟨k + 1, by omega, ?_⟩
          rw [he1, he2, hpre]
          rfl
        · right
          refine ⟨k + 1, by omega, ?_⟩
          rw [he1, he2, hpre]
          rfl

/-- C20, counterexample: ActiveProviders_Find on the file 3 of the sample
state calls vnode_get on 3 and then vnode_getparent, which returns the
directory 2 with a use-count; only then is 3 put. After these two calls Find
holds a use-count on 3 and one on 2: two are outstanding, not one. -/
theorem two_use_counts_inside_an_iteration :
    ∃ st' rest, ActiveProviders_Find sampleEnv 2 sampleState 3 = some (some 0, st') ∧
      st'.trace = sampleState.trace ++
        Event.find 3 :: ([Event.vnodeGet 3, Event.vnodeGetParent 3 2] ++ rest) ∧
      rest = [Event.vnodePut 3, Event.vnodeGetParent 2 1, Event.vnodePut 2, Event.vnodePut 1] ∧
      heldBy 3 [Event.vnodeGet 3, Event.vnodeGetParent 3 2] = 1 ∧
      heldBy 2 [Event.vnodeGet 3, Event.vnodeGetParent 3 2] = 1 ∧
      (3 : Nat) ≠ 2 :=
  ⟨_, [Event.vnodePut 3, Event.vnodeGetParent 2 1, Event.vnodePut 2, Event.vnodePut 1], rfl, rfl,
    rfl, by decide, by decide, by decide⟩

/-- C20, amended: ActiveProviders_Find on a non-null vnode at depth d, for every
registry (a slot is found, none is found, or the vnode is already the root of
its file system, which is depth 0), leaves the use-count of every vnode as it
was. With vnode_get and a vnode_getparent that returns a vnode counted as one
use-count taken and vnode_put as one given back, the calls of Find give back
all they took. At every evaluation of the loop condition the use-counts Find
holds are exactly one, on the vnode the loop is about to inspect, and none
when that vnode is null. Inside an iteration, after vnode_getparent and
before vnode_put, Find holds the one on the inspected vnode and a second one
on its parent when the parent is not null. These are all the points of the
walk: every prefix of the calls is empty, or all of them, or ends at one of
these two kinds of points. -/
theorem ActiveProviders_Find_use_count_neutral (env : Env) (st : KextState) (v d fuel : Nat)
    (hv : v ≠ NULLVP) (hd : HasDepth env v d) (hfuel : d ≤ fuel) :
    ∃ p st' n events, ActiveProviders_Find env fuel st v = some (p, st') ∧
      (∀ u, st'.iocount u = st.iocount u) ∧
      st'.trace = st.trace ++ Event.find v :: events ∧
      (∀ u, heldBy u events = 0) ∧
      n ≤ d ∧ loopIterations events = n ∧
      (∀ k, k ≤ n → ∃ rest, events = (Event.vnodeGet v :: walkEvents env k v) ++ rest ∧
        ∀ u, heldBy u (Event.vnodeGet v :: walkEvents env k v) =
          if u = ancestor env k v ∧ ancestor env k v ≠ NULLVP then 1 else 0) ∧
      (∀ k, k < n → ∃ rest,
        events = (Event.vnodeGet v :: walkEvents env k v ++
          [Event.vnodeGetParent (ancestor env k v) (ancestor env (k + 1) v)]) ++
            Event.vnodePut (ancestor env k v) :: rest ∧
        ∀ u, heldBy u (Event.vnodeGet v :: walkEvents env k v ++
            [Event.vnodeGetParent (ancestor env k v) (ancestor env (k + 1) v)]) =
          (if u = ancestor env k v then 1 else 0) +
            (if u = ancestor env (k + 1) v ∧ ancestor env (k + 1) v ≠ NULLVP then 1 else 0)) ∧
      (∀ pre, pre <+: events →
        pre = [] ∨ pre = events ∨
        (∃ k, k ≤ n ∧ pre = Event.vnodeGet v :: walkEvents env k v) ∨
        (∃ k, k < n ∧ pre = Event.vnodeGet v :: walkEvents env k v ++
          [Event.vnodeGetParent (ancestor env k v) (ancestor env (k + 1) v)])) := by
  obtain ⟨p, n, st', hrun, hn, -, -, -, htrace, hcount⟩ :=
    ActiveProviders_Find_run env st v d fuel hd hfuel
  have hnonnull : ∀ k, k < n → ancestor env k v ≠ NULLVP :=
    fun k hk => (endsWalk_false (hd.2 k (by omega))).1
  have hhead : ∀ k, k ≤ n → ∀ u, heldBy u (Event.vnodeGet v :: walkEvents env k v) =
      if u = ancestor env k v ∧ ancestor env k v ≠ NULLVP then 1 else 0 := by
    intro k hk u
    simp only [heldBy]
    rw [heldBy_walkEvents env u k v (fun j hj => hnonnull j (by omega))]
    by_cases h1 : u = v
    · simp only [h1, hv, ne_eq, not_false_eq_true, and_self, if_true]
      omega
    · simp only [h1, false_and, if_false]
      omega
  have hzero : ∀ u, heldBy u (Event.vnodeGet v :: (walkEvents env n v ++
      if ancestor env n v ≠ NULLVP then [Event.vnodePut (ancestor env n v)] else [])) = 0 := by
    intro u
    have h1 := hhead n (le_refl n) u
    simp only [heldBy, heldBy_append] at h1 ⊢
    by_cases hz : ancestor env n v = NULLVP
    · simp only [hz, ne_eq, not_true_eq_false, and_false, if_false, heldBy] at h1 ⊢
      omega
    · simp only [hz, ne_eq, not_false_eq_true, and_true, if_true, heldBy] at h1 ⊢
      split at h1 <;> omega
  refine ⟨p, st', n, _, hrun, ?_, htrace, hzero, hn, ?_, ?_, ?_, ?_⟩
  · intro u
    rw [hcount u, hzero u]
    omega
  · simp only [loopIterations, loopIterations_append, loopIterations_walkEvents]
    split <;> simp [loopIterations]
  · intro k hk
    refine ⟨walkEvents env (n - k) (ancestor env k v) ++
      (if ancestor env n v ≠ NULLVP then [Event.vnodePut (ancestor env n v)] else []), ?_,
      hhead k hk⟩
    have hsplit := walkEvents_add env k (n - k) v
    rw [show k + (n - k) = n by omega] at hsplit
    rw [hsplit]
    simp
  · intro k hk
    refine ⟨walkEvents env (n - (k + 1)) (ancestor env (k + 1) v) ++
      (if ancestor env n v ≠ NULLVP then [Event.vnodePut (ancestor env n v)] else []), ?_, ?_⟩
    · have hsplit := walkEvents_add env (k + 1) (n - (k + 1)) v
      rw [show k + 1 + (n - (k + 1)) = n by omega, walkEvents_succ] at hsplit
      rw [hsplit]
      simp
    · intro u
      have h1 := hhead k (by omega) u
      have h2 : Event.vnodeGet v :: walkEvents env k v ++
          [Event.vnodeGetParent (ancestor env k v) (ancestor env (k + 1) v)] =
          (Event.vnodeGet v :: walkEvents env k v) ++
            [Event.vnodeGetParent (ancestor env k v) (ancestor env (k + 1) v)] := rfl
      rw [h2, heldBy_append, h1]
      have hk0 := hnonnull k hk
      simp only [heldBy, hk0, ne_eq, not_false_eq_true, and_true]
      omega
  · intro pre hpre
    cases pre with
    | nil => exact Or.inl rfl
    | cons e pre1 =>
      obtain ⟨he, h1⟩ := List.cons_prefix_cons.mp hpre
      right
      have hwalk : pre1 <+: walkEvents env n v →
          (∃ k, k ≤ n ∧ e :: pre1 = Event.vnodeGet v :: walkEvents env k v) ∨
          (∃ k, k < n ∧ e :: pre1 = Event.vnodeGet v :: walkEvents env k v ++
            [Event.vnodeGetParent (ancestor env k v) (ancestor env (k + 1) v)]) := by
        intro h2
        rcases walkEvents_prefix env n v pre1 h2 with ⟨k, hk, hp⟩ | ⟨k, hk, hp⟩
        · exact Or.inl ⟨k, hk, by rw [he, hp]⟩
        · exact Or.inr ⟨k, hk, by rw [he, hp]; rfl⟩
      by_cases hz : ancestor env n v = NULLVP
      · simp only [hz, ne_eq, not_true_eq_false, if_false, List.append_nil] at h1 ⊢
        exact Or.inr (hwalk h1)
      · rw [if_pos hz] at h1 ⊢
        rcases List.prefix_concat_iff.mp h1 with h2 | h2
        · exact Or.inl (by rw [he, h2])
        · exact Or.inr (hwalk h2)

theorem ActiveProviders_Find_use_count_neutral_witness :
    (3 : Nat) ≠ NULLVP ∧ HasDepth sampleEnv 3 2 ∧
    ∃ p st' n events, ActiveProviders_Find sampleEnv 2 sampleState 3 = some (p, st') ∧
      (∀ u, st'.iocount u = sampleState.iocount u) ∧
      st'.trace = sampleState.trace ++ Event.find 3 :: events ∧
      (∀ u, heldBy u events = 0) ∧ n ≤ 2 :=
  ⟨by decide, by decide,
   (ActiveProviders_Find_use_count_neutral sampleEnv sampleState 3 2 2 (by decide) (by decide)
      (by decide)).imp
     (fun _ h => h.imp (fun _ h => h.imp (fun _ h => h.imp
       (fun _ h => ⟨h.1, h.2.1, h.2.2.1, h.2.2.2.1, h.2.2.2.2.1⟩))))⟩

/-- C13, counterexample: a provider registers the directory / of its volume,
vnode 1, the root of the file system, as its virtualization root. The file 3
lies below it (3, then its parent 2, then 1), no other root is registered, and
the scan of the registry for vnode 1 finds slot 0; yet ActiveProviders_Find on 3
returns null, because the loop ends on the root of the file system before it
scans the registry for it. -/
theorem root_on_file_system_root_is_not_found :
    ∃ st1, ActiveProvider_RegisterRoot sampleConfig volumeEnv sampleRegistered 0 "/".toList =
        .done (0, st1) ∧
      (st1.s_activeProviders.getD 0 default).userClient = 1001 ∧
      (st1.s_activeProviders.getD 0 default).virtualizationRootVNode = 1 ∧
      volumeEnv.parent 3 = 2 ∧ volumeEnv.parent 2 = 1 ∧ volumeEnv.vnode_isvroot 1 = true ∧
      scanForRoot st1.s_activeProviders 3 = none ∧
      scanForRoot st1.s_activeProviders 2 = none ∧
      scanForRoot st1.s_activeProviders 1 = some 0 ∧
      (ActiveProviders_Find volumeEnv 2 st1 3).map Prod.fst = some none ∧
      (ActiveProviders_Find volumeEnv 5 st1 1).map Prod.fst = some none :=
  ⟨_, rfl, by decide, by decide, by decide, by decide, by decide, by decide, by decide,
    by decide, by decide, by decide⟩

/-- C13, amended: for a vnode at depth d (d parent steps lead to the first
vnode that is null or the root of a file system) and every registry,
ActiveProviders_Find given at least d steps returns slot i exactly when i is
the lowest-indexed slot whose root vnode is the first vnode that is some
slot's root among the vnode and its ancestors strictly below that null vnode
or file-system root, and returns null exactly when none of these d vnodes is
the root of a slot; the null vnode and the root of the file system are
themselves never compared with the registry. A slot that is returned has a
non-null root vnode. -/
theorem ActiveProviders_Find_closest_root (env : Env) (st : KextState) (v d fuel : Nat)
    (hd : HasDepth env v d) (hfuel : d ≤ fuel) :
    ∃ p st', ActiveProviders_Find env fuel st v = some (p, st') ∧
      (∀ i, p = some i ↔ ∃ k, k < d ∧ IsFirstSlot st.s_activeProviders (ancestor env k v) i ∧
        ∀ j, j < k → ∀ i', i' < MaxActiveProviders →
          (st.s_activeProviders.getD i' default).virtualizationRootVNode ≠ ancestor env j v) ∧
      (p = none ↔ ∀ k, k < d → ∀ i, i < MaxActiveProviders →
        (st.s_activeProviders.getD i default).virtualizationRootVNode ≠ ancestor env k v) ∧
      (∀ i, p = some i → i < MaxActiveProviders ∧
        (st.s_activeProviders.getD i default).virtualizationRootVNode ≠ NULLVP) := by
  obtain ⟨p, n, st', hrun, hn, hbefore, hnone, hsome, -, -⟩ :=
    ActiveProviders_Find_run env st v d fuel hd hfuel
  have hfwd : ∀ i, p = some i → ∃ k, k < d ∧
      IsFirstSlot st.s_activeProviders (ancestor env k v) i ∧
      ∀ j, j < k → ∀ i', i' < MaxActiveProviders →
        (st.s_activeProviders.getD i' default).virtualizationRootVNode ≠ ancestor env j v := by
    intro i hi
    obtain ⟨k, hk, hs⟩ := hsome i hi
    refine ⟨k, by omega, (scanForRoot_eq_some_iff _ _ _).mp hs, ?_⟩
    intro j hj
    exact (scanForRoot_eq_none_iff _ _).mp (hbefore j (by omega))
  have hnone' : p = none → ∀ k, k < d → ∀ i, i < MaxActiveProviders →
      (st.s_activeProviders.getD i default).virtualizationRootVNode ≠ ancestor env k v := by
    intro hp k hk
    obtain ⟨h1, h2⟩ := hnone hp
    exact (scanForRoot_eq_none_iff _ _).mp (h2 k (by omega))
  refine ⟨p, st', hrun, ?_, ?_, ?_⟩
  · intro i
    refine ⟨hfwd i, ?_⟩
    rintro ⟨k, hk, hfirst, hbelow⟩
    cases hp : p with
    | none => exact absurd hfirst.2.1 (hnone' hp k hk i hfirst.1)
    | some i' =>
      obtain ⟨k', hk', hfirst', hbelow'⟩ := hfwd i' hp
      rcases Nat.lt_trichotomy k k' with h | h | h
      · exact absurd hfirst.2.1 (hbelow' k h i hfirst.1)
      · subst h
        rcases Nat.lt_trichotomy i i' with h | h | h
        · exact absurd hfirst.2.1 (hfirst'.2.2 i h)
        · rw [h]
        · exact absurd hfirst'.2.1 (hfirst.2.2 i' h)
      · exact absurd hfirst'.2.1 (hbelow k' h i' hfirst'.1)
  · refine ⟨hnone', ?_⟩
    intro h
    cases hp : p with
    | none => rfl
    | some i =>
      obtain ⟨k, hk, hfirst, -⟩ := hfwd i hp
      exact absurd hfirst.2.1 (h k hk i hfirst.1)
  · intro i hi
    exact ActiveProviders_Find_slot (by rw [← hi]; exact hrun)

theorem ActiveProviders_Find_closest_root_witness :
    HasDepth sampleEnv 3 2 ∧
    (ActiveProviders_Find sampleEnv 2 sampleState 3).map Prod.fst = some (some 0) ∧
    ∃ p st', ActiveProviders_Find sampleEnv 2 sampleState 3 = some (p, st') ∧
      (p = some 0 ↔ ∃ k, k < 2 ∧
        IsFirstSlot sampleState.s_activeProviders (ancestor sampleEnv k 3) 0 ∧
        ∀ j, j < k → ∀ i', i' < MaxActiveProviders →
          (sampleState.s_activeProviders.getD i' default).virtualizationRootVNode ≠
            ancestor sampleEnv j 3) :=
  ⟨by decide, by decide,
   (ActiveProviders_Find_closest_root sampleEnv sampleState 3 2 2 (by decide) (by decide)).imp
     (fun _ h => h.imp (fun _ h => ⟨h.1, h.2.1 0⟩))⟩

theorem getD_set (l : List ActiveProvider) (i k : Nat) (a : ActiveProvider) :
    (l.set i a).getD k default = if k = i ∧ i < l.length then a else l.getD k default := by
  by_cases hk : k = i
  · subst hk
    by_cases hl : k < l.length
    · rw [if_pos ⟨rfl, hl⟩]
      exact getD_set_self l k a default hl
    · rw [if_neg (fun h => hl h.2), List.set_eq_of_length_le (by omega)]
  · rw [if_neg (fun h => hk h.1)]
    exact getD_set_ne l i k a default (fun h => hk h.symm)

theorem distinctRoots_of_cleared {ps ps' : List ActiveProvider} (h : DistinctRoots ps)
    (hroot : ∀ k, (ps'.getD k default).virtualizationRootVNode =
        (ps.getD k default).virtualizationRootVNode ∨
      (ps'.getD k default).virtualizationRootVNode = NULLVP) : DistinctRoots ps' := by
  intro i j hi hj hij hnz heq
  have hi' : (ps'.getD i default).virtualizationRootVNode =
      (ps.getD i default).virtualizationRootVNode := by
    rcases hroot i with h1 | h1
    · exact h1
    · exact absurd h1 hnz
  have hj' : (ps'.getD j default).virtualizationRootVNode =
      (ps.getD j default).virtualizationRootVNode := by
    rcases hroot j with h1 | h1
    · exact h1
    · rw [heq] at hnz
      exact absurd h1 hnz
  rw [hi'] at hnz heq
  rw [hj'] at heq
  exact h i j hi hj hij hnz heq

theorem rootIsFree_iff (ps : List ActiveProvider) (provider vnode : Nat) :
    rootIsFree ps provider vnode = true ↔
      ∀ j, j < MaxActiveProviders → j ≠ provider →
        (ps.getD j default).virtualizationRootVNode ≠ vnode := by
  unfold rootIsFree
  rw [List.all_eq_true]
  constructor
  · intro h j hj hne
    have := h j (List.mem_range.mpr hj)
    simp only [Bool.or_eq_true, beq_iff_eq, bne_iff_ne, ne_eq] at this
    rcases this with h1 | h1
    · exact absurd h1 hne
    · exact h1
  · intro h j hj
    simp only [Bool.or_eq_true, beq_iff_eq, bne_iff_ne, ne_eq]
    by_cases hne : j = provider
    · exact Or.inl hne
    · exact Or.inr (h j (List.mem_range.mp hj) hne)

theorem distinctRoots_of_fresh {ps : List ActiveProvider} {provider found : Nat}
    (a : ActiveProvider) (h : DistinctRoots ps) (ha : a.virtualizationRootVNode = found)
    (hfree : rootIsFree ps provider found = true) : DistinctRoots (ps.set provider a) := by
  rw [rootIsFree_iff] at hfree
  intro i j hi hj hij hnz heq
  rw [getD_set] at hnz heq
  rw [getD_set] at heq
  by_cases hl : provider < ps.length
  · by_cases h1 : i = provider
    · rw [if_pos ⟨h1, hl⟩] at heq
      rw [if_neg (fun hc => hij (h1.trans hc.1.symm))] at heq
      rw [ha] at heq
      exact hfree j hj (fun hc => hij (h1.trans hc.symm)) heq.symm
    · rw [if_neg (fun hc => h1 hc.1)] at heq hnz
      by_cases h2 : j = provider
      · rw [if_pos ⟨h2, hl⟩, ha] at heq
        exact hfree i hi h1 heq
      · rw [if_neg (fun hc => h2 hc.1)] at heq
        exact h i j hi hj hij hnz heq
  · rw [if_neg (fun hc => hl hc.2)] at heq hnz
    rw [if_neg (fun hc => hl hc.2)] at heq
    exact h i j hi hj hij hnz heq

theorem registerUserClient_roots {st st' : KextState} {userClient : Nat} {clientPID : Int}
    {r : Option Nat}
    (h : ActiveProvider_RegisterUserClient st userClient clientPID = .done (r, st')) (k : Nat) :
    (st'.s_activeProviders.getD k default).virtualizationRootVNode =
      (st.s_activeProviders.getD k default).virtualizationRootVNode := by
  unfold ActiveProvider_RegisterUserClient at h
  split at h
  · simp only [Outcome.done.injEq, Prod.mk.injEq] at h
    rw [← h.2]
  · split at h
    · dsimp only at h
      split at h
      · simp only [Outcome.done.injEq, Prod.mk.injEq] at h
        rw [← h.2]
        show ((st.s_activeProviders.set _ _).getD k default).virtualizationRootVNode = _
        rw [getD_set]
        split
        · rename_i hc
          rw [hc.1]
        · rfl
      · exact absurd h (by simp)
    · exact absurd h (by simp)

theorem disconnect_roots {cfg : Config} {st st' : KextState} {provider : Nat}
    (h : ActiveProvider_Disconnect cfg st provider = .done st') (k : Nat) :
    (st'.s_activeProviders.getD k default).virtualizationRootVNode =
        (st.s_activeProviders.getD k default).virtualizationRootVNode ∨
      (st'.s_activeProviders.getD k default).virtualizationRootVNode = NULLVP := by
  have key : ∀ (ps : List ActiveProvider) (a : ActiveProvider),
      a.virtualizationRootVNode = NULLVP →
      ((ps.set provider a).getD k default).virtualizationRootVNode =
          (ps.getD k default).virtualizationRootVNode ∨
        ((ps.set provider a).getD k default).virtualizationRootVNode = NULLVP := by
    intro ps a ha
    rw [getD_set]
    split
    · exact Or.inr ha
    · exact Or.inl rfl
  unfold ActiveProvider_Disconnect at h
  split at h
  · dsimp only at h
    split at h
    · simp only [Outcome.done.injEq] at h
      rw [← h]
      by_cases hv : (st.s_activeProviders.getD provider default).virtualizationRootVNode ≠ NULLVP
      · simp only [if_pos hv]
        exact key _ _ rfl
      · simp only [if_neg hv]
        exact key _ _ (not_not.mp hv)
    · exact absurd h (by simp)
  · exact absurd h (by simp)

theorem registerRoot_registry {cfg : Config} {env : Env} {st st' : KextState}
    {provider err : Nat} {path : List Char}
    (h : ActiveProvider_RegisterRoot cfg env st provider path = .done (err, st')) :
    st'.s_activeProviders = st.s_activeProviders ∨
      ((env.lookup path).1 = 0 ∧ ∃ a, a.virtualizationRootVNode = (env.lookup path).2 ∧
        st'.s_activeProviders = st.s_activeProviders.set provider a) := by
  unfold ActiveProvider_RegisterRoot at h
  split at h
  · cases hl : env.lookup path with
    | mk e found =>
    rw [hl] at h
    dsimp only at h
    by_cases he : e = 0
    · subst he
      simp only [if_true, true_and] at h
      by_cases hd : env.vnode_isdir found = true
      · by_cases hroot : ((vnode_get st found).s_activeProviders.getD provider
            default).virtualizationRootVNode = NULLVP
        · rw [if_pos hd, if_pos hroot] at h
          simp only [ne_eq, not_true_eq_false, if_false, Outcome.done.injEq, Prod.mk.injEq] at h
          right
          refine ⟨rfl, { st.s_activeProviders.getD provider default with
            virtualizationRootVNode := found
            virtualizationRoot :=
              strlcpy (st.s_activeProviders.getD provider default).virtualizationRoot path
                cfg.PrjFSMaxPath }, rfl, ?_⟩
          rw [← h.2]
          rfl
        · rw [if_pos hd, if_neg hroot] at h
          simp only [Outcome.done.injEq, Prod.mk.injEq] at h
          left
          rw [← h.2]
          split <;> rfl
      · rw [if_neg hd] at h
        simp only [if_true, Outcome.done.injEq, Prod.mk.injEq] at h
        left
        rw [← h.2]
        split <;> rfl
    · simp only [he, if_false, false_and, Outcome.done.injEq, Prod.mk.injEq] at h
      left
      rw [← h.2]
      split <;> rfl
  · exact absurd h (by simp)

theorem applyCall_distinct {cfg : Config} {env : Env} {st st' : KextState}
    {call : RegistryCall} (hd : DistinctRoots st.s_activeProviders)
    (hfresh : callIsFresh env st call = true)
    (h : applyCall cfg env st call = .done st') : DistinctRoots st'.s_activeProviders := by
  cases call with
  | registerUserClient userClient clientPID =>
    dsimp only [applyCall] at h
    cases hr : ActiveProvider_RegisterUserClient st userClient clientPID with
    | done r =>
      rw [hr] at h
      simp only [Outcome.done.injEq] at h
      subst h
      exact distinctRoots_of_cleared hd (fun k => Or.inl (registerUserClient_roots hr k))
    | blocked s => rw [hr] at h; exact absurd h (by simp)
    | assertFailed => rw [hr] at h; exact absurd h (by simp)
    | outOfFuel => rw [hr] at h; exact absurd h (by simp)
  | registerRoot provider path =>
    dsimp only [applyCall] at h
    cases hr : ActiveProvider_RegisterRoot cfg env st provider path with
    | done r =>
      rw [hr] at h
      simp only [Outcome.done.injEq] at h
      subst h
      rcases registerRoot_registry hr with h1 | ⟨herr, a, ha, h1⟩
      · rw [h1]
        exact hd
      · rw [h1]
        unfold callIsFresh at hfresh
        simp only [herr, bne_self_eq_false, Bool.false_or] at hfresh
        exact distinctRoots_of_fresh a hd ha hfresh
    | blocked s => rw [hr] at h; exact absurd h (by simp)
    | assertFailed => rw [hr] at h; exact absurd h (by simp)
    | outOfFuel => rw [hr] at h; exact absurd h (by simp)
  | disconnect provider =>
    exact distinctRoots_of_cleared hd (fun k => disconnect_roots h k)

theorem runCalls_distinct (cfg : Config) (env : Env) :
    ∀ (calls : List RegistryCall) (st st' : KextState),
      DistinctRoots st.s_activeProviders → callsAreFresh cfg env st calls = true →
      runCalls cfg env st calls = .done st' → DistinctRoots st'.s_activeProviders := by
  intro calls
  induction calls with
  | nil =>
    intro st st' hd _ h
    unfold runCalls at h
    simp only [Outcome.done.injEq] at h
    rw [← h]
    exact hd
  | cons call rest ih =>
    intro st st' hd hfresh h
    unfold runCalls at h
    unfold callsAreFresh at hfresh
    rw [Bool.and_eq_true] at hfresh
    cases hc : applyCall cfg env st call with
    | done s =>
      rw [hc] at h hfresh
      exact ih s st' (applyCall_distinct hd hfresh.1 hc) hfresh.2 h
    | blocked s => rw [hc] at h; exact absurd h (by simp)
    | assertFailed => rw [hc] at h; exact absurd h (by simp)
    | outOfFuel => rw [hc] at h; exact absurd h (by simp)

theorem loadedState_distinct (cfg : Config) (iocount : Nat → Int) :
    DistinctRoots (loadedState cfg iocount).s_activeProviders := by
  intro i j hi _ _ hnz
  exfalso
  apply hnz
  have := registry_getD_empty cfg [] MaxActiveProviders i (Nat.zero_le i) (by simpa using hi)
  simp only [List.nil_append] at this
  show ((List.replicate MaxActiveProviders (emptyProvider cfg)).getD i
    default).virtualizationRootVNode = NULLVP
  rw [this]
  rfl

/-- C12, counterexample: from the empty registry two clients register and get
the slots 0 and 1, then each registers the directory /R as its root. Both
calls of ActiveProvider_RegisterRoot return 0, and the two occupied slots
hold the same non-null root vnode 2: the function compares the vnode with the
root of its own slot only. -/
theorem two_providers_share_one_root :
    ∃ st1 st2 st3 st4,
      ActiveProvider_RegisterUserClient (loadedState sampleConfig (fun _ => 0)) 1001 77 =
        .done (some 0, st1) ∧
      ActiveProvider_RegisterUserClient st1 1002 78 = .done (some 1, st2) ∧
      ActiveProvider_RegisterRoot sampleConfig sampleEnv st2 0 "/R".toList = .done (0, st3) ∧
      ActiveProvider_RegisterRoot sampleConfig sampleEnv st3 1 "/R".toList = .done (0, st4) ∧
      runCalls sampleConfig sampleEnv (loadedState sampleConfig (fun _ => 0))
        [.registerUserClient 1001 77, .registerUserClient 1002 78,
         .registerRoot 0 "/R".toList, .registerRoot 1 "/R".toList] = .done st4 ∧
      (st4.s_activeProviders.getD 0 default).userClient = 1001 ∧
      (st4.s_activeProviders.getD 1 default).userClient = 1002 ∧
      (st4.s_activeProviders.getD 0 default).virtualizationRootVNode = 2 ∧
      (st4.s_activeProviders.getD 1 default).virtualizationRootVNode = 2 ∧
      (2 : Nat) ≠ NULLVP :=
  ⟨_, _, _, _, rfl, rfl, rfl, rfl, rfl, by decide, by decide, by decide, by decide, by decide⟩

/-- C12, amended: in every registry state reached from the empty registry by a
sequence of ActiveProvider_RegisterUserClient, ActiveProvider_RegisterRoot and
ActiveProvider_Disconnect calls in which every root registration whose path
resolves names a vnode that at that time is not the root of any other slot,
no two slots, occupied or not, hold the same non-null root vnode. The
registry itself does not enforce this: ActiveProvider_RegisterRoot looks at
the root of its own slot only. -/
theorem roots_distinct_when_registrations_fresh (cfg : Config) (env : Env)
    (iocount : Nat → Int) (calls : List RegistryCall) (st : KextState)
    (hfresh : callsAreFresh cfg env (loadedState cfg iocount) calls = true)
    (hrun : runCalls cfg env (loadedState cfg iocount) calls = .done st) :
    ∀ i j, i < MaxActiveProviders → j < MaxActiveProviders → i ≠ j →
      (st.s_activeProviders.getD i default).virtualizationRootVNode ≠ NULLVP →
      (st.s_activeProviders.getD i default).virtualizationRootVNode ≠
        (st.s_activeProviders.getD j default).virtualizationRootVNode :=
  runCalls_distinct cfg env calls _ st (loadedState_distinct cfg iocount) hfresh hrun

theorem roots_distinct_when_registrations_fresh_witness :
    ∃ st,
      callsAreFresh sampleConfig volumeEnv (loadedState sampleConfig (fun _ => 0))
        [.registerUserClient 1001 77, .registerUserClient 1002 78,
         .registerRoot 0 "/R".toList, .registerRoot 1 "/".toList, .disconnect 0,
         .registerUserClient 1003 79, .registerRoot 0 "/R".toList] = true ∧
      runCalls sampleConfig volumeEnv (loadedState sampleConfig (fun _ => 0))
        [.registerUserClient 1001 77, .registerUserClient 1002 78,
         .registerRoot 0 "/R".toList, .registerRoot 1 "/".toList, .disconnect 0,
         .registerUserClient 1003 79, .registerRoot 0 "/R".toList] = .done st ∧
      (st.s_activeProviders.getD 0 default).virtualizationRootVNode = 2 ∧
      (st.s_activeProviders.getD 1 default).virtualizationRootVNode = 1 ∧
      ∀ i j, i < MaxActiveProviders → j < MaxActiveProviders → i ≠ j →
        (st.s_activeProviders.getD i default).virtualizationRootVNode ≠ NULLVP →
        (st.s_activeProviders.getD i default).virtualizationRootVNode ≠
          (st.s_activeProviders.getD j default).virtualizationRootVNode :=
  ⟨_, by decide, rfl, by decide, by decide,
   roots_distinct_when_registrations_fresh sampleConfig volumeEnv (fun _ => 0)
     [.registerUserClient 1001 77, .registerUserClient 1002 78,
      .registerRoot 0 "/R".toList, .registerRoot 1 "/".toList, .disconnect 0,
      .registerUserClient 1003 79, .registerRoot 0 "/R".toList] _ (by decide) rfl⟩

theorem respondFirst_keys (messageId responseType : Nat) :
    ∀ l : List OutstandingMessage,
      recordKeys (respondFirst messageId responseType l).1 = recordKeys l := by
  intro l
  induction l with
  | nil => rfl
  | cons m rest ih =>
    unfold respondFirst
    split
    · rfl
    · simp only [recordKeys, List.map_cons] at ih ⊢
      rw [ih]

theorem handleResponse_keys (st : KextState) (messageId responseType : Nat) :
    recordKeys (KauthHandler_HandleKernelMessageResponse st messageId
      responseType).s_outstandingMessages = recordKeys st.s_outstandingMessages := by
  rw [handleResponse_list]
  split
  · exact respondFirst_keys _ _ _
  · rfl

theorem deliver_keys (batch : List Response) :
    ∀ st : KextState,
      recordKeys (deliver st batch).s_outstandingMessages =
        recordKeys st.s_outstandingMessages := by
  induction batch with
  | nil => intro st; rfl
  | cons r rest ih =>
    intro st
    exact (ih _).trans (handleResponse_keys st r.messageId r.responseType)

theorem waitForResponse_keys (addr : Nat) :
    ∀ (schedule : List (List Response)) (st st' : KextState),
      waitForResponse addr schedule st = .done st' →
      recordKeys st'.s_outstandingMessages = recordKeys st.s_outstandingMessages := by
  intro schedule
  induction schedule with
  | nil =>
    intro st st' h
    unfold waitForResponse at h
    split at h
    · simp only [Outcome.done.injEq] at h
      rw [h]
    · exact absurd h (by simp)
  | cons b bs ih =>
    intro st st' h
    unfold waitForResponse at h
    split at h
    · simp only [Outcome.done.injEq] at h
      rw [h]
    · exact (ih _ _ h).trans (deliver_keys b _)

theorem sendMessage_list {cfg : Config} {st st' : KextState} {provider err : Nat} {m : Message}
    (h : ActiveProvider_SendMessage cfg st provider m = .done (err, st')) :
    st'.s_outstandingMessages = st.s_outstandingMessages ∧
      st'.s_nextMessageId = st.s_nextMessageId := by
  by_cases hp : provider < MaxActiveProviders
  · by_cases hc : (st.s_activeProviders.getD provider default).userClient = 0
    · rw [sendMessage_null m hp hc] at h
      simp only [Outcome.done.injEq, Prod.mk.injEq] at h
      rw [← h.2]
      exact ⟨rfl, rfl⟩
    · rw [sendMessage_ok m hp hc] at h
      simp only [Outcome.done.injEq, Prod.mk.injEq] at h
      rw [← h.2]
      exact ⟨rfl, rfl⟩
  · rw [sendMessage_assert m hp] at h
    exact absurd h (by simp)

theorem list_remove_keys (st : KextState) (addr : Nat) (request : MessageHeader)
    (keys : List (Nat × MessageHeader))
    (h : recordKeys st.s_outstandingMessages = (addr, request) :: keys) :
    recordKeys (LIST_REMOVE st addr).s_outstandingMessages = keys := by
  cases hl : st.s_outstandingMessages with
  | nil =>
    rw [hl] at h
    exact absurd h (by simp [recordKeys])
  | cons m rest =>
    rw [hl] at h
    simp only [recordKeys, List.map_cons, List.cons.injEq, Prod.mk.injEq] at h
    have hm := list_remove_head st m rest hl
    rw [h.1.1] at hm
    rw [hm]
    exact h.2

theorem trySend_keys {cfg : Config} {env : Env} {vnode provider : Nat}
    {st : KextState} {messageType : Nat} {pid : Int} {procname : List Char}
    {kauthError : Int} {message : OutstandingMessage} {schedule : List (List Response)}
    {r : Bool × Nat × Int × KextState}
    (h : TrySendRequestAndWaitForResponse cfg env st provider messageType vnode pid procname
      kauthError message schedule = .done r) :
    recordKeys r.2.2.2.s_outstandingMessages = recordKeys st.s_outstandingMessages := by
  cases hpath : vn_getpath cfg env vnode with
  | none =>
    rw [trySend_path_fail st provider messageType pid procname kauthError message schedule hpath]
      at h
    simp only [Outcome.done.injEq] at h
    rw [← h]
  | some vnodePath =>
    cases hrel : GetRelativePath vnodePath
        (cstr (st.s_activeProviders.getD provider default).virtualizationRoot) with
    | none =>
      rw [trySend_assert st provider messageType pid procname kauthError message schedule
        hpath hrel] at h
      exact absurd h (by simp)
    | some relativePath =>
      rw [trySend_eq st provider messageType pid procname kauthError message schedule
        hpath hrel] at h
      cases hs : ActiveProvider_SendMessage cfg
          (enqueuedState st messageType pid procname relativePath message) provider
          (Message_Init (toUInt64 st.s_nextMessageId) messageType pid procname relativePath) with
      | assertFailed => rw [hs] at h; exact absurd h (by simp)
      | outOfFuel => rw [hs] at h; exact absurd h (by simp)
      | blocked b => rw [hs] at h; exact absurd h (by simp)
      | done x =>
        obtain ⟨err, st2⟩ := x
        rw [hs] at h
        have hl2 := (sendMessage_list hs).1
        have hk2 : recordKeys st2.s_outstandingMessages =
            (message.addr, (requestRecord st messageType pid procname relativePath
              message).request) :: recordKeys st.s_outstandingMessages := by
          rw [hl2]
          rfl
        dsimp only at h
        split at h
        · simp only [Outcome.done.injEq] at h
          rw [← h]
          exact list_remove_keys st2 _ _ _ hk2
        · cases hw : waitForResponse message.addr schedule.tail (deliver st2 schedule.headI) with
          | assertFailed => rw [hw] at h; exact absurd h (by simp)
          | outOfFuel => rw [hw] at h; exact absurd h (by simp)
          | blocked b => rw [hw] at h; exact absurd h (by simp)
          | done st3 =>
            rw [hw] at h
            have hk3 : recordKeys st3.s_outstandingMessages =
                (message.addr, (requestRecord st messageType pid procname relativePath
                  message).request) :: recordKeys st.s_outstandingMessages := by
              rw [waitForResponse_keys _ _ _ _ hw, deliver_keys, hk2]
            dsimp only at h
            split at h
            · simp only [Outcome.done.injEq] at h
              rw [← h]
              exact list_remove_keys st3 _ _ _ hk3
            · simp only [Outcome.done.injEq] at h
              rw [← h]
              exact list_remove_keys st3 _ _ _ hk3

theorem handleResponse_headLinked {old : List OutstandingMessage} {addr ownId : Nat}
    {s : KextState} (messageId responseType : Nat) (hs : HeadLinked old addr ownId s)
    (hr : messageId = ownId ∨ ∀ m ∈ old, m.request.messageId ≠ messageId) :
    HeadLinked old addr ownId
      (KauthHandler_HandleKernelMessageResponse s messageId responseType) := by
  obtain ⟨m, hl, ha, hid⟩ := hs
  unfold HeadLinked
  rw [handleResponse_list, hl]
  split
  · unfold respondFirst
    split
    · exact ⟨_, rfl, ha, hid⟩
    · rename_i hne
      rcases hr with hr | hr
      · exact absurd (hid.trans hr.symm) hne
      · rw [respondFirst_none messageId responseType old hr]
        exact ⟨m, rfl, ha, hid⟩
  · exact ⟨m, rfl, ha, hid⟩

theorem deliver_headLinked {old : List OutstandingMessage} {addr ownId : Nat}
    (batch : List Response) :
    ∀ s : KextState, HeadLinked old addr ownId s →
      (∀ r ∈ batch, r.messageId = ownId ∨ ∀ m ∈ old, m.request.messageId ≠ r.messageId) →
      HeadLinked old addr ownId (deliver s batch) := by
  induction batch with
  | nil => intro s hs _; exact hs
  | cons r rest ih =>
    intro s hs hb
    exact ih _ (handleResponse_headLinked r.messageId r.responseType hs
      (hb r (List.mem_cons_self _ _))) (fun x hx => hb x (List.mem_cons_of_mem _ hx))

theorem waitForResponse_headLinked {old : List OutstandingMessage} {addr ownId : Nat}
    (a : Nat) :
    ∀ (schedule : List (List Response)) (st st' : KextState),
      HeadLinked old addr ownId st → AnswersOnly schedule ownId old →
      waitForResponse a schedule st = .done st' → HeadLinked old addr ownId st' := by
  intro schedule
  induction schedule with
  | nil =>
    intro st st' hs _ h
    unfold waitForResponse at h
    split at h
    · simp only [Outcome.done.injEq] at h
      rw [← h]
      exact hs
    · exact absurd h (by simp)
  | cons b bs ih =>
    intro st st' hs hans h
    unfold waitForResponse at h
    split at h
    · simp only [Outcome.done.injEq] at h
      rw [← h]
      exact hs
    · have hs1 : HeadLinked old addr ownId (st.emit (Event.sleep a)) := hs
      exact ih _ _ (deliver_headLinked b _ hs1 (hans b (List.mem_cons_self _ _)))
        (fun x hx => hans x (List.mem_cons_of_mem _ hx)) h

theorem list_remove_headLinked {old : List OutstandingMessage} {addr ownId : Nat}
    {s : KextState} (hs : HeadLinked old addr ownId s) :
    (LIST_REMOVE s addr).s_outstandingMessages = old := by
  obtain ⟨m, hl, ha, -⟩ := hs
  have := list_remove_head s m old hl
  rw [ha] at this
  rw [this]

theorem answersOnly_head {schedule : List (List Response)} {ownId : Nat}
    {old : List OutstandingMessage} (h : AnswersOnly schedule ownId old) :
    (∀ r ∈ schedule.headI, r.messageId = ownId ∨ ∀ m ∈ old, m.request.messageId ≠ r.messageId) ∧
      AnswersOnly schedule.tail ownId old := by
  cases schedule with
  | nil =>
    refine ⟨?_, ?_⟩
    · intro r hr
      exact absurd hr (by simp [List.headI, default])
    · intro b hb
      exact absurd hb (by simp)
  | cons b bs =>
    exact ⟨h b (List.mem_cons_self _ _), fun x hx => h x (List.mem_cons_of_mem _ hx)⟩

theorem trySend_list {cfg : Config} {env : Env} {vnode provider : Nat}
    {st : KextState} {messageType : Nat} {pid : Int} {procname : List Char}
    {kauthError : Int} {message : OutstandingMessage} {schedule : List (List Response)}
    {r : Bool × Nat × Int × KextState}
    (h : TrySendRequestAndWaitForResponse cfg env st provider messageType vnode pid procname
      kauthError message schedule = .done r)
    (hans : AnswersOnly schedule (toUInt64 st.s_nextMessageId) st.s_outstandingMessages) :
    r.2.2.2.s_outstandingMessages = st.s_outstandingMessages := by
  cases hpath : vn_getpath cfg env vnode with
  | none =>
    rw [trySend_path_fail st provider messageType pid procname kauthError message schedule hpath]
      at h
    simp only [Outcome.done.injEq] at h
    rw [← h]
  | some vnodePath =>
    cases hrel : GetRelativePath vnodePath
        (cstr (st.s_activeProviders.getD provider default).virtualizationRoot) with
    | none =>
      rw [trySend_assert st provider messageType pid procname kauthError message schedule
        hpath hrel] at h
      exact absurd h (by simp)
    | some relativePath =>
      rw [trySend_eq st provider messageType pid procname kauthError message schedule
        hpath hrel] at h
      cases hs : ActiveProvider_SendMessage cfg
          (enqueuedState st messageType pid procname relativePath message) provider
          (Message_Init (toUInt64 st.s_nextMessageId) messageType pid procname relativePath) with
      | assertFailed => rw [hs] at h; exact absurd h (by simp)
      | outOfFuel => rw [hs] at h; exact absurd h (by simp)
      | blocked b => rw [hs] at h; exact absurd h (by simp)
      | done x =>
        obtain ⟨err, st2⟩ := x
        rw [hs] at h
        have hid : (requestRecord st messageType pid procname relativePath
            message).request.messageId = toUInt64 st.s_nextMessageId := by
          simp only [requestRecord, Message_Init]
          exact toUInt64_mod _
        have h2 : HeadLinked st.s_outstandingMessages message.addr
            (toUInt64 st.s_nextMessageId) st2 :=
          ⟨requestRecord st messageType pid procname relativePath message,
            (sendMessage_list hs).1, rfl, hid⟩
        obtain ⟨hhead, htail⟩ := answersOnly_head hans
        dsimp only at h
        split at h
        · simp only [Outcome.done.injEq] at h
          rw [← h]
          exact list_remove_headLinked h2
        · cases hw : waitForResponse message.addr schedule.tail (deliver st2 schedule.headI) with
          | assertFailed => rw [hw] at h; exact absurd h (by simp)
          | outOfFuel => rw [hw] at h; exact absurd h (by simp)
          | blocked b => rw [hw] at h; exact absurd h (by simp)
          | done st3 =>
            rw [hw] at h
            have h3 := waitForResponse_headLinked message.addr _ _ _
              (deliver_headLinked schedule.headI st2 h2 hhead) htail hw
            dsimp only at h
            split at h
            · simp only [Outcome.done.injEq] at h
              rw [← h]
              exact list_remove_headLinked h3
            · simp only [Outcome.done.injEq] at h
              rw [← h]
              exact list_remove_headLinked h3

theorem handle_keys {cfg : Config} {env : Env} {fuel : Nat} {st : KextState}
    {action : Nat} {pid : Int} {currentVnode : Nat} {kauthError : Int}
    {message : OutstandingMessage} {schedule : List (List Response)} {r : HandlerResult}
    (h : HandleVnodeOperation cfg env fuel st action pid currentVnode kauthError message
      schedule = .done r) :
    recordKeys r.state.s_outstandingMessages = recordKeys st.s_outstandingMessages := by
  have hreq : ∀ (s : KextState) (provider messageType flags kauthResult : Nat)
      (procname : List Char),
      requestIfEmpty cfg env s provider messageType pid procname currentVnode flags kauthResult
        kauthError message schedule = .done r →
      recordKeys r.state.s_outstandingMessages = recordKeys s.s_outstandingMessages := by
    intro s provider messageType flags kauthResult procname hq
    unfold requestIfEmpty at hq
    split at hq
    · cases ht : TrySendRequestAndWaitForResponse cfg env s provider messageType currentVnode
          pid procname kauthError message schedule with
      | assertFailed => rw [ht] at hq; exact absurd hq (by simp [asHandlerResult])
      | outOfFuel => rw [ht] at hq; exact absurd hq (by simp [asHandlerResult])
      | blocked b => rw [ht] at hq; exact absurd hq (by simp [asHandlerResult])
      | done x =>
        rw [ht] at hq
        obtain ⟨b, kr, ke, s'⟩ := x
        simp only [asHandlerResult, Outcome.done.injEq] at hq
        rw [← hq]
        exact trySend_keys ht
    · simp only [Outcome.done.injEq] at hq
      rw [← hq]
  unfold HandleVnodeOperation at h
  dsimp only at h
  split at h
  · exact absurd h (by simp)
  · split at h
    · simp only [Outcome.done.injEq] at h
      rw [← h]
    · split at h
      · simp only [Outcome.done.injEq] at h
        rw [← h]
      · split at h
        · exact absurd h (by simp)
        · rename_i st1 hf
          simp only [Outcome.done.injEq] at h
          rw [← h, (ActiveProviders_Find_frame hf).1.outstanding]
        · rename_i provider st1 hf
          have hfr := (ActiveProviders_Find_frame hf).1.outstanding
          split at h
          · simp only [Outcome.done.injEq] at h
            rw [← h, hfr]
          · rw [← hfr]
            unfold dispatch at h
            split at h
            · split at h
              · exact hreq _ _ _ _ _ _ h
              · simp only [Outcome.done.injEq] at h
                rw [← h]
            · split at h
              · exact hreq _ _ _ _ _ _ h
              · simp only [Outcome.done.injEq] at h
                rw [← h]

theorem findUnused_some {ps : List ActiveProvider} {i : Nat}
    (h : FindUnusedIndex_Locked ps = some i) :
    i < MaxActiveProviders ∧ (ps.getD i default).userClient = 0 := by
  unfold FindUnusedIndex_Locked at h
  have h1 := List.find?_some h
  have h2 := List.mem_of_find?_eq_some h
  exact ⟨List.mem_range.mp h2, beq_iff_eq.mp h1⟩

theorem registerUserClient_rootless {st : KextState} (userClient : Nat) (clientPID : Int)
    (hinv : FreeSlotsRootless st.s_activeProviders) :
    ∃ r st', ActiveProvider_RegisterUserClient st userClient clientPID = .done (r, st') ∧
      FreeSlotsRootless st'.s_activeProviders := by
  unfold ActiveProvider_RegisterUserClient
  cases hf : FindUnusedIndex_Locked st.s_activeProviders with
  | none => exact ⟨none, st, rfl, hinv⟩
  | some i =>
    obtain ⟨hi, hc⟩ := findUnused_some hf
    have hroot := hinv i hi hc
    simp only [if_pos hi, if_pos hroot]
    refine ⟨some i, _, rfl, ?_⟩
    intro k hk hk0
    show ((st.s_activeProviders.set _ _).getD k default).virtualizationRootVNode = NULLVP
    have hk0' : ((st.s_activeProviders.set i
        { st.s_activeProviders.getD i default with
          userClient := userClient, pid := clientPID }).getD k default).userClient = 0 := hk0
    rw [getD_set] at hk0' ⊢
    split
    · exact hroot
    · rename_i hne
      rw [if_neg hne] at hk0'
      exact hinv k hk hk0'

theorem registerRoot_rootless {cfg : Config} {env : Env} {st : KextState} {provider : Nat}
    (path : List Char) (hinv : FreeSlotsRootless st.s_activeProviders)
    (hp : provider < MaxActiveProviders)
    (hocc : (st.s_activeProviders.getD provider default).userClient ≠ 0) :
    ∃ err st', ActiveProvider_RegisterRoot cfg env st provider path = .done (err, st') ∧
      FreeSlotsRootless st'.s_activeProviders := by
  have key : ∀ a : ActiveProvider,
      a.userClient = (st.s_activeProviders.getD provider default).userClient →
      FreeSlotsRootless (st.s_activeProviders.set provider a) := by
    intro a ha k hk hk0
    rw [getD_set] at hk0 ⊢
    split
    · rename_i hc
      rw [if_pos hc, ha] at hk0
      exact absurd hk0 hocc
    · rename_i hc
      rw [if_neg hc] at hk0
      exact hinv k hk hk0
  unfold ActiveProvider_RegisterRoot
  rw [if_pos hp]
  cases hl : env.lookup path with
  | mk e found =>
  dsimp only
  by_cases he : e = 0
  · subst he
    simp only [if_true, true_and]
    by_cases hd : env.vnode_isdir found = true
    · by_cases hroot : ((vnode_get st found).s_activeProviders.getD provider
          default).virtualizationRootVNode = NULLVP
      · rw [if_pos hd, if_pos hroot]
        simp only [ne_eq, not_true_eq_false, if_false]
        exact ⟨_, _, rfl, key _ rfl⟩
      · rw [if_pos hd, if_neg hroot]
        refine ⟨_, _, rfl, ?_⟩
        dsimp only
        split <;> exact hinv
    · rw [if_neg hd]
      simp only [if_true]
      refine ⟨_, _, rfl, ?_⟩
      split <;> exact hinv
  · simp only [he, if_false, false_and]
    refine ⟨_, _, rfl, ?_⟩
    split <;> exact hinv

theorem disconnect_rootless {cfg : Config} {st : KextState} {provider : Nat}
    (hinv : FreeSlotsRootless st.s_activeProviders)
    (hp : provider < MaxActiveProviders)
    (hocc : (st.s_activeProviders.getD provider default).userClient ≠ 0) :
    ∃ st', ActiveProvider_Disconnect cfg st provider = .done st' ∧
      FreeSlotsRootless st'.s_activeProviders := by
  have key : ∀ a : ActiveProvider, a.virtualizationRootVNode = NULLVP →
      FreeSlotsRootless (st.s_activeProviders.set provider a) := by
    intro a ha k hk hk0
    rw [getD_set] at hk0 ⊢
    split
    · exact ha
    · rename_i hc
      rw [if_neg hc] at hk0
      exact hinv k hk hk0
  unfold ActiveProvider_Disconnect
  rw [if_pos hp]
  dsimp only
  rw [if_pos hocc]
  by_cases hv : (st.s_activeProviders.getD provider default).virtualizationRootVNode ≠ NULLVP
  · simp only [if_pos hv]
    exact ⟨_, rfl, key _ rfl⟩
  · simp only [if_neg hv]
    exact ⟨_, rfl, key _ (not_not.mp hv)⟩

theorem applyCall_rootless {cfg : Config} {env : Env} {st : KextState} {call : RegistryCall}
    (hinv : FreeSlotsRootless st.s_activeProviders) (hocc : callOnOccupied st call = true) :
    ∃ st', applyCall cfg env st call = .done st' ∧
      FreeSlotsRootless st'.s_activeProviders := by
  cases call with
  | registerUserClient userClient clientPID =>
    obtain ⟨r, st', h1, h2⟩ := registerUserClient_rootless userClient clientPID hinv
    refine ⟨st', ?_, h2⟩
    dsimp only [applyCall]
    rw [h1]
  | registerRoot provider path =>
    simp only [callOnOccupied, Bool.and_eq_true, decide_eq_true_eq, bne_iff_ne, ne_eq] at hocc
    obtain ⟨err, st', h1, h2⟩ := @registerRoot_rootless cfg env st provider path hinv hocc.1 hocc.2
    refine ⟨st', ?_, h2⟩
    dsimp only [applyCall]
    rw [h1]
  | disconnect provider =>
    simp only [callOnOccupied, Bool.and_eq_true, decide_eq_true_eq, bne_iff_ne, ne_eq] at hocc
    exact @disconnect_rootless cfg st provider hinv hocc.1 hocc.2

theorem runCalls_rootless (cfg : Config) (env : Env) :
    ∀ (calls : List RegistryCall) (st : KextState),
      FreeSlotsRootless st.s_activeProviders → callsOnOccupied cfg env st calls = true →
      ∃ st', runCalls cfg env st calls = .done st' ∧
        FreeSlotsRootless st'.s_activeProviders := by
  intro calls
  induction calls with
  | nil => intro st hinv _; exact ⟨st, rfl, hinv⟩
  | cons call rest ih =>
    intro st hinv hocc
    unfold callsOnOccupied at hocc
    rw [Bool.and_eq_true] at hocc
    obtain ⟨s, hs, hinv'⟩ := @applyCall_rootless cfg env st call hinv hocc.1
    rw [hs] at hocc
    obtain ⟨st', h1, h2⟩ := ih s hinv' hocc.2
    refine ⟨st', ?_, h2⟩
    unfold runCalls
    rw [hs]
    exact h1

theorem loadedState_rootless (cfg : Config) (iocount : Nat → Int) :
    FreeSlotsRootless (loadedState cfg iocount).s_activeProviders := by
  intro i hi _
  have := registry_getD_empty cfg [] MaxActiveProviders i (Nat.zero_le i) (by simpa using hi)
  simp only [List.nil_append] at this
  show ((List.replicate MaxActiveProviders (emptyProvider cfg)).getD i
    default).virtualizationRootVNode = NULLVP
  rw [this]
  rfl

/-- C21: the code at a failing input. From the empty registry a client
registers and gets slot 0, the slot is disconnected, and
ActiveProvider_RegisterRoot is then called on it with the directory /R. The
call returns 0 and leaves slot 0 with a null client handle and the root vnode
2: unlike ActiveProvider_Disconnect, which asserts that the slot has a client,
the function does not look at the client handle. The next
ActiveProvider_RegisterUserClient picks slot 0, the first one with a null
client, and its assert that the root vnode of the slot is null fails. -/
theorem register_root_on_disconnected_slot :
    ∃ st1 st2 st3,
      ActiveProvider_RegisterUserClient (loadedState sampleConfig (fun _ => 0)) 1001 77 =
        .done (some 0, st1) ∧
      ActiveProvider_Disconnect sampleConfig st1 0 = .done st2 ∧
      ActiveProvider_RegisterRoot sampleConfig sampleEnv st2 0 "/R".toList = .done (0, st3) ∧
      (st3.s_activeProviders.getD 0 default).userClient = 0 ∧
      (st3.s_activeProviders.getD 0 default).virtualizationRootVNode = 2 ∧
      (2 : Nat) ≠ NULLVP ∧
      FindUnusedIndex_Locked st3.s_activeProviders = some 0 ∧
      ActiveProvider_RegisterUserClient st3 1002 78 = .assertFailed ∧
      runCalls sampleConfig sampleEnv (loadedState sampleConfig (fun _ => 0))
        [.registerUserClient 1001 77, .disconnect 0, .registerRoot 0 "/R".toList,
         .registerUserClient 1002 78] = .assertFailed :=
  ⟨_, _, _, rfl, rfl, rfl, by decide, by decide, by decide, by decide, rfl, rfl⟩

/-- The assert of ActiveProvider_RegisterUserClient holds as long as roots
are registered on occupied slots only, which is what ActiveProvider_Disconnect
asserts of its own slot: from the empty registry, every sequence of
ActiveProvider_RegisterUserClient, ActiveProvider_RegisterRoot and
ActiveProvider_Disconnect calls in which each root registration and each
disconnect is made on a slot of the array whose client handle is not null at
the time of the call runs to its end with no assert failing, and in the state
reached every slot whose client handle is null has a null root vnode. -/
theorem free_slots_have_no_root (cfg : Config) (env : Env) (iocount : Nat → Int)
    (calls : List RegistryCall)
    (hocc : callsOnOccupied cfg env (loadedState cfg iocount) calls = true) :
    ∃ st, runCalls cfg env (loadedState cfg iocount) calls = .done st ∧
      (∀ i, i < MaxActiveProviders → (st.s_activeProviders.getD i default).userClient = 0 →
        (st.s_activeProviders.getD i default).virtualizationRootVNode = NULLVP) ∧
      ∀ userClient clientPID, ∃ r st',
        ActiveProvider_RegisterUserClient st userClient clientPID = .done (r, st') := by
  obtain ⟨st, hrun, hinv⟩ := runCalls_rootless cfg env calls _
    (loadedState_rootless cfg iocount) hocc
  refine ⟨st, hrun, hinv, ?_⟩
  intro userClient clientPID
  obtain ⟨r, st', h, -⟩ := registerUserClient_rootless userClient clientPID hinv
  exact ⟨r, st', h⟩

theorem free_slots_have_no_root_witness :
    callsOnOccupied sampleConfig sampleEnv (loadedState sampleConfig (fun _ => 0))
      [.registerUserClient 1001 77, .registerRoot 0 "/R".toList, .disconnect 0,
       .registerUserClient 1002 78, .registerRoot 0 "/R".toList,
       .registerUserClient 1003 79, .disconnect 0] = true ∧
    ∃ st, runCalls sampleConfig sampleEnv (loadedState sampleConfig (fun _ => 0))
        [.registerUserClient 1001 77, .registerRoot 0 "/R".toList, .disconnect 0,
         .registerUserClient 1002 78, .registerRoot 0 "/R".toList,
         .registerUserClient 1003 79, .disconnect 0] = .done st ∧
      (∀ i, i < MaxActiveProviders → (st.s_activeProviders.getD i default).userClient = 0 →
        (st.s_activeProviders.getD i default).virtualizationRootVNode = NULLVP) :=
  ⟨by decide,
   (free_slots_have_no_root sampleConfig sampleEnv (fun _ => 0)
      [.registerUserClient 1001 77, .registerRoot 0 "/R".toList, .disconnect 0,
       .registerUserClient 1002 78, .registerRoot 0 "/R".toList,
       .registerUserClient 1003 79, .disconnect 0] (by decide)).imp
     (fun _ h => ⟨h.1, h.2.1⟩)⟩

theorem handle_eq_untilRequest (cfg : Config) (env : Env) (fuel : Nat) (st : KextState)
    (action : Nat) (pid : Int) (currentVnode : Nat) (kauthError : Int)
    (message : OutstandingMessage) (schedule : List (List Response)) :
    HandleVnodeOperation cfg env fuel st action pid currentVnode kauthError message schedule =
      match HandleVnodeOperation_untilRequest cfg env fuel st action pid currentVnode with
      | .done (.returns kauthResult s) => .done ⟨kauthResult, kauthError, s⟩
      | .done (.requests provider messageType procname s) =>
        asHandlerResult (TrySendRequestAndWaitForResponse cfg env s provider messageType
          currentVnode pid procname kauthError message schedule)
      | .blocked s => .blocked s
      | .assertFailed => .assertFailed
      | .outOfFuel => .outOfFuel := by
  unfold HandleVnodeOperation HandleVnodeOperation_untilRequest dispatch requestIfEmpty
  cases ReadVNodeFileFlags env currentVnode with
  | none => rfl
  | some flags =>
    dsimp only
    split
    · rfl
    · split
      · rfl
      · cases ActiveProviders_Find env fuel st currentVnode with
        | none => rfl
        | some x =>
          obtain ⟨p, st1⟩ := x
          cases p with
          | none => rfl
          | some provider =>
            dsimp only
            split
            · rfl
            · split
              · split
                · split <;> rfl
                · rfl
              · split
                · split <;> rfl
                · rfl

theorem untilRequest_list {cfg : Config} {env : Env} {fuel : Nat} {st : KextState}
    {action : Nat} {pid : Int} {currentVnode : Nat} {x : Interception}
    (h : HandleVnodeOperation_untilRequest cfg env fuel st action pid currentVnode = .done x) :
    (∀ k s, x = .returns k s → s.s_outstandingMessages = st.s_outstandingMessages) ∧
    (∀ p mt pn s, x = .requests p mt pn s →
      s.s_outstandingMessages = st.s_outstandingMessages) := by
  unfold HandleVnodeOperation_untilRequest at h
  cases hflags : ReadVNodeFileFlags env currentVnode with
  | none =>
    rw [hflags] at h
    exact absurd h (by simp)
  | some flags =>
    rw [hflags] at h
    dsimp only at h
    split at h
    · simp only [Outcome.done.injEq] at h
      subst h
      exact ⟨fun k s hx => (by cases hx; rfl), fun p mt pn s hx => (by cases hx)⟩
    · split at h
      · simp only [Outcome.done.injEq] at h
        subst h
        exact ⟨fun k s hx => (by cases hx; rfl), fun p mt pn s hx => (by cases hx)⟩
      · cases hf : ActiveProviders_Find env fuel st currentVnode with
        | none =>
          rw [hf] at h
          exact absurd h (by simp)
        | some y =>
          obtain ⟨p, st1⟩ := y
          have hfr := (ActiveProviders_Find_frame hf).1.outstanding
          rw [hf] at h
          cases p with
          | none =>
            simp only [Outcome.done.injEq] at h
            subst h
            exact ⟨fun k s hx => (by cases hx; exact hfr), fun p mt pn s hx => (by cases hx)⟩
          | some provider =>
            dsimp only at h
            have hret : ∀ k, (Outcome.done (Interception.returns k st1) = Outcome.done x) →
                (∀ k s, x = .returns k s → s.s_outstandingMessages = st.s_outstandingMessages) ∧
                (∀ p mt pn s, x = .requests p mt pn s →
                  s.s_outstandingMessages = st.s_outstandingMessages) := by
              intro k hk
              simp only [Outcome.done.injEq] at hk
              subst hk
              exact ⟨fun k s hx => (by cases hx; exact hfr), fun p mt pn s hx => (by cases hx)⟩
            have hreq : ∀ p mt pn,
                (Outcome.done (Interception.requests p mt pn st1) = Outcome.done x) →
                (∀ k s, x = .returns k s → s.s_outstandingMessages = st.s_outstandingMessages) ∧
                (∀ p mt pn s, x = .requests p mt pn s →
                  s.s_outstandingMessages = st.s_outstandingMessages) := by
              intro p mt pn hk
              simp only [Outcome.done.injEq] at hk
              subst hk
              exact ⟨fun k s hx => (by cases hx), fun p mt pn s hx => (by cases hx; exact hfr)⟩
            split at h
            · exact hret _ h
            · split at h
              · split at h
                · split at h
                  · exact hreq _ _ _ h
                  · exact hret _ h
                · exact hret _ h
              · split at h
                · split at h
                  · exact hreq _ _ _ h
                  · exact hret _ h
                · exact hret _ h

theorem stepEffect_same {st s : KextState} {t t' : Interceptor}
    (haddr : t'.message.addr = t.message.addr) (hh : holdsRecord t'.stage = holdsRecord t.stage)
    (hl : s.s_outstandingMessages = st.s_outstandingMessages) : StepEffect st t (s, t') :=
  ⟨haddr, Or.inr (Or.inr ⟨hh, hl⟩)⟩

theorem stepInterceptor_cases (cfg : Config) (env : Env) (fuel : Nat) (st : KextState)
    (t : Interceptor) : StepEffect st t (stepInterceptor cfg env fuel st t) := by
  cases hs : t.stage with
  | idle =>
    have heq : stepInterceptor cfg env fuel st t = (st, t) := by
      unfold stepInterceptor; rw [hs]
    rw [heq]
    exact stepEffect_same rfl rfl rfl
  | intercepted action =>
    cases hu : HandleVnodeOperation_untilRequest cfg env fuel st action t.pid t.vnode with
    | done x =>
      cases x with
      | returns k s =>
        have heq : stepInterceptor cfg env fuel st t =
            (s, { t with stage := .finished k t.kauthError }) := by
          unfold stepInterceptor; rw [hs]; dsimp only; rw [hu]
        rw [heq]
        exact stepEffect_same rfl (by rw [hs]; rfl) ((untilRequest_list hu).1 k s rfl)
      | requests p mt pn s =>
        have heq : stepInterceptor cfg env fuel st t =
            (s, { t with provider := p, messageType := mt, procname := pn, stage := .entered }) := by
          unfold stepInterceptor; rw [hs]; dsimp only; rw [hu]
        rw [heq]
        exact stepEffect_same rfl (by rw [hs]; rfl) ((untilRequest_list hu).2 p mt pn s rfl)
    | blocked s =>
      have heq : stepInterceptor cfg env fuel st t = (st, { t with stage := .failed false }) := by
        unfold stepInterceptor; rw [hs]; dsimp only; rw [hu]
      rw [heq]
      exact stepEffect_same rfl (by rw [hs]; rfl) rfl
    | assertFailed =>
      have heq : stepInterceptor cfg env fuel st t = (st, { t with stage := .failed false }) := by
        unfold stepInterceptor; rw [hs]; dsimp only; rw [hu]
      rw [heq]
      exact stepEffect_same rfl (by rw [hs]; rfl) rfl
    | outOfFuel =>
      have heq : stepInterceptor cfg env fuel st t = (st, { t with stage := .failed false }) := by
        unfold stepInterceptor; rw [hs]; dsimp only; rw [hu]
      rw [heq]
      exact stepEffect_same rfl (by rw [hs]; rfl) rfl
  | entered =>
    cases hpath : vn_getpath cfg env t.vnode with
    | none =>
      have heq : stepInterceptor cfg env fuel st t =
          (st, { t with
            message := { t.message with receivedResponse := false }
            stage := .returned false KAUTH_RESULT_DENY t.kauthError }) := by
        unfold stepInterceptor; rw [hs]; dsimp only; rw [hpath]
      rw [heq]
      exact stepEffect_same rfl (by rw [hs]; rfl) rfl
    | some vnodePath =>
      cases hrel : GetRelativePath vnodePath
          (cstr (st.s_activeProviders.getD t.provider default).virtualizationRoot) with
      | none =>
        have heq : stepInterceptor cfg env fuel st t =
            (st, { t with
              message := { t.message with receivedResponse := false }
              stage := .failed false }) := by
          unfold stepInterceptor; rw [hs]; dsimp only; rw [hpath]; dsimp only; rw [hrel]
        rw [heq]
        exact stepEffect_same rfl (by rw [hs]; rfl) rfl
      | some relativePath =>
        have heq : stepInterceptor cfg env fuel st t =
            (st, { t with
              message := { t.message with receivedResponse := false }
              stage := .resolved relativePath }) := by
          unfold stepInterceptor; rw [hs]; dsimp only; rw [hpath]; dsimp only; rw [hrel]
        rw [heq]
        exact stepEffect_same rfl (by rw [hs]; rfl) rfl
  | resolved relativePath =>
    have heq : stepInterceptor cfg env fuel st t =
        ((OSIncrementAtomic st).2,
          { t with
            message := { t.message with
              request := (Message_Init (toUInt64 (OSIncrementAtomic st).1) t.messageType t.pid
                t.procname relativePath).messageHeader }
            stage := .issued (Message_Init (toUInt64 (OSIncrementAtomic st).1) t.messageType
              t.pid t.procname relativePath) }) := by
      unfold stepInterceptor; rw [hs]
    rw [heq]
    exact stepEffect_same rfl (by rw [hs]; rfl) rfl
  | issued messageSpec =>
    have heq : stepInterceptor cfg env fuel st t =
        (LIST_INSERT_HEAD st t.message, { t with stage := .linked messageSpec }) := by
      unfold stepInterceptor; rw [hs]
    rw [heq]
    exact ⟨rfl, Or.inl ⟨by rw [hs]; rfl, rfl, t.message, rfl, rfl⟩⟩
  | linked messageSpec =>
    cases hsend : ActiveProvider_SendMessage cfg st t.provider messageSpec with
    | done x =>
      obtain ⟨err, s⟩ := x
      have hl := (sendMessage_list hsend).1
      by_cases herr : err ≠ 0
      · have heq : stepInterceptor cfg env fuel st t =
            (s, { t with stage := .leaving false KAUTH_RESULT_DEFER t.kauthError }) := by
          unfold stepInterceptor; rw [hs]; dsimp only; rw [hsend]; dsimp only; rw [if_pos herr]
        rw [heq]
        exact stepEffect_same rfl (by rw [hs]; rfl) hl
      · have heq : stepInterceptor cfg env fuel st t = (s, { t with stage := .waiting }) := by
          unfold stepInterceptor; rw [hs]; dsimp only; rw [hsend]; dsimp only; rw [if_neg herr]
        rw [heq]
        exact stepEffect_same rfl (by rw [hs]; rfl) hl
    | blocked s =>
      have heq : stepInterceptor cfg env fuel st t = (st, { t with stage := .failed true }) := by
        unfold stepInterceptor; rw [hs]; dsimp only; rw [hsend]
      rw [heq]
      exact stepEffect_same rfl (by rw [hs]; rfl) rfl
    | assertFailed =>
      have heq : stepInterceptor cfg env fuel st t = (st, { t with stage := .failed true }) := by
        unfold stepInterceptor; rw [hs]; dsimp only; rw [hsend]
      rw [heq]
      exact stepEffect_same rfl (by rw [hs]; rfl) rfl
    | outOfFuel =>
      have heq : stepInterceptor cfg env fuel st t = (st, { t with stage := .failed true }) := by
        unfold stepInterceptor; rw [hs]; dsimp only; rw [hsend]
      rw [heq]
      exact stepEffect_same rfl (by rw [hs]; rfl) rfl
  | waiting =>
    by_cases hr : receivedAt st t.message.addr = true
    · have heq : stepInterceptor cfg env fuel st t = (st, { t with stage := .woken }) := by
        unfold stepInterceptor; rw [hs]; dsimp only; rw [if_pos hr]
      rw [heq]
      exact stepEffect_same rfl (by rw [hs]; rfl) rfl
    · have heq : stepInterceptor cfg env fuel st t =
          (st.emit (Event.sleep t.message.addr), t) := by
        unfold stepInterceptor; rw [hs]; dsimp only; rw [if_neg hr]
      rw [heq]
      exact stepEffect_same rfl rfl rfl
  | woken =>
    by_cases hr : MessageType_Response_Success =
        (match recordAt st t.message.addr with
          | some m => m.response
          | none => t.message.response)
    · have heq : stepInterceptor cfg env fuel st t =
          (st, { t with stage := .leaving true KAUTH_RESULT_DEFER t.kauthError }) := by
        unfold stepInterceptor; rw [hs]; dsimp only; rw [if_pos hr]
      rw [heq]
      exact stepEffect_same rfl (by rw [hs]; rfl) rfl
    · have heq : stepInterceptor cfg env fuel st t =
          (st, { t with stage := .leaving false KAUTH_RESULT_DENY EAGAIN }) := by
        unfold stepInterceptor; rw [hs]; dsimp only; rw [if_neg hr]
      rw [heq]
      exact stepEffect_same rfl (by rw [hs]; rfl) rfl
  | leaving result kauthResult kauthError =>
    have heq : stepInterceptor cfg env fuel st t =
        (LIST_REMOVE st t.message.addr, { t with stage := .returned result kauthResult kauthError }) := by
      unfold stepInterceptor; rw [hs]
    rw [heq]
    exact ⟨rfl, Or.inr (Or.inl ⟨by rw [hs]; rfl, rfl, rfl⟩)⟩
  | returned result kauthResult kauthError =>
    have heq : stepInterceptor cfg env fuel st t =
        (st, { t with stage := .finished kauthResult kauthError }) := by
      unfold stepInterceptor; rw [hs]
    rw [heq]
    exact stepEffect_same rfl (by rw [hs]; rfl) rfl
  | finished kauthResult kauthError =>
    have heq : stepInterceptor cfg env fuel st t = (st, t) := by
      unfold stepInterceptor; rw [hs]
    rw [heq]
    exact stepEffect_same rfl rfl rfl
  | failed recordLinked =>
    have heq : stepInterceptor cfg env fuel st t = (st, t) := by
      unfold stepInterceptor; rw [hs]
    rw [heq]
    exact stepEffect_same rfl rfl rfl

theorem countP_eraseP_self {α : Type} (p : α → Bool) :
    ∀ l : List α, (l.eraseP p).countP p = l.countP p - 1 := by
  intro l
  induction l with
  | nil => rfl
  | cons x rest ih =>
    by_cases hx : p x = true
    · rw [List.eraseP_cons_of_pos hx, List.countP_cons, if_pos hx]
      omega
    · rw [List.eraseP_cons_of_neg hx, List.countP_cons, List.countP_cons, ih, if_neg hx]
      omega

theorem countP_eraseP_other {α : Type} (p q : α → Bool) (h : ∀ x, q x = true → p x = false) :
    ∀ l : List α, (l.eraseP q).countP p = l.countP p := by
  intro l
  induction l with
  | nil => rfl
  | cons x rest ih =>
    by_cases hx : q x = true
    · rw [List.eraseP_cons_of_pos hx, List.countP_cons, h x hx]
      simp
    · rw [List.eraseP_cons_of_neg hx, List.countP_cons, List.countP_cons, ih]

theorem filter_eraseP_other {α : Type} (p q : α → Bool) (h : ∀ x, q x = true → p x = false) :
    ∀ l : List α, (l.eraseP q).filter p = l.filter p := by
  intro l
  induction l with
  | nil => rfl
  | cons x rest ih =>
    by_cases hx : q x = true
    · rw [List.eraseP_cons_of_pos hx, List.filter_cons, h x hx]
      simp
    · rw [List.eraseP_cons_of_neg hx, List.filter_cons, List.filter_cons, ih]

theorem recordKeys_eraseP (l : List OutstandingMessage) (a : Nat) :
    recordKeys (l.eraseP (fun m => m.addr == a)) =
      (recordKeys l).eraseP (fun k => k.1 == a) := by
  unfold recordKeys
  rw [List.eraseP_map]
  rfl

theorem set_of_getElem? {α : Type} :
    ∀ (l : List α) (i : Nat) (a : α), l[i]? = some a → l.set i a = l := by
  intro l
  induction l with
  | nil => intro i a _; rfl
  | cons x rest ih =>
    intro i a h
    cases i with
    | zero =>
      simp only [List.getElem?_cons_zero, Option.some.injEq] at h
      rw [h]
      rfl
    | succ i =>
      simp only [List.getElem?_cons_succ] at h
      simp only [List.set_cons_succ]
      rw [ih i a h]

theorem frames_distinct {addrs : List Nat} (hnd : addrs.Nodup) {threads : List Interceptor}
    (hframes : threads.map (fun t => t.message.addr) = addrs) {i j : Nat} {t t' : Interceptor}
    (hi : threads[i]? = some t) (hj : threads[j]? = some t') (hij : i ≠ j) :
    t.message.addr ≠ t'.message.addr := by
  intro heq
  have h1 : addrs[i]? = some t.message.addr := by
    rw [← hframes, List.getElem?_map, hi]
    rfl
  have h2 : addrs[j]? = some t.message.addr := by
    rw [← hframes, List.getElem?_map, hj, heq]
    rfl
  have hlen : ∀ k a, addrs[k]? = some a → k < addrs.length := by
    intro k a hk
    by_contra hc
    rw [List.getElem?_eq_none (by omega)] at hk
    exact absurd hk (by simp)
  rcases Nat.lt_or_gt_of_ne hij with h | h
  · exact List.nodup_iff_getElem?_ne_getElem?.mp hnd i j h (hlen j _ h2) (h1.trans h2.symm)
  · exact List.nodup_iff_getElem?_ne_getElem?.mp hnd j i h (hlen i _ h1) (h2.trans h1.symm)

theorem getElem?_lt {α : Type} {l : List α} {i : Nat} {a : α} (h : l[i]? = some a) :
    i < l.length := by
  by_contra hc
  rw [List.getElem?_eq_none (by omega)] at h
  exact absurd h (by simp)

theorem listInvariant_update {first : List OutstandingMessage} {addrs : List Nat}
    (hnd : addrs.Nodup) {m : Machine} (hinv : ListInvariant first addrs m)
    {i : Nat} {t t' : Interceptor} {st' : KextState}
    (hi : m.threads[i]? = some t) (haddr : t'.message.addr = t.message.addr)
    (hown : (recordKeys st'.s_outstandingMessages).countP (fun k => k.1 == t.message.addr) =
      if holdsRecord t'.stage then 1 else 0)
    (hother : ∀ a, a ≠ t.message.addr →
      (recordKeys st'.s_outstandingMessages).countP (fun k => k.1 == a) =
        (recordKeys m.kext.s_outstandingMessages).countP (fun k => k.1 == a))
    (hforeign : foreignKeys addrs (recordKeys st'.s_outstandingMessages) =
      foreignKeys addrs (recordKeys m.kext.s_outstandingMessages)) :
    ListInvariant first addrs { kext := st', threads := m.threads.set i t' } := by
  have hlt := getElem?_lt hi
  refine ⟨?_, ?_, hforeign.trans hinv.foreign⟩
  · show (m.threads.set i t').map (fun t => t.message.addr) = addrs
    rw [List.map_set, haddr]
    have h1 : (m.threads.map (fun t => t.message.addr))[i]? = some t.message.addr := by
      rw [List.getElem?_map, hi]
      rfl
    rw [set_of_getElem? _ _ _ h1]
    exact hinv.frames
  · intro j tj hj
    have hj' : (m.threads.set i t')[j]? = some tj := hj
    by_cases hji : j = i
    · subst hji
      rw [List.getElem?_set_self hlt] at hj'
      simp only [Option.some.injEq] at hj'
      subst hj'
      show (recordKeys st'.s_outstandingMessages).countP (fun k => k.1 == t'.message.addr) = _
      rw [haddr]
      exact hown
    · rw [List.getElem?_set_ne (fun h => hji h.symm)] at hj'
      have hne := frames_distinct hnd hinv.frames hj' hi hji
      show (recordKeys st'.s_outstandingMessages).countP (fun k => k.1 == tj.message.addr) = _
      rw [hother _ hne]
      exact hinv.linked j tj hj'

theorem frame_mem_addrs {first : List OutstandingMessage} {addrs : List Nat} {m : Machine}
    (hinv : ListInvariant first addrs m) {i : Nat} {t : Interceptor}
    (hi : m.threads[i]? = some t) : t.message.addr ∈ addrs := by
  rw [← hinv.frames]
  exact List.mem_map.mpr ⟨t, List.getElem?_mem hi, rfl⟩

theorem listInvariant_stepEffect {first : List OutstandingMessage} {addrs : List Nat}
    (hnd : addrs.Nodup) {m : Machine} (hinv : ListInvariant first addrs m)
    {i : Nat} {t t' : Interceptor} {st' : KextState}
    (hi : m.threads[i]? = some t) (heff : StepEffect m.kext t (st', t')) :
    ListInvariant first addrs { kext := st', threads := m.threads.set i t' } := by
  obtain ⟨haddr, hcase⟩ := heff
  have hold := hinv.linked i t hi
  have hmem := frame_mem_addrs hinv hi
  rcases hcase with ⟨h1, h2, r, hr, hl⟩ | ⟨h1, h2, hl⟩ | ⟨h1, hl⟩
  · have hk : recordKeys st'.s_outstandingMessages =
        (t.message.addr, r.request) :: recordKeys m.kext.s_outstandingMessages := by
      show recordKeys (st', t').1.s_outstandingMessages = _
      rw [hl, ← hr]
      rfl
    apply listInvariant_update hnd hinv hi haddr
    · show _ = if holdsRecord (st', t').2.stage then 1 else 0
      rw [hk, List.countP_cons, hold, h1, h2]
      simp
    · intro a ha
      rw [hk, List.countP_cons]
      have : ((t.message.addr, r.request).1 == a) = false := by
        simpa using fun h => ha h.symm
      rw [this]
      simp
    · rw [hk]
      unfold foreignKeys
      rw [List.filter_cons]
      simp [hmem]
  · have hk : recordKeys st'.s_outstandingMessages =
        (recordKeys m.kext.s_outstandingMessages).eraseP (fun k => k.1 == t.message.addr) := by
      show recordKeys (st', t').1.s_outstandingMessages = _
      rw [hl, recordKeys_eraseP]
    apply listInvariant_update hnd hinv hi haddr
    · show _ = if holdsRecord (st', t').2.stage then 1 else 0
      rw [hk, countP_eraseP_self, hold, h1, h2]
      simp
    · intro a ha
      rw [hk]
      apply countP_eraseP_other
      intro x hx
      have h3 : x.1 = t.message.addr := by simpa using hx
      simpa [h3] using fun h => ha h.symm
    · rw [hk]
      unfold foreignKeys
      apply filter_eraseP_other
      intro x hx
      have h3 : x.1 = t.message.addr := by simpa using hx
      simp [h3, hmem]
  · have hk : recordKeys st'.s_outstandingMessages =
        recordKeys m.kext.s_outstandingMessages := by
      show recordKeys (st', t').1.s_outstandingMessages = _
      rw [hl]
    apply listInvariant_update hnd hinv hi haddr
    · show _ = if holdsRecord (st', t').2.stage then 1 else 0
      rw [hk, hold, h1]
    · intro a _
      rw [hk]
    · rw [hk]

theorem listInvariant_move (cfg : Config) (env : Env) (fuel : Nat)
    {first : List OutstandingMessage} {addrs : List Nat} (hnd : addrs.Nodup) {m : Machine}
    (hinv : ListInvariant first addrs m) (mv : Move) :
    ListInvariant first addrs (m.move cfg env fuel mv) := by
  cases mv with
  | call i action pid vnode kauthError =>
    dsimp only [Machine.move]
    cases hi : m.threads[i]? with
    | none => exact hinv
    | some t =>
      dsimp only
      by_cases hout : t.stage.isOutside = true
      · rw [if_pos hout]
        have hh : holdsRecord t.stage = false := by
          cases hs : t.stage <;> rw [hs] at hout <;>
            first | rfl | exact absurd hout (by simp [Stage.isOutside])
        refine listInvariant_update hnd hinv hi ?_ ?_ ?_ ?_
        · rfl
        · have := hinv.linked i t hi
          rw [hh] at this
          rw [this]
          rfl
        · intro a _; rfl
        · rfl
      · rw [if_neg hout]
        exact hinv
  | step i =>
    dsimp only [Machine.move]
    cases hi : m.threads[i]? with
    | none => exact hinv
    | some t =>
      exact listInvariant_stepEffect hnd hinv hi (stepInterceptor_cases cfg env fuel m.kext t)
  | respond messageId responseType =>
    dsimp only [Machine.move]
    have hk := handleResponse_keys m.kext messageId responseType
    refine ⟨hinv.frames, ?_, ?_⟩
    · intro j tj hj
      show (recordKeys (KauthHandler_HandleKernelMessageResponse m.kext messageId
        responseType).s_outstandingMessages).countP _ = _
      rw [hk]
      exact hinv.linked j tj hj
    · show foreignKeys addrs (recordKeys (KauthHandler_HandleKernelMessageResponse m.kext
        messageId responseType).s_outstandingMessages) = _
      rw [hk]
      exact hinv.foreign

theorem listInvariant_run (cfg : Config) (env : Env) (fuel : Nat)
    {first : List OutstandingMessage} {addrs : List Nat} (hnd : addrs.Nodup) :
    ∀ (moves : List Move) (m : Machine), ListInvariant first addrs m →
      ListInvariant first addrs (m.run cfg env fuel moves) := by
  intro moves
  induction moves with
  | nil => intro m h; exact h
  | cons mv rest ih =>
    intro m h
    exact ih _ (listInvariant_move cfg env fuel hnd h mv)

theorem listInvariant_start (st : KextState) (addrs : List Nat)
    (hfresh : ∀ r ∈ st.s_outstandingMessages, r.addr ∉ addrs) :
    ListInvariant st.s_outstandingMessages addrs (Machine.start st addrs) := by
  have hkeys : ∀ k ∈ recordKeys st.s_outstandingMessages, k.1 ∉ addrs := by
    intro k hk
    obtain ⟨r, hr, rfl⟩ := List.mem_map.mp hk
    exact hfresh r hr
  refine ⟨?_, ?_, ?_⟩
  · show (addrs.map idleInterceptor).map (fun t => t.message.addr) = addrs
    rw [List.map_map]
    exact List.map_id _
  · intro i t hi
    have hi' : (addrs.map idleInterceptor)[i]? = some t := hi
    rw [List.getElem?_map] at hi'
    cases ha : addrs[i]? with
    | none => rw [ha] at hi'; exact absurd hi' (by simp)
    | some a =>
      rw [ha] at hi'
      simp only [Option.map_some', Option.some.injEq] at hi'
      subst hi'
      show (recordKeys st.s_outstandingMessages).countP (fun k => k.1 == a) = 0
      rw [List.countP_eq_zero]
      intro k hk hka
      have : k.1 = a := by simpa using hka
      exact hkeys k hk (this ▸ List.getElem?_mem ha)
  · show foreignKeys addrs (recordKeys st.s_outstandingMessages) = _
    unfold foreignKeys
    rw [List.filter_eq_self]
    intro k hk
    simpa using hkeys k hk

theorem recordKeys_filter (q : Nat → Bool) (l : List OutstandingMessage) :
    recordKeys (l.filter (fun r => q r.addr)) = (recordKeys l).filter (fun k => q k.1) := by
  unfold recordKeys
  rw [List.filter_map]
  rfl

theorem not_linked_of_count {l : List OutstandingMessage} {a : Nat}
    (h : (recordKeys l).countP (fun k => k.1 == a) = 0) : ∀ r ∈ l, r.addr ≠ a := by
  intro r hr heq
  rw [List.countP_eq_zero] at h
  exact h (r.addr, r.request) (List.mem_map.mpr ⟨r, hr, rfl⟩) (by simpa using heq)

theorem listInvariant_not_linked {first : List OutstandingMessage} {addrs : List Nat}
    {m : Machine} (hinv : ListInvariant first addrs m) {i : Nat} {t : Interceptor}
    (hi : m.threads[i]? = some t) (hh : holdsRecord t.stage = false) :
    ∀ r ∈ m.kext.s_outstandingMessages, r.addr ≠ t.message.addr := by
  apply not_linked_of_count
  rw [hinv.linked i t hi, hh]
  rfl

theorem listInvariant_quiescent {first : List OutstandingMessage} {addrs : List Nat}
    {m : Machine} (hinv : ListInvariant first addrs m)
    (hq : ∀ t ∈ m.threads, holdsRecord t.stage = false) :
    recordKeys m.kext.s_outstandingMessages = recordKeys first := by
  rw [← hinv.foreign]
  unfold foreignKeys
  symm
  rw [List.filter_eq_self]
  intro k hk
  simp only [decide_eq_true_eq]
  intro hmem
  rw [← hinv.frames] at hmem
  obtain ⟨t, ht, hta⟩ := List.mem_map.mp hmem
  obtain ⟨i, hi⟩ := List.mem_iff_getElem?.mp ht
  have hc := hinv.linked i t hi
  rw [hq t ht] at hc
  simp only [Bool.false_eq_true, if_false] at hc
  rw [List.countP_eq_zero] at hc
  exact hc k hk (by simpa using hta.symm)

theorem step_leaves_others (cfg : Config) (env : Env) (fuel : Nat) (m : Machine) {i : Nat}
    {t : Interceptor} (hi : m.threads[i]? = some t) :
    (m.move cfg env fuel (.step i)).kext.s_outstandingMessages.filter
        (fun r => r.addr != t.message.addr) =
      m.kext.s_outstandingMessages.filter (fun r => r.addr != t.message.addr) := by
  dsimp only [Machine.move]
  rw [hi]
  dsimp only
  obtain ⟨-, hcase⟩ := stepInterceptor_cases cfg env fuel m.kext t
  rcases hcase with ⟨-, -, r, hr, hl⟩ | ⟨-, -, hl⟩ | ⟨-, hl⟩
  · rw [hl, List.filter_cons, hr]
    simp
  · rw [hl]
    apply filter_eraseP_other
    intro x hx
    have h3 : x.addr = t.message.addr := by simpa using hx
    simp [h3]
  · rw [hl]

theorem move_keeps_frame (cfg : Config) (env : Env) (fuel : Nat) (m : Machine) (mv : Move)
    {i : Nat} {t : Interceptor} (hi : m.threads[i]? = some t) :
    ∃ t', (m.move cfg env fuel mv).threads[i]? = some t' ∧
      t'.message.addr = t.message.addr := by
  have hlt := getElem?_lt hi
  cases mv with
  | call j action pid vnode kauthError =>
    dsimp only [Machine.move]
    cases hj : m.threads[j]? with
    | none => exact ⟨t, hi, rfl⟩
    | some tj =>
      dsimp only
      split
      · by_cases hji : j = i
        · subst hji
          rw [hi] at hj
          simp only [Option.some.injEq] at hj
          subst hj
          exact ⟨_, List.getElem?_set_self hlt, rfl⟩
        · exact ⟨t, by
            show (m.threads.set j _)[i]? = some t
            rw [List.getElem?_set_ne hji]; exact hi, rfl⟩
      · exact ⟨t, hi, rfl⟩
  | step j =>
    dsimp only [Machine.move]
    cases hj : m.threads[j]? with
    | none => exact ⟨t, hi, rfl⟩
    | some tj =>
      dsimp only
      by_cases hji : j = i
      · subst hji
        rw [hi] at hj
        simp only [Option.some.injEq] at hj
        subst hj
        exact ⟨_, List.getElem?_set_self hlt, (stepInterceptor_cases cfg env fuel m.kext t).1⟩
      · exact ⟨t, by
          show (m.threads.set j _)[i]? = some t
          rw [List.getElem?_set_ne hji]; exact hi, rfl⟩
  | respond messageId responseType => exact ⟨t, hi, rfl⟩

theorem move_by_keeps_others (cfg : Config) (env : Env) (fuel : Nat) (m : Machine) (mv : Move)
    {i : Nat} {t : Interceptor} (hi : m.threads[i]? = some t) (hby : mv.isBy i = true) :
    recordKeys ((m.move cfg env fuel mv).kext.s_outstandingMessages.filter
        (fun r => r.addr != t.message.addr)) =
      recordKeys (m.kext.s_outstandingMessages.filter (fun r => r.addr != t.message.addr)) := by
  cases mv with
  | call j action pid vnode kauthError =>
    dsimp only [Machine.move]
    cases hj : m.threads[j]? with
    | none => rfl
    | some tj =>
      dsimp only
      split <;> rfl
  | step j =>
    have hji : j = i := by simpa [Move.isBy] using hby
    subst hji
    rw [step_leaves_others cfg env fuel m hi]
  | respond messageId responseType =>
    dsimp only [Machine.move]
    rw [recordKeys_filter (fun a => a != t.message.addr),
      recordKeys_filter (fun a => a != t.message.addr), handleResponse_keys]

theorem run_by_keeps_others (cfg : Config) (env : Env) (fuel : Nat) :
    ∀ (moves : List Move) (m : Machine) (i : Nat) (t : Interceptor),
      m.threads[i]? = some t → (∀ mv ∈ moves, mv.isBy i = true) →
      recordKeys ((m.run cfg env fuel moves).kext.s_outstandingMessages.filter
          (fun r => r.addr != t.message.addr)) =
        recordKeys (m.kext.s_outstandingMessages.filter (fun r => r.addr != t.message.addr)) := by
  intro moves
  induction moves with
  | nil => intro m i t _ _; rfl
  | cons mv rest ih =>
    intro m i t hi hby
    obtain ⟨t', hi', haddr⟩ := move_keeps_frame cfg env fuel m mv hi
    have h1 := ih (m.move cfg env fuel mv) i t' hi'
      (fun x hx => hby x (List.mem_cons_of_mem _ hx))
    rw [haddr] at h1
    exact h1.trans (move_by_keeps_others cfg env fuel m mv hi (hby mv (List.mem_cons_self _ _)))

theorem run_keeps_frame (cfg : Config) (env : Env) (fuel : Nat) :
    ∀ (moves : List Move) (m : Machine) (i : Nat) (t : Interceptor),
      m.threads[i]? = some t →
      ∃ t', (m.run cfg env fuel moves).threads[i]? = some t' ∧
        t'.message.addr = t.message.addr := by
  intro moves
  induction moves with
  | nil => intro m i t hi; exact ⟨t, hi, rfl⟩
  | cons mv rest ih =>
    intro m i t hi
    obtain ⟨t1, h1, ha1⟩ := move_keeps_frame cfg env fuel m mv hi
    obtain ⟨t2, h2, ha2⟩ := ih (m.move cfg env fuel mv) i t1 h1
    exact ⟨t2, h2, ha2.trans ha1⟩

theorem filter_other_of_not_linked {l : List OutstandingMessage} {a : Nat}
    (h : ∀ r ∈ l, r.addr ≠ a) : l.filter (fun r => r.addr != a) = l := by
  rw [List.filter_eq_self]
  intro r hr
  simpa using h r hr

/-- C19, counterexample: two processes read the placeholder file 3 and their
interceptors overlap. When thread 0 enters TrySendRequestAndWaitForResponse
the list is empty. While it waits, thread 1 links its own record (frame
9100, request 2). Thread 0 is answered and returns with true and
KAUTH_RESULT_DEFER: its own record is unlinked, but the list now holds the
record of thread 1, so its other records are not those at entry. -/
theorem other_interceptor_links_during_call :
    (((Machine.start sampleState [9000, 9100]).run sampleConfig sampleEnv 10
      (overlappingMoves.take 2)).stageOf 0).map Stage.isEntered = some true ∧
    ((Machine.start sampleState [9000, 9100]).run sampleConfig sampleEnv 10
      (overlappingMoves.take 2)).kext.s_outstandingMessages = [] ∧
    (((Machine.start sampleState [9000, 9100]).run sampleConfig sampleEnv 10
      overlappingMoves).stageOf 0).bind Stage.returnedWith =
        some (true, KAUTH_RESULT_DEFER, 0) ∧
    (((Machine.start sampleState [9000, 9100]).run sampleConfig sampleEnv 10
      overlappingMoves).kext.s_outstandingMessages).map
        (fun r => (r.addr, r.request.messageId)) = [(9100, 2)] :=
  ⟨by decide, by decide, by decide, by decide⟩

/-- C19, amended: interceptor threads with frames at pairwise distinct
addresses, none of them the address of a record already in the list, make
accesses that overlap in any way, and the provider answers at any time. In
every state that is reached: each thread has its frame where it was; the
record of a thread is linked exactly once while the thread is between
LIST_INSERT_HEAD and LIST_REMOVE, and not linked otherwise, in particular when
TrySendRequestAndWaitForResponse has returned, on whichever return path; the
records at other addresses are those of the first list, in order and each
with its request; and when no thread is between LIST_INSERT_HEAD and
LIST_REMOVE the list has the records of the first list and is empty if that
was empty. A statement of a thread never changes a record other than its own
nor their order, a response changes no address, request or order, and when
only one thread and the provider move between two states in which the thread
holds no record, the list has the same records in both. The function run to
its return with only responses arriving leaves the records of the list as
they were. -/
theorem interceptors_unlink_their_records (cfg : Config) (env : Env) (fuel : Nat)
    (st : KextState) (addrs : List Nat) (moves : List Move)
    (hnd : addrs.Nodup) (hfresh : ∀ r ∈ st.s_outstandingMessages, r.addr ∉ addrs) :
    ∃ m, m = (Machine.start st addrs).run cfg env fuel moves ∧
      m.threads.map (fun t => t.message.addr) = addrs ∧
      (∀ (i : Nat) (t : Interceptor), m.threads[i]? = some t →
        (holdsRecord t.stage = true →
          m.kext.s_outstandingMessages.countP (fun r => r.addr == t.message.addr) = 1) ∧
        (holdsRecord t.stage = false →
          ∀ r ∈ m.kext.s_outstandingMessages, r.addr ≠ t.message.addr) ∧
        (∀ result kauthResult kauthError,
          t.stage = .returned result kauthResult kauthError →
          ∀ r ∈ m.kext.s_outstandingMessages, r.addr ≠ t.message.addr)) ∧
      recordKeys (m.kext.s_outstandingMessages.filter (fun r => decide (r.addr ∉ addrs))) =
        recordKeys st.s_outstandingMessages ∧
      ((∀ t ∈ m.threads, holdsRecord t.stage = false) →
        recordKeys m.kext.s_outstandingMessages = recordKeys st.s_outstandingMessages ∧
        (st.s_outstandingMessages = [] → m.kext.s_outstandingMessages = [])) ∧
      (∀ (i : Nat) (t : Interceptor), m.threads[i]? = some t →
        (m.move cfg env fuel (.step i)).kext.s_outstandingMessages.filter
            (fun r => r.addr != t.message.addr) =
          m.kext.s_outstandingMessages.filter (fun r => r.addr != t.message.addr)) ∧
      (∀ messageId responseType,
        recordKeys (m.move cfg env fuel (.respond messageId
          responseType)).kext.s_outstandingMessages = recordKeys m.kext.s_outstandingMessages) ∧
      (∀ (i : Nat) (t t' : Interceptor) (more : List Move), m.threads[i]? = some t →
        (∀ mv ∈ more, mv.isBy i = true) →
        (m.run cfg env fuel more).threads[i]? = some t' →
        holdsRecord t.stage = false → holdsRecord t'.stage = false →
        recordKeys (m.run cfg env fuel more).kext.s_outstandingMessages =
          recordKeys m.kext.s_outstandingMessages) ∧
      (∀ (s : KextState) (provider messageType vnode : Nat) (pid : Int) (procname : List Char)
          (kauthError : Int) (message : OutstandingMessage) (schedule : List (List Response))
          (r : Bool × Nat × Int × KextState),
        TrySendRequestAndWaitForResponse cfg env s provider messageType vnode pid procname
          kauthError message schedule = .done r →
        recordKeys r.2.2.2.s_outstandingMessages = recordKeys s.s_outstandingMessages ∧
        (AnswersOnly schedule (toUInt64 s.s_nextMessageId) s.s_outstandingMessages →
          r.2.2.2.s_outstandingMessages = s.s_outstandingMessages)) := by
  have hinv : ListInvariant st.s_outstandingMessages addrs
      ((Machine.start st addrs).run cfg env fuel moves) :=
    listInvariant_run cfg env fuel hnd moves _ (listInvariant_start st addrs hfresh)
  refine ⟨_, rfl, hinv.frames, ?_, ?_, ?_, ?_, ?_, ?_, ?_⟩
  · intro i t hi
    refine ⟨?_, listInvariant_not_linked hinv hi, ?_⟩
    · intro hh
      have hc := hinv.linked i t hi
      rw [hh] at hc
      unfold recordKeys at hc
      rw [List.countP_map] at hc
      exact hc
    · intro result kauthResult kauthError hs
      exact listInvariant_not_linked hinv hi (by rw [hs]; rfl)
  · rw [recordKeys_filter (fun a => decide (a ∉ addrs))]
    exact hinv.foreign
  · intro hq
    have hk := listInvariant_quiescent hinv hq
    refine ⟨hk, ?_⟩
    intro he
    rw [he] at hk
    simpa [recordKeys] using hk
  · intro i t hi
    exact step_leaves_others cfg env fuel _ hi
  · intro messageId responseType
    exact handleResponse_keys _ messageId responseType
  · intro i t t' more hi hby hi' hh hh'
    have hinv' := listInvariant_run cfg env fuel hnd more _ hinv
    obtain ⟨t'', h1, haddr⟩ := run_keeps_frame cfg env fuel more _ i t hi
    rw [hi'] at h1
    simp only [Option.some.injEq] at h1
    subst h1
    have hkeep := run_by_keeps_others cfg env fuel more _ i t hi hby
    have hf' := filter_other_of_not_linked (listInvariant_not_linked hinv' hi' hh')
    rw [haddr] at hf'
    rw [hf', filter_other_of_not_linked (listInvariant_not_linked hinv hi hh)] at hkeep
    exact hkeep
  · intro s provider messageType vnode pid procname kauthError message schedule r h
    exact ⟨trySend_keys h, fun hans => trySend_list h hans⟩

theorem interceptors_unlink_their_records_witness :
    [9000, 9100].Nodup ∧
    (∀ r ∈ sampleState.s_outstandingMessages, r.addr ∉ [9000, 9100]) ∧
    (((Machine.start sampleState [9000, 9100]).run sampleConfig sampleEnv 10
      (overlappingMoves ++ completingMoves)).threads).map (fun t => t.stage.finishedWith) =
      [some (KAUTH_RESULT_DEFER, 0), some (KAUTH_RESULT_DENY, EAGAIN)] ∧
    ((Machine.start sampleState [9000, 9100]).run sampleConfig sampleEnv 10
      (overlappingMoves ++ completingMoves)).kext.s_outstandingMessages = [] ∧
    (((Machine.start sampleState [9000]).run sampleConfig sampleEnv 10 soloMoves).stageOf 0).bind
        Stage.returnedWith = some (true, KAUTH_RESULT_DEFER, 0) ∧
    returnOf (TrySendRequestAndWaitForResponse sampleConfig sampleEnv sampleState 0
        MessageType_KtoU_HydrateFile 3 100 "cat".toList 0 sampleFrame
        [[⟨1, MessageType_Response_Success⟩]]) =
      some ((true, KAUTH_RESULT_DEFER, 0),
        ((Machine.start sampleState [9000]).run sampleConfig sampleEnv 10
          soloMoves).kext.s_outstandingMessages,
        ((Machine.start sampleState [9000]).run sampleConfig sampleEnv 10
          soloMoves).kext.s_nextMessageId) := by
  obtain ⟨m, hm, -, -, -, hquiet, -⟩ :=
    interceptors_unlink_their_records sampleConfig sampleEnv 10 sampleState [9000, 9100]
      (overlappingMoves ++ completingMoves) (by decide) (by decide)
  subst hm
  exact ⟨by decide, by decide, by decide, (hquiet (by decide)).2 rfl, by decide, by decide⟩

end PrjFS
